import Mathlib

/-! SVGF pass: buffer management and stage sequencing.

A shallow embedding of `src/Passes/SVGFPass.cpp` / `SVGFPass.h`.

The C++ class owns a handful of framebuffer pointers and flags, and each call of
`execute` issues a sequence of GPU commands (clears, full-screen draws, blits) to the
render context.  The embedding keeps exactly that shape:

* the object is a record `SVGFPass` of its member variables;
* every method is a function from the record to the new record and the list of
  commands it issued, in issue order;
* the per-pixel shader arithmetic is not modelled: a draw is recorded with the shader
  it runs, the resources bound to it and the framebuffer it renders into.

A null `SharedPtr` is `none`.  Where the source calls a method through a pointer that
is null (`mInputTex.prevLinearZ->getUAV()`, `fbo->getColorTexture(k)`,
`tex->getSRV()`, ..) the call faults: the frame stops there, no later command is issued
and no later assignment is made.  The command list then ends with the marker
`Cmd.fault`, and the object returned is the object as it was at that point.

Calls that hand a null pointer to the framework as an argument (`clearFbo(fbo.get(), ..)`
and `setFbo(fbo)` with a null `fbo`) are recorded as issued, with the null pointer: what
the framework does with it is not decided in this file.  None of this arises once
`resize` has allocated the buffers.
-/

namespace SVGF

/-! ## Values passed through to the GPU -/

/-- A 32-bit float, kept as its IEEE-754 bit pattern.  The pass only stores floats and
hands them to shaders, it never computes with them. -/
structure F32 where
  bits : Nat
deriving DecidableEq, Repr

/-- The float `0.0f`. -/
def F32.zero : F32 := ⟨0⟩

/-- The float `1.0f`. -/
def F32.one : F32 := ⟨0x3F800000⟩

/-- A `vec4` of floats. -/
structure Vec4 where
  x : F32
  y : F32
  z : F32
  w : F32
deriving DecidableEq, Repr

/-- The colour `glm::vec4(0)`. -/
def Vec4.zero : Vec4 := ⟨F32.zero, F32.zero, F32.zero, F32.zero⟩

/-- The resource formats used by `resize`. -/
inductive ResourceFormat where
  | RGBA32Float
  | R16Float
deriving DecidableEq, Repr

/-! ## Textures and framebuffers -/

/-- A texture the pass allocates on its own with `Texture::create2D`; `alloc` is the
number of the allocation. -/
structure Texture2D where
  alloc : Nat
  width : Nat
  height : Nat
  format : ResourceFormat
deriving DecidableEq, Repr

/-- A texture handle.
* `managed name`: the texture the resource manager keeps under `name`;
* `attachment fbo k`: colour target `k` of the framebuffer allocated as number `fbo`;
* `owned t`: a texture allocated by the pass itself. -/
inductive Tex where
  | managed (name : String)
  | attachment (fbo : Nat) (index : Nat)
  | owned (t : Texture2D)
deriving DecidableEq, Repr

/-- The part of `Fbo::Desc` that `resize` fills in: the sample count when it is set, and
the formats of colour targets `0, 1, ..` in index order. -/
structure FboDesc where
  sampleCount : Option Nat
  colorTargets : List ResourceFormat
deriving DecidableEq, Repr

/-- A framebuffer object as returned by `FboHelper::create2D`; `id` is the number of the
allocation, so two framebuffers from different `create2D` calls differ. -/
structure Fbo where
  id : Nat
  width : Nat
  height : Nat
  desc : FboDesc
deriving DecidableEq, Repr

/-- The call `FboHelper::create2D(width, height, desc)` as allocation number `id`. -/
def FboHelper.create2D (id width height : Nat) (desc : FboDesc) : Fbo :=
  { id := id, width := width, height := height, desc := desc }

/-- The value of `fbo->getColorTexture(k)` (and the texture behind
`fbo->getRenderTargetView(k)`): the colour target when the framebuffer has a target of
that index, null when it has not.  For a null `fbo` the call itself faults; the callers
below test for that, and the `none` returned here makes every use of the result fault as
well. -/
def getColorTexture (fbo : Option Fbo) (k : Nat) : Option Tex :=
  match fbo with
  | none => none
  | some f => if k < f.desc.colorTargets.length then some (Tex.attachment f.id k) else none

/-- Modelled from the spec: the resource manager of the surrounding framework
(`SharedUtils/ResourceManager`, not part of the pass).  Only one thing matters to the
pass, whether a named texture has been allocated yet; `textures` lists the names that
have. -/
structure ResourceManager where
  textures : List String
deriving DecidableEq, Repr

/-- The call `mpResManager->getTexture(name)`: the texture, or null while it is not
allocated. -/
def ResourceManager.getTexture (rm : ResourceManager) (name : String) : Option Tex :=
  if name ∈ rm.textures then some (Tex.managed name) else none

/-! ## GPU commands -/

/-- The five full-screen shader passes created in `SVGFPass::initialize`. -/
inductive Shader where
  | reproject
  | atrous
  | modulate
  | filterMoments
  | combineUnfiltered
deriving DecidableEq, Repr

/-- A value written into a constant buffer. -/
inductive Const where
  | int (v : Int)
  | bool (v : Bool)
  | float (v : F32)
deriving DecidableEq, Repr

/-- What `mpSvgfState->setFbo(..)` was given before a draw: one of the pass's own
framebuffer pointers, or the framebuffer `createManagedFbo` wraps around the named
resource-manager textures. -/
inductive Target where
  | fbo (f : Option Fbo)
  | managedFbo (colors : List (Option Tex))
deriving DecidableEq, Repr

/-- One `FullscreenLaunch::execute`: the shader, the textures and constants assigned to
its variables beforehand (in assignment order), and the render target. -/
structure Draw where
  shader : Shader
  textures : List (String × Option Tex)
  constants : List (String × Const)
  target : Target
deriving DecidableEq, Repr

/-- A command issued to the render context.  `clearFbo` carries the raw pointer
`fbo.get()` it was handed, `clearUAV` and `blit` the textures behind the views they were
handed.  `fault` is not a command: it marks the point where the frame stopped on a null
pointer, and is always the last entry of a command list. -/
inductive Cmd where
  | clearFbo (fbo : Option Fbo) (color : Vec4) (depth : F32) (stencil : Nat)
  | clearUAV (tex : Tex) (value : Vec4)
  | blit (src : Tex) (dst : Tex)
  | draw (d : Draw)
  | fault
deriving DecidableEq, Repr

/-- Whether an entry of a command list is the fault marker. -/
def Cmd.isFault : Cmd → Bool
  | Cmd.fault => true
  | _ => false

/-- Whether the frame stopped on a null pointer while issuing these commands. -/
def faulted (cmds : List Cmd) : Bool :=
  cmds.any Cmd.isFault

/-- The call `pRenderContext->blit(src->getSRV(), dst->getRTV())` for texture pointers
`src` and `dst` (for a destination given as `fbo->getRenderTargetView(k)`, `dst` is the
texture behind that view): the blit when both are there, a fault when one is null. -/
def blitCall (src dst : Option Tex) : List Cmd :=
  match src, dst with
  | some a, some b => [Cmd.blit a b]
  | _, _ => [Cmd.fault]

/-- The commands of `a` followed by those of `b`, where `b` is not reached when `a`
faulted. -/
def seqCmds (a b : List Cmd) : List Cmd :=
  if faulted a then a else a ++ b

/-! ## The pass object -/

/-- The anonymous struct `mInputTex`.  `prevLinearZ` is only ever assigned a texture the
pass allocates itself (in `resize`). -/
structure InputTex where
  miscBuf : Option Tex
  linearZ : Option Tex
  prevLinearZ : Option Texture2D
  dirAlbedo : Option Tex
  indirAlbedo : Option Tex
  motionVecs : Option Tex
  directIllum : Option Tex
  indirectIllum : Option Tex
deriving DecidableEq, Repr

/-- The member variables of `SVGFPass` that the `.cpp` reads or writes.
`mpPingPongFbo0/1` are `mpPingPongFbo[0]` and `mpPingPongFbo[1]`.  `nextAlloc` is not a
member: it numbers the allocations made so far, so that each `create2D` gets a fresh
number. -/
structure SVGFPass where
  mDirectInTexName : String
  mIndirectInTexName : String
  mOutTexName : String
  mpResManager : Option ResourceManager
  mFilterIterations : Int
  mFeedbackTap : Int
  mPhiColor : F32
  mPhiNormal : F32
  mAlpha : F32
  mMomentsAlpha : F32
  mpPingPongFbo0 : Option Fbo
  mpPingPongFbo1 : Option Fbo
  mpFilteredPastFbo : Option Fbo
  mpCurReprojFbo : Option Fbo
  mpPrevReprojFbo : Option Fbo
  mpOutputFbo : Option Fbo
  mInputTex : InputTex
  mNeedFboClear : Bool
  mFilterEnabled : Bool
  nextAlloc : Nat
deriving DecidableEq, Repr

/-- The constructor `SVGFPass::SVGFPass` with the default member initialisers of the
header (`10.0f`, `128.0f`, `0.05f`, `0.2f` as bit patterns). -/
def SVGFPass.create (directIn indirectIn outChannel : String) : SVGFPass :=
  { mDirectInTexName := directIn
    mIndirectInTexName := indirectIn
    mOutTexName := outChannel
    mpResManager := none
    mFilterIterations := 4
    mFeedbackTap := 1
    mPhiColor := ⟨0x41200000⟩
    mPhiNormal := ⟨0x43000000⟩
    mAlpha := ⟨0x3D4CCCCD⟩
    mMomentsAlpha := ⟨0x3E4CCCCD⟩
    mpPingPongFbo0 := none
    mpPingPongFbo1 := none
    mpFilteredPastFbo := none
    mpCurReprojFbo := none
    mpPrevReprojFbo := none
    mpOutputFbo := none
    mInputTex := ⟨none, none, none, none, none, none, none, none⟩
    mNeedFboClear := true
    mFilterEnabled := true
    nextAlloc := 0 }

/-- A step `r` followed by the step `k`, which starts from the object `r` left and is
not reached when `r` faulted. -/
def thenRun (r : SVGFPass × List Cmd) (k : SVGFPass → SVGFPass × List Cmd) :
    SVGFPass × List Cmd :=
  if faulted r.2 then r else ((k r.1).1, r.2 ++ (k r.1).2)

/-- The state change of `SVGFPass::initialize`: the resource manager is stashed.  (The
texture requests and shader creation have no effect on the members modelled here.) -/
def SVGFPass.setup (s : SVGFPass) (pResManager : ResourceManager) : SVGFPass :=
  { s with mpResManager := some pResManager }

/-- The method `SVGFPass::resize`. -/
def SVGFPass.resize (s : SVGFPass) (width height : Nat) : SVGFPass :=
  if width ≤ 0 ∨ height ≤ 0 then s
  else
    let a := s.nextAlloc
    let desc1 : FboDesc :=
      { sampleCount := some 0
        colorTargets := [ResourceFormat.RGBA32Float, ResourceFormat.RGBA32Float] }
    let desc2 : FboDesc :=
      { sampleCount := some 0
        colorTargets := [ResourceFormat.RGBA32Float, ResourceFormat.RGBA32Float,
                         ResourceFormat.RGBA32Float, ResourceFormat.R16Float] }
    let desc3 : FboDesc :=
      { sampleCount := none
        colorTargets := [ResourceFormat.RGBA32Float] }
    { s with
      mpPingPongFbo0 := some (FboHelper.create2D a width height desc1)
      mpPingPongFbo1 := some (FboHelper.create2D (a + 1) width height desc1)
      mpFilteredPastFbo := some (FboHelper.create2D (a + 2) width height desc1)
      mpCurReprojFbo := some (FboHelper.create2D (a + 3) width height desc2)
      mpPrevReprojFbo := some (FboHelper.create2D (a + 4) width height desc2)
      mpOutputFbo := some (FboHelper.create2D (a + 5) width height desc3)
      mInputTex :=
        { s.mInputTex with
          prevLinearZ := some ⟨a + 6, width, height, ResourceFormat.RGBA32Float⟩ }
      mNeedFboClear := true
      nextAlloc := a + 7 }

/-- The method `SVGFPass::clearFbos`.  The five `clearFbo` calls are handed
`fbo.get()`; `mInputTex.prevLinearZ->getUAV()` faults when the texture has not been
allocated, and then `mNeedFboClear = false` is not reached. -/
def SVGFPass.clearFbos (s : SVGFPass) : SVGFPass × List Cmd :=
  match s.mInputTex.prevLinearZ with
  | some z =>
    ({ s with mNeedFboClear := false },
     [ Cmd.clearFbo s.mpPrevReprojFbo Vec4.zero F32.one 0,
       Cmd.clearFbo s.mpCurReprojFbo Vec4.zero F32.one 0,
       Cmd.clearFbo s.mpFilteredPastFbo Vec4.zero F32.one 0,
       Cmd.clearFbo s.mpPingPongFbo0 Vec4.zero F32.one 0,
       Cmd.clearFbo s.mpPingPongFbo1 Vec4.zero F32.one 0,
       Cmd.clearUAV (Tex.owned z) ⟨F32.zero, F32.zero, F32.zero, F32.one⟩ ])
  | none =>
    (s,
     [ Cmd.clearFbo s.mpPrevReprojFbo Vec4.zero F32.one 0,
       Cmd.clearFbo s.mpCurReprojFbo Vec4.zero F32.one 0,
       Cmd.clearFbo s.mpFilteredPastFbo Vec4.zero F32.one 0,
       Cmd.clearFbo s.mpPingPongFbo0 Vec4.zero F32.one 0,
       Cmd.clearFbo s.mpPingPongFbo1 Vec4.zero F32.one 0,
       Cmd.fault ])

/-- The draw issued by `SVGFPass::computeReprojection`. -/
def SVGFPass.reprojectionDraw (s : SVGFPass) : Draw :=
  { shader := Shader.reproject
    textures :=
      [ ("gLinearZ", s.mInputTex.linearZ),
        ("gPrevLinearZ", s.mInputTex.prevLinearZ.map Tex.owned),
        ("gMotion", s.mInputTex.motionVecs),
        ("gPrevMoments", getColorTexture s.mpPrevReprojFbo 2),
        ("gHistoryLength", getColorTexture s.mpPrevReprojFbo 3),
        ("gPrevDirect", getColorTexture s.mpFilteredPastFbo 0),
        ("gPrevIndirect", getColorTexture s.mpFilteredPastFbo 1),
        ("gDirect", s.mInputTex.directIllum),
        ("gIndirect", s.mInputTex.indirectIllum) ]
    constants :=
      [ ("gAlpha", Const.float s.mAlpha),
        ("gMomentsAlpha", Const.float s.mMomentsAlpha) ]
    target := Target.fbo s.mpCurReprojFbo }

/-- The method `SVGFPass::computeReprojection`.  It calls `getColorTexture` through
`mpPrevReprojFbo` and `mpFilteredPastFbo` before it draws. -/
def SVGFPass.computeReprojection (s : SVGFPass) : List Cmd :=
  match s.mpPrevReprojFbo, s.mpFilteredPastFbo with
  | some _, some _ => [Cmd.draw s.reprojectionDraw]
  | _, _ => [Cmd.fault]

/-- The draw issued by `SVGFPass::computeVarianceEstimate`. -/
def SVGFPass.varianceDraw (s : SVGFPass) : Draw :=
  { shader := Shader.filterMoments
    textures :=
      [ ("gDirect", getColorTexture s.mpCurReprojFbo 0),
        ("gIndirect", getColorTexture s.mpCurReprojFbo 1),
        ("gMoments", getColorTexture s.mpCurReprojFbo 2),
        ("gHistoryLength", getColorTexture s.mpCurReprojFbo 3),
        ("gCompactNormDepth", s.mInputTex.miscBuf) ]
    constants :=
      [ ("gPhiColor", Const.float s.mPhiColor),
        ("gPhiNormal", Const.float s.mPhiNormal) ]
    target := Target.fbo s.mpPingPongFbo0 }

/-- The method `SVGFPass::computeVarianceEstimate`.  It calls `getColorTexture` through
`mpCurReprojFbo` before it draws. -/
def SVGFPass.computeVarianceEstimate (s : SVGFPass) : List Cmd :=
  match s.mpCurReprojFbo with
  | some _ => [Cmd.draw s.varianceDraw]
  | none => [Cmd.fault]

/-- Reinterpretation of an integer as a 32-bit two's-complement `int`. -/
def toInt32 (n : Int) : Int :=
  (n + 2 ^ 31) % 2 ^ 32 - 2 ^ 31

/-- The expression `1 << i` on `int`, for `0 <= i`: the bits shifted out of the 32-bit
word are lost and bit 31 is the sign. -/
def shiftLeftOne (i : Int) : Int :=
  toInt32 (2 ^ i.toNat)

/-- The render target of wavelet iteration `i`: `curTargetFbo` in the loop body. -/
def SVGFPass.curTargetFbo (s : SVGFPass) (i : Int) : Option Fbo :=
  if i = s.mFilterIterations - 1 then s.mpOutputFbo else s.mpPingPongFbo1

/-- The draw issued by iteration `i` of the loop in
`SVGFPass::computeAtrousDecomposition`. -/
def SVGFPass.atrousDraw (s : SVGFPass) (i : Int) : Draw :=
  { shader := Shader.atrous
    textures :=
      [ ("gHistoryLength", getColorTexture s.mpCurReprojFbo 3),
        ("gCompactNormDepth", s.mInputTex.miscBuf),
        ("gDirect", getColorTexture s.mpPingPongFbo0 0),
        ("gIndirect", getColorTexture s.mpPingPongFbo0 1),
        ("gAlbedo", s.mInputTex.dirAlbedo),
        ("gIndirAlbedo", s.mInputTex.indirAlbedo) ]
    constants :=
      [ ("gPhiColor", Const.float s.mPhiColor),
        ("gPhiNormal", Const.float s.mPhiNormal),
        ("gStepSize", Const.int (shiftLeftOne i)),
        ("gPerformModulation", Const.bool (decide (i = s.mFilterIterations - 1))) ]
    target := Target.fbo (s.curTargetFbo i) }

/-- The two blits "store the filtered color for the feedback path" of iteration `i`,
reached when `i == std::min(mFeedbackTap, mFilterIterations - 1)`.  Each reads
`curTargetFbo->getColorTexture(k)->getSRV()`: when `curTargetFbo` has no colour target
`k` the texture pointer is null and the call faults; the second blit is not reached
when the first one faulted.  (`mpFilteredPastFbo` is created with two colour targets, so
its render-target views 0 and 1 are there whenever the pointer is set.) -/
def SVGFPass.feedbackCapture (s : SVGFPass) (i : Int) : List Cmd :=
  if i = min s.mFeedbackTap (s.mFilterIterations - 1) then
    seqCmds
      (blitCall (getColorTexture (s.curTargetFbo i) 0) (getColorTexture s.mpFilteredPastFbo 0))
      (blitCall (getColorTexture (s.curTargetFbo i) 1) (getColorTexture s.mpFilteredPastFbo 1))
  else []

/-- The statement `std::swap(mpPingPongFbo[0], mpPingPongFbo[1])`. -/
def SVGFPass.swapPingPong (s : SVGFPass) : SVGFPass :=
  { s with mpPingPongFbo0 := s.mpPingPongFbo1, mpPingPongFbo1 := s.mpPingPongFbo0 }

/-- One pass through the body of the `for` loop of
`SVGFPass::computeAtrousDecomposition`: `getColorTexture` is called through
`mpPingPongFbo[0]`, then come the draw, the feedback capture when the index matches,
and the ping-pong swap, which is not reached when the capture faulted. -/
def SVGFPass.atrousIteration (s : SVGFPass) (i : Int) : SVGFPass × List Cmd :=
  match s.mpPingPongFbo0 with
  | none => (s, [Cmd.fault])
  | some _ =>
    if faulted (s.feedbackCapture i) then (s, Cmd.draw (s.atrousDraw i) :: s.feedbackCapture i)
    else (s.swapPingPong, Cmd.draw (s.atrousDraw i) :: s.feedbackCapture i)

/-- The loop `for (int i = ..; i < mFilterIterations; i++)`, entered at index `i` with
`n` iterations left to run; it stops at an iteration that faults. -/
def SVGFPass.atrousLoop : Nat → Int → SVGFPass → SVGFPass × List Cmd
  | 0, _, s => (s, [])
  | n + 1, i, s =>
    let r := s.atrousIteration i
    if faulted r.2 then r
    else
      let rest := SVGFPass.atrousLoop n (i + 1) r.1
      (rest.1, r.2 ++ rest.2)

/-- The blits after the loop of `SVGFPass::computeAtrousDecomposition`, taken when
`mFeedbackTap < 0 || mFilterIterations <= 0`. -/
def SVGFPass.fallbackCapture (s : SVGFPass) : List Cmd :=
  if s.mFeedbackTap < 0 ∨ s.mFilterIterations ≤ 0 then
    seqCmds
      (blitCall (getColorTexture s.mpCurReprojFbo 0) (getColorTexture s.mpFilteredPastFbo 0))
      (blitCall (getColorTexture s.mpCurReprojFbo 1) (getColorTexture s.mpFilteredPastFbo 1))
  else []

/-- The method `SVGFPass::computeAtrousDecomposition`.  `getColorTexture` is called
through `mpCurReprojFbo` first; the loop runs for `i = 0, .., mFilterIterations - 1`,
that is `mFilterIterations.toNat` times, and the blits after the loop are reached when
no iteration faulted. -/
def SVGFPass.computeAtrousDecomposition (s : SVGFPass) : SVGFPass × List Cmd :=
  match s.mpCurReprojFbo with
  | none => (s, [Cmd.fault])
  | some _ =>
    thenRun (SVGFPass.atrousLoop s.mFilterIterations.toNat 0 s) (fun t => (t, t.fallbackCapture))

/-- The draw issued by `SVGFPass::computeModulation`. -/
def SVGFPass.modulationDraw (s : SVGFPass) : Draw :=
  { shader := Shader.modulate
    textures :=
      [ ("gDirect", getColorTexture s.mpCurReprojFbo 0),
        ("gIndirect", getColorTexture s.mpCurReprojFbo 1),
        ("gDirAlbedo", s.mInputTex.dirAlbedo),
        ("gIndirAlbedo", s.mInputTex.indirAlbedo) ]
    constants := []
    target := Target.fbo s.mpOutputFbo }

/-- The method `SVGFPass::computeModulation`.  It calls `getColorTexture` through
`mpCurReprojFbo` before it draws. -/
def SVGFPass.computeModulation (s : SVGFPass) : List Cmd :=
  match s.mpCurReprojFbo with
  | some _ => [Cmd.draw s.modulationDraw]
  | none => [Cmd.fault]

/-- The draw of the `else` branch of `SVGFPass::execute` (filter disabled). -/
def SVGFPass.combineDraw (s : SVGFPass) (rm : ResourceManager) : Draw :=
  { shader := Shader.combineUnfiltered
    textures :=
      [ ("gDirect", s.mInputTex.directIllum),
        ("gIndirect", s.mInputTex.indirectIllum),
        ("gDirAlbedo", s.mInputTex.dirAlbedo),
        ("gIndirAlbedo", s.mInputTex.indirAlbedo) ]
    constants := []
    target := Target.managedFbo [rm.getTexture s.mOutTexName] }

/-- The assignments "Set up our textures to point appropriately" of
`SVGFPass::execute`. -/
def SVGFPass.bindInputs (s : SVGFPass) (rm : ResourceManager) : SVGFPass :=
  { s with
    mInputTex :=
      { s.mInputTex with
        directIllum := rm.getTexture s.mDirectInTexName
        indirectIllum := rm.getTexture s.mIndirectInTexName
        linearZ := rm.getTexture "SVGF_LinearZ"
        motionVecs := rm.getTexture "SVGF_MotionVecs"
        miscBuf := rm.getTexture "SVGF_CompactNormDepth"
        dirAlbedo := rm.getTexture "OutDirectAlbedo"
        indirAlbedo := rm.getTexture "OutIndirectAlbedo" } }

/-- The statement `std::swap(mpCurReprojFbo, mpPrevReprojFbo)`. -/
def SVGFPass.swapReproj (s : SVGFPass) : SVGFPass :=
  { s with mpCurReprojFbo := s.mpPrevReprojFbo, mpPrevReprojFbo := s.mpCurReprojFbo }

/-- The `if (mFilterEnabled)` branch of `SVGFPass::execute`, for the output texture
`pDst`: the three major passes, the standalone modulation when there is no iteration,
the blit of `mpOutputFbo->getColorTexture(0)` to `pDst`, the swap of the reprojection
pointers, and last the blit of `mInputTex.linearZ` to `mInputTex.prevLinearZ`.  Each
step is reached when none before it faulted. -/
def SVGFPass.executeFiltered (s : SVGFPass) (pDst : Tex) : SVGFPass × List Cmd :=
  thenRun
    (thenRun
      (thenRun
        (thenRun
          (thenRun (s, s.computeReprojection) (fun t => (t, t.computeVarianceEstimate)))
          (fun t => t.computeAtrousDecomposition))
        (fun t => (t, if t.mFilterIterations ≤ 0 then t.computeModulation else [])))
      (fun t => (t, blitCall (getColorTexture t.mpOutputFbo 0) (some pDst))))
    (fun t =>
      (t.swapReproj,
        blitCall t.swapReproj.mInputTex.linearZ
          (t.swapReproj.mInputTex.prevLinearZ.map Tex.owned)))

/-- The method `SVGFPass::execute`: the new object and the commands issued, in order.
When `clearFbos` faults nothing after it is reached. -/
def SVGFPass.execute (s : SVGFPass) : SVGFPass × List Cmd :=
  match s.mpResManager with
  | none => (s, [])
  | some rm =>
    match rm.getTexture s.mOutTexName with
    | none => (s, [])
    | some pDst =>
      thenRun (if s.mNeedFboClear then s.clearFbos else (s, []))
        (fun s0 =>
          if (s0.bindInputs rm).mFilterEnabled then (s0.bindInputs rm).executeFiltered pDst
          else (s0.bindInputs rm, [Cmd.draw ((s0.bindInputs rm).combineDraw rm)]))

/-! ## What the buffers hold

The render context executes the commands one after the other, each one complete before
the next starts.  What a texture holds is described symbolically: the shader arithmetic
is left uninterpreted, so the content written by a draw is the term "output `k` of this
shader run on these input contents and constants". -/

/-- The content of a texture.
* `prior t`: what texture `t` held before the commands under study ran;
* `cleared c`: the clear colour `c`;
* `shaded sh ins cs k`: colour output `k` of shader `sh` run with variables bound to
  the contents `ins` (`none` for a null binding) and constants `cs`. -/
inductive Val where
  | prior (t : Tex)
  | cleared (c : Vec4)
  | shaded (sh : Shader) (ins : List (String × Option Val)) (cs : List (String × Const))
      (k : Nat)

/-- The contents of all textures. -/
abbrev Store := Tex → Val

/-- The store in which every texture still holds its prior content. -/
def Store.initial : Store := fun t => Val.prior t

/-- Overwrite one texture. -/
def Store.set (σ : Store) (t : Tex) (v : Val) : Store :=
  fun u => if u = t then v else σ u

/-- The content behind a possibly null handle. -/
def Store.read (σ : Store) (t : Option Tex) : Option Val :=
  t.map σ

/-- The colour slot of render target `tg` that texture `u` is attached to, if any. -/
def Target.slot : Target → Tex → Option Nat
  | Target.fbo none, _ => none
  | Target.fbo (some f), Tex.attachment id k =>
    if id = f.id ∧ k < f.desc.colorTargets.length then some k else none
  | Target.fbo (some _), _ => none
  | Target.managedFbo cs, u =>
    if cs.indexOf (some u) < cs.length then some (cs.indexOf (some u)) else none

/-- The content a draw writes into colour slot `k` of its target, given the store it
reads from. -/
def Draw.output (d : Draw) (σ : Store) (k : Nat) : Val :=
  Val.shaded d.shader (d.textures.map (fun p => (p.1, σ.read p.2))) d.constants k

/-- The effect of one command on the store: a clear fills every colour target of the
framebuffer (or the one texture) with the clear colour, a blit copies the source over
the destination, a draw writes every colour target of its render target.  The fault
marker changes nothing. -/
def Cmd.apply : Cmd → Store → Store
  | Cmd.clearFbo fbo color _ _, σ =>
    fun u => match (Target.fbo fbo).slot u with
      | some _ => Val.cleared color
      | none => σ u
  | Cmd.clearUAV t value, σ => σ.set t (Val.cleared value)
  | Cmd.blit src dst, σ => σ.set dst (σ src)
  | Cmd.draw d, σ =>
    fun u => match d.target.slot u with
      | some k => d.output σ k
      | none => σ u
  | Cmd.fault, σ => σ

/-- Run a command list from store `σ`. -/
def runCmds : List Cmd → Store → Store
  | [], σ => σ
  | c :: cs, σ => runCmds cs (c.apply σ)

/-- The draws of a command list, in order. -/
def drawsOf : List Cmd → List Draw
  | [] => []
  | Cmd.draw d :: cs => d :: drawsOf cs
  | _ :: cs => drawsOf cs

/-- The blits of a command list as (source, destination) pairs, in order.  The two
textures are given as pointers, so that they compare with the values of
`getColorTexture` and `getTexture`; in a blit that was issued neither is null. -/
def blitsOf : List Cmd → List (Option Tex × Option Tex)
  | [] => []
  | Cmd.blit a b :: cs => (some a, some b) :: blitsOf cs
  | _ :: cs => blitsOf cs

/-- Whether a command is a clear. -/
def Cmd.isClear : Cmd → Bool
  | Cmd.clearFbo _ _ _ _ => true
  | Cmd.clearUAV _ _ => true
  | _ => false

/-- The commands an execution issues first: those of `clearFbos` when a clear is
pending, none otherwise. -/
def SVGFPass.clearCmds (s : SVGFPass) : List Cmd :=
  if s.mNeedFboClear then s.clearFbos.2 else []

/-- The object at the point where `execute` tests `mFilterEnabled`: the pending clear is
done and the input textures are bound. -/
def SVGFPass.frameStart (s : SVGFPass) (rm : ResourceManager) : SVGFPass :=
  (if s.mNeedFboClear then s.clearFbos else (s, [])).1.bindInputs rm

/-! ## Framebuffer bookkeeping -/

/-- Whether texture `u` is one of the colour targets of framebuffer `f`. -/
def isTarget (f : Option Fbo) (u : Tex) : Bool :=
  ((Target.fbo f).slot u).isSome

/-- Whether a command overwrites texture `u`. -/
def Cmd.writes : Cmd → Tex → Bool
  | Cmd.clearFbo f _ _ _, u => isTarget f u
  | Cmd.clearUAV t _, u => decide (t = u)
  | Cmd.blit _ dst, u => decide (dst = u)
  | Cmd.draw d, u => (d.target.slot u).isSome
  | Cmd.fault, _ => false

/-- The allocation number of a framebuffer pointer, if it is set. -/
def fboId (f : Option Fbo) : Option Nat :=
  f.map (fun g => g.id)

/-- The number of colour targets behind a framebuffer pointer (0 for a null pointer). -/
def fboColors (f : Option Fbo) : Nat :=
  match f with
  | none => 0
  | some g => g.desc.colorTargets.length

/-- The buffers are as `resize` leaves them and as the swaps keep them: the two
ping-pong and the filtered-past framebuffers have two colour targets, the two
reprojection framebuffers four, the output framebuffer one, the six are different
allocations, and the previous-depth texture is allocated. -/
def SVGFPass.Allocated (s : SVGFPass) : Prop :=
  fboColors s.mpPingPongFbo0 = 2 ∧ fboColors s.mpPingPongFbo1 = 2
    ∧ fboColors s.mpFilteredPastFbo = 2
    ∧ fboColors s.mpCurReprojFbo = 4 ∧ fboColors s.mpPrevReprojFbo = 4
    ∧ fboColors s.mpOutputFbo = 1
    ∧ [fboId s.mpPingPongFbo0, fboId s.mpPingPongFbo1, fboId s.mpFilteredPastFbo,
        fboId s.mpCurReprojFbo, fboId s.mpPrevReprojFbo, fboId s.mpOutputFbo].Nodup
    ∧ s.mInputTex.prevLinearZ.isSome = true

instance (s : SVGFPass) : Decidable s.Allocated := by
  unfold SVGFPass.Allocated
  infer_instance

/-! ## Reads -/

/-- Whether a texture belongs to the resource manager (an input or output of the pass,
produced outside it). -/
def Tex.isManaged : Tex → Bool
  | Tex.managed _ => true
  | _ => false

/-- The textures a command reads: the source of a blit, the textures bound to a draw. -/
def Cmd.reads : Cmd → List Tex
  | Cmd.blit src _ => [src]
  | Cmd.draw d => d.textures.filterMap (fun p => p.2)
  | _ => []

/-- Whether every texture read by a command of the list is a resource-manager texture,
or one marked by `w`, or one that an earlier command of the list has written. -/
def freshReads (w : Tex → Bool) : List Cmd → Bool
  | [] => true
  | c :: cs =>
    c.reads.all (fun u => u.isManaged || w u) && freshReads (fun u => w u || c.writes u) cs

/-! ## Observations on the loop -/

/-- The object after `j` ping-pong swaps. -/
def SVGFPass.afterSwaps (s : SVGFPass) (j : Nat) : SVGFPass :=
  if j % 2 = 0 then s else s.swapPingPong

/-- The value assigned to `gStepSize` for a draw, if any. -/
def Draw.stepSize (d : Draw) : Option Const :=
  d.constants.lookup "gStepSize"

/-- The value assigned to `gPerformModulation` for a draw, if any. -/
def Draw.performModulation (d : Draw) : Option Const :=
  d.constants.lookup "gPerformModulation"

/-- The wavelet draws of a command list, in order. -/
def atrousDrawsOf (cmds : List Cmd) : List Draw :=
  (drawsOf cmds).filter (fun d => d.shader = Shader.atrous)

/-! ## Example objects -/

/-- A resource manager in which every texture the pass asks for is allocated, for a
pass created with the channel names `"Direct"`, `"Indirect"` and `"Out"`. -/
def demoManager : ResourceManager :=
  ⟨["WorldPosition", "Direct", "Indirect", "SVGF_LinearZ", "SVGF_MotionVecs",
    "SVGF_CompactNormDepth", "OutDirectAlbedo", "OutIndirectAlbedo", "Out"]⟩

/-- A pass after construction, `initialize` and one `resize` to 4 x 4, with the given
iteration count, feedback tap and filter switch. -/
def demoPass (iterations tap : Int) (enabled : Bool) : SVGFPass :=
  { ((SVGFPass.create "Direct" "Indirect" "Out").setup demoManager).resize 4 4 with
    mFilterIterations := iterations
    mFeedbackTap := tap
    mFilterEnabled := enabled }

/-- The pass of `demoPass 4 1 true` while the resource manager has not allocated the
output texture yet. -/
def starvedPass : SVGFPass :=
  { demoPass 4 1 true with mpResManager := some ⟨["Direct", "Indirect"]⟩ }

/-! ## Modulating draws -/

/-- Whether a draw multiplies illumination by albedo: the standalone modulation pass, or
a wavelet pass with `gPerformModulation` set. -/
def Draw.modulates (d : Draw) : Bool :=
  decide (d.shader = Shader.modulate) ||
    decide (d.performModulation = some (Const.bool true))

/-! ## Prefixes of a frame -/

/-- The commands a filter-enabled execution issues before the draw of wavelet iteration
`i`: the pending clear, the reprojection and moment-filter draws and the first `i`
iterations of the loop. -/
def SVGFPass.cmdsBeforeIteration (s : SVGFPass) (rm : ResourceManager) (i : Nat) : List Cmd :=
  s.clearCmds ++
    (Cmd.draw (s.frameStart rm).reprojectionDraw ::
      Cmd.draw (s.frameStart rm).varianceDraw ::
        (SVGFPass.atrousLoop i 0 (s.frameStart rm)).2)

/-- The draw of wavelet iteration `i` in an execution of `s`. -/
def SVGFPass.iterationDraw (s : SVGFPass) (rm : ResourceManager) (i : Nat) : Draw :=
  ((s.frameStart rm).afterSwaps i).atrousDraw i

/-- The framebuffer pointer a draw was given as render target (null for a framebuffer
wrapped around resource-manager textures). -/
def Target.framebuffer : Target → Option Fbo
  | Target.fbo f => f
  | Target.managedFbo _ => none

/-! ## Sequences of calls -/

/-- Modelled from the spec: the integer widget of the surrounding framework
(`Gui::addIntVar`, not part of the pass).  What `addIntVar(label, var, minVal, maxVal, 1)`
leaves in `var` when the user entered `v`: the value kept within the two bounds. -/
def clampInt (v minVal maxVal : Int) : Int :=
  max minVal (min v maxVal)

/-- The method `SVGFPass::renderGui`, as its effect on the members: the six variables
handed to the widgets by reference come back holding the values entered.  The iteration
count is kept within 2 .. 10 and the feedback tap within -1 .. `mFilterIterations - 2`,
the count being the one just set.  (The ranges of the float widgets are not modelled:
floats are bit patterns here.) -/
def SVGFPass.renderGui (s : SVGFPass) (enabled : Bool) (iterations tap : Int)
    (phiColor alpha momentsAlpha : F32) : SVGFPass :=
  { s with
    mFilterEnabled := enabled
    mFilterIterations := clampInt iterations 2 10
    mFeedbackTap := clampInt tap (-1) (clampInt iterations 2 10 - 2)
    mPhiColor := phiColor
    mAlpha := alpha
    mMomentsAlpha := momentsAlpha }

/-- One call made on the pass by the surrounding framework.  `setup rm` stands both for
`initialize` and for the resource manager having allocated or dropped textures since the
last call. -/
inductive Call where
  | setup (rm : ResourceManager)
  | resize (width height : Nat)
  | renderGui (enabled : Bool) (iterations tap : Int) (phiColor alpha momentsAlpha : F32)
  | execute
deriving DecidableEq, Repr

/-- Whether a call reallocates the buffers: a `resize` with positive dimensions. -/
def Call.allocates : Call → Bool
  | Call.resize width height => decide (0 < width ∧ 0 < height)
  | _ => false

/-- The effect of one call: the new object and the commands issued. -/
def SVGFPass.call (s : SVGFPass) : Call → SVGFPass × List Cmd
  | Call.setup rm => (s.setup rm, [])
  | Call.resize width height => (s.resize width height, [])
  | Call.renderGui enabled iterations tap phiColor alpha momentsAlpha =>
    (s.renderGui enabled iterations tap phiColor alpha momentsAlpha, [])
  | Call.execute => s.execute

/-- The effect of a sequence of calls: the final object and all commands issued, in
order.  A call that faults is the last one made. -/
def SVGFPass.calls : SVGFPass → List Call → SVGFPass × List Cmd
  | s, [] => (s, [])
  | s, c :: cs =>
    let r := s.call c
    if faulted r.2 then r
    else
      let rest := SVGFPass.calls r.1 cs
      (rest.1, r.2 ++ rest.2)

/-- The effect of `n` consecutive executions (frames) with no other call between them. -/
def SVGFPass.frames (s : SVGFPass) (n : Nat) : SVGFPass × List Cmd :=
  s.calls (List.replicate n Call.execute)

/-! ## Basic facts about the command semantics -/

theorem runCmds_append (a b : List Cmd) (σ : Store) :
    runCmds (a ++ b) σ = runCmds b (runCmds a σ) := by
  induction a generalizing σ with
  | nil => rfl
  | cons c cs ih => simp [runCmds, ih]

theorem runCmds_nil (σ : Store) : runCmds [] σ = σ := rfl

theorem runCmds_cons (c : Cmd) (cs : List Cmd) (σ : Store) :
    runCmds (c :: cs) σ = runCmds cs (c.apply σ) := rfl

theorem drawsOf_append (a b : List Cmd) : drawsOf (a ++ b) = drawsOf a ++ drawsOf b := by
  induction a with
  | nil => rfl
  | cons c cs ih => cases c <;> simp [drawsOf, ih]

theorem blitsOf_append (a b : List Cmd) : blitsOf (a ++ b) = blitsOf a ++ blitsOf b := by
  induction a with
  | nil => rfl
  | cons c cs ih => cases c <;> simp [blitsOf, ih]

theorem slot_fbo_managed (f : Option Fbo) (name : String) :
    (Target.fbo f).slot (Tex.managed name) = none := by
  cases f <;> rfl

theorem slot_fbo_owned (f : Option Fbo) (t : Texture2D) :
    (Target.fbo f).slot (Tex.owned t) = none := by
  cases f <;> rfl

theorem slot_fbo_attachment (f : Fbo) (id k : Nat) :
    (Target.fbo (some f)).slot (Tex.attachment id k) =
      if id = f.id ∧ k < f.desc.colorTargets.length then some k else none := rfl

/-! ## Faults and sequencing -/

theorem faulted_nil : faulted [] = false := rfl

theorem faulted_cons (c : Cmd) (cs : List Cmd) :
    faulted (c :: cs) = (c.isFault || faulted cs) := rfl

theorem faulted_append (a b : List Cmd) : faulted (a ++ b) = (faulted a || faulted b) := by
  unfold faulted
  exact List.any_append

theorem thenRun_ok (r : SVGFPass × List Cmd) (k : SVGFPass → SVGFPass × List Cmd)
    (h : faulted r.2 = false) : thenRun r k = ((k r.1).1, r.2 ++ (k r.1).2) := by
  simp [thenRun, h]

theorem thenRun_fault (r : SVGFPass × List Cmd) (k : SVGFPass → SVGFPass × List Cmd)
    (h : faulted r.2 = true) : thenRun r k = r := by
  simp [thenRun, h]

theorem seqCmds_ok (a b : List Cmd) (h : faulted a = false) : seqCmds a b = a ++ b := by
  simp [seqCmds, h]

theorem seqCmds_fault (a b : List Cmd) (h : faulted a = true) : seqCmds a b = a := by
  simp [seqCmds, h]

theorem blitCall_some (a b : Tex) : blitCall (some a) (some b) = [Cmd.blit a b] := rfl

theorem blitCall_none_left (b : Option Tex) : blitCall none b = [Cmd.fault] := by
  cases b <;> rfl

theorem blitCall_none_right (a : Option Tex) : blitCall a none = [Cmd.fault] := by
  cases a <;> rfl

/-- A blit call issues the blit or faults, nothing else. -/
theorem blitCall_cases (a b : Option Tex) :
    (∃ x y, a = some x ∧ b = some y ∧ blitCall a b = [Cmd.blit x y])
      ∨ ((a = none ∨ b = none) ∧ blitCall a b = [Cmd.fault]) := by
  cases a with
  | none => exact Or.inr ⟨Or.inl rfl, blitCall_none_left b⟩
  | some x =>
    cases b with
    | none => exact Or.inr ⟨Or.inr rfl, rfl⟩
    | some y => exact Or.inl ⟨x, y, rfl, rfl, rfl⟩

/-- Every entry of a sequenced list comes from one of the two parts. -/
theorem mem_seqCmds (a b : List Cmd) (c : Cmd) (h : c ∈ seqCmds a b) : c ∈ a ∨ c ∈ b := by
  unfold seqCmds at h
  split at h
  · exact Or.inl h
  · exact List.mem_append.mp h

/-- Every entry of a sequenced step comes from the first step or from the second. -/
theorem mem_thenRun (r : SVGFPass × List Cmd) (k : SVGFPass → SVGFPass × List Cmd) (c : Cmd)
    (h : c ∈ (thenRun r k).2) : c ∈ r.2 ∨ c ∈ (k r.1).2 := by
  unfold thenRun at h
  split at h
  · exact Or.inl h
  · exact List.mem_append.mp h

theorem drawsOf_blitCall (a b : Option Tex) : drawsOf (blitCall a b) = [] := by
  rcases blitCall_cases a b with ⟨x, y, _, _, h⟩ | ⟨_, h⟩ <;> rw [h] <;> rfl

theorem drawsOf_seqCmds (a b : List Cmd) (ha : drawsOf a = []) (hb : drawsOf b = []) :
    drawsOf (seqCmds a b) = [] := by
  unfold seqCmds
  split
  · exact ha
  · rw [drawsOf_append, ha, hb]; rfl

/-! ## Which textures the commands touch -/

theorem apply_of_not_writes (c : Cmd) (σ : Store) (u : Tex) (h : c.writes u = false) :
    c.apply σ u = σ u := by
  cases c with
  | clearFbo f col d n =>
    simp only [Cmd.writes, isTarget] at h
    simp only [Cmd.apply]
    cases hs : (Target.fbo f).slot u with
    | none => rfl
    | some k => simp [hs] at h
  | clearUAV t v =>
    simp only [Cmd.writes, decide_eq_false_iff_not] at h
    simp only [Cmd.apply, Store.set]
    rw [if_neg (fun e => h e.symm)]
  | blit a b =>
    simp only [Cmd.writes, decide_eq_false_iff_not] at h
    simp only [Cmd.apply, Store.set]
    rw [if_neg (fun e => h e.symm)]
  | draw d =>
    simp only [Cmd.writes] at h
    simp only [Cmd.apply]
    cases hs : d.target.slot u with
    | none => rfl
    | some k => simp [hs] at h
  | fault => rfl

theorem runCmds_of_not_writes (cs : List Cmd) (σ : Store) (u : Tex)
    (h : ∀ c ∈ cs, c.writes u = false) : runCmds cs σ u = σ u := by
  induction cs generalizing σ with
  | nil => rfl
  | cons c cs ih =>
    simp only [runCmds]
    rw [ih _ (fun c2 hc2 => h c2 (List.mem_cons_of_mem _ hc2)),
      apply_of_not_writes c σ u (h c (List.mem_cons_self _ _))]

theorem isTarget_managed (f : Option Fbo) (name : String) :
    isTarget f (Tex.managed name) = false := by
  simp [isTarget, slot_fbo_managed]

theorem isTarget_owned (f : Option Fbo) (t : Texture2D) :
    isTarget f (Tex.owned t) = false := by
  simp [isTarget, slot_fbo_owned]

theorem isTarget_attachment (f : Fbo) (id k : Nat) :
    isTarget (some f) (Tex.attachment id k) =
      decide (id = f.id ∧ k < f.desc.colorTargets.length) := by
  simp only [isTarget, slot_fbo_attachment]
  split <;> simp_all

/-- A colour target of one framebuffer is not a colour target of a framebuffer with a
different allocation number. -/
theorem isTarget_of_ne (f g : Option Fbo) (u : Tex) (hne : fboId f ≠ fboId g)
    (h : isTarget f u = true) : isTarget g u = false := by
  cases f with
  | none => simp [isTarget, Target.slot] at h
  | some f =>
    cases g with
    | none => simp [isTarget, Target.slot]
    | some g =>
      cases u with
      | managed n => simp [isTarget_managed] at h
      | owned t => simp [isTarget_owned] at h
      | attachment id k =>
        simp only [isTarget_attachment, decide_eq_true_eq] at h
        simp only [isTarget_attachment, decide_eq_false_iff_not]
        simp only [fboId, Option.map_some', ne_eq, Option.some.injEq] at hne
        rintro ⟨h1, _⟩
        exact hne (h.1.symm.trans h1)

theorem getColorTexture_isTarget (f : Option Fbo) (k : Nat) (u : Tex)
    (h : getColorTexture f k = some u) : isTarget f u = true := by
  cases f with
  | none => simp [getColorTexture] at h
  | some f =>
    simp only [getColorTexture] at h
    split at h
    · simp only [Option.some.injEq] at h
      subst h
      simp [isTarget_attachment, *]
    · simp at h

/-- A framebuffer with more than `k` colour targets has a colour target `k`. -/
theorem getColorTexture_of_lt (f : Option Fbo) (k : Nat) (h : k < fboColors f) :
    ∃ g, f = some g ∧ getColorTexture f k = some (Tex.attachment g.id k) := by
  cases f with
  | none => simp [fboColors] at h
  | some g =>
    refine ⟨g, rfl, ?_⟩
    simp only [fboColors] at h
    simp [getColorTexture, h]

/-- A framebuffer has no colour target beyond the ones it was created with. -/
theorem getColorTexture_of_le (f : Option Fbo) (k : Nat) (h : fboColors f ≤ k) :
    getColorTexture f k = none := by
  cases f with
  | none => rfl
  | some g =>
    simp only [fboColors] at h
    simp only [getColorTexture]
    rw [if_neg (by omega)]

/-- A draw into one of the pass's framebuffers leaves in colour target `k` the draw's
output `k`. -/
theorem draw_apply_target (d : Draw) (f : Option Fbo) (k : Nat) (σ : Store)
    (ht : d.target = Target.fbo f) (hk : k < fboColors f) :
    ∃ g, f = some g ∧ (Cmd.draw d).apply σ (Tex.attachment g.id k) = d.output σ k := by
  obtain ⟨g, rfl, _⟩ := getColorTexture_of_lt f k hk
  refine ⟨g, rfl, ?_⟩
  simp only [fboColors] at hk
  simp [Cmd.apply, ht, slot_fbo_attachment, hk]

theorem getTexture_managed (rm : ResourceManager) (name : String) (t : Tex)
    (h : rm.getTexture name = some t) : t = Tex.managed name := by
  unfold ResourceManager.getTexture at h
  split at h
  · exact (Option.some.inj h).symm
  · simp at h

theorem getTexture_isManaged (rm : ResourceManager) (name : String) (u : Tex)
    (h : rm.getTexture name = some u) : u.isManaged = true := by
  rw [getTexture_managed rm name u h]
  rfl

/-! ## The allocation invariant -/

theorem fboColors_pos (f : Option Fbo) (h : 0 < fboColors f) :
    ∃ g, f = some g ∧ g.desc.colorTargets.length = fboColors f := by
  cases f with
  | none => simp [fboColors] at h
  | some g => exact ⟨g, rfl, rfl⟩

/-- The six framebuffers of an allocated pass have pairwise different allocation
numbers. -/
theorem allocated_distinct (s : SVGFPass) (hs : s.Allocated) :
    fboId s.mpPingPongFbo0 ≠ fboId s.mpPingPongFbo1
      ∧ fboId s.mpPingPongFbo0 ≠ fboId s.mpFilteredPastFbo
      ∧ fboId s.mpPingPongFbo0 ≠ fboId s.mpCurReprojFbo
      ∧ fboId s.mpPingPongFbo0 ≠ fboId s.mpPrevReprojFbo
      ∧ fboId s.mpPingPongFbo0 ≠ fboId s.mpOutputFbo
      ∧ fboId s.mpPingPongFbo1 ≠ fboId s.mpFilteredPastFbo
      ∧ fboId s.mpPingPongFbo1 ≠ fboId s.mpCurReprojFbo
      ∧ fboId s.mpPingPongFbo1 ≠ fboId s.mpPrevReprojFbo
      ∧ fboId s.mpPingPongFbo1 ≠ fboId s.mpOutputFbo
      ∧ fboId s.mpFilteredPastFbo ≠ fboId s.mpCurReprojFbo
      ∧ fboId s.mpFilteredPastFbo ≠ fboId s.mpPrevReprojFbo
      ∧ fboId s.mpFilteredPastFbo ≠ fboId s.mpOutputFbo
      ∧ fboId s.mpCurReprojFbo ≠ fboId s.mpPrevReprojFbo
      ∧ fboId s.mpCurReprojFbo ≠ fboId s.mpOutputFbo
      ∧ fboId s.mpPrevReprojFbo ≠ fboId s.mpOutputFbo := by
  obtain ⟨_, _, _, _, _, _, hnd, _⟩ := hs
  simp only [List.nodup_cons, List.mem_cons, List.mem_singleton, List.not_mem_nil,
    or_false, not_or, List.nodup_nil, and_true, not_false_eq_true] at hnd
  obtain ⟨⟨a1, a2, a3, a4, a5⟩, ⟨b1, b2, b3, b4⟩, ⟨c1, c2, c3⟩, ⟨d1, d2⟩, e1⟩ := hnd
  exact ⟨a1, a2, a3, a4, a5, b1, b2, b3, b4, c1, c2, c3, d1, d2, e1⟩

/-- The six framebuffers of an allocated pass, with their colour-target counts and
pairwise different allocation numbers. -/
theorem allocated_exists (s : SVGFPass) (hs : s.Allocated) :
    ∃ p0 p1 fp cur prv out : Fbo,
      s.mpPingPongFbo0 = some p0 ∧ s.mpPingPongFbo1 = some p1
        ∧ s.mpFilteredPastFbo = some fp ∧ s.mpCurReprojFbo = some cur
        ∧ s.mpPrevReprojFbo = some prv ∧ s.mpOutputFbo = some out
        ∧ p0.desc.colorTargets.length = 2 ∧ p1.desc.colorTargets.length = 2
        ∧ fp.desc.colorTargets.length = 2 ∧ cur.desc.colorTargets.length = 4
        ∧ prv.desc.colorTargets.length = 4 ∧ out.desc.colorTargets.length = 1
        ∧ p0.id ≠ p1.id ∧ p0.id ≠ fp.id ∧ p0.id ≠ cur.id ∧ p0.id ≠ prv.id ∧ p0.id ≠ out.id
        ∧ p1.id ≠ fp.id ∧ p1.id ≠ cur.id ∧ p1.id ≠ prv.id ∧ p1.id ≠ out.id
        ∧ fp.id ≠ cur.id ∧ fp.id ≠ prv.id ∧ fp.id ≠ out.id
        ∧ cur.id ≠ prv.id ∧ cur.id ≠ out.id ∧ prv.id ≠ out.id := by
  have hd := allocated_distinct s hs
  obtain ⟨c0, c1, c2, c3, c4, c5, _⟩ := hs
  obtain ⟨p0, e0, l0⟩ := fboColors_pos s.mpPingPongFbo0 (by omega)
  obtain ⟨p1, e1, l1⟩ := fboColors_pos s.mpPingPongFbo1 (by omega)
  obtain ⟨fp, e2, l2⟩ := fboColors_pos s.mpFilteredPastFbo (by omega)
  obtain ⟨cur, e3, l3⟩ := fboColors_pos s.mpCurReprojFbo (by omega)
  obtain ⟨prv, e4, l4⟩ := fboColors_pos s.mpPrevReprojFbo (by omega)
  obtain ⟨out, e5, l5⟩ := fboColors_pos s.mpOutputFbo (by omega)
  refine ⟨p0, p1, fp, cur, prv, out, e0, e1, e2, e3, e4, e5, by omega, by omega, by omega,
    by omega, by omega, by omega, ?_⟩
  simp only [e0, e1, e2, e3, e4, e5, fboId, Option.map_some', ne_eq, Option.some.injEq]
    at hd
  exact hd

/-- The previous-depth texture of an allocated pass. -/
theorem allocated_prevLinearZ (s : SVGFPass) (hs : s.Allocated) :
    ∃ z, s.mInputTex.prevLinearZ = some z := by
  obtain ⟨_, _, _, _, _, _, _, hz⟩ := hs
  cases h : s.mInputTex.prevLinearZ with
  | none => simp [h] at hz
  | some z => exact ⟨z, rfl⟩

/-- Exchanging the two ping-pong pointers or the two reprojection pointers keeps the
buffers allocated. -/
theorem allocated_of_perm (s s2 : SVGFPass) (hs : s.Allocated)
    (hpp : (s2.mpPingPongFbo0 = s.mpPingPongFbo0 ∧ s2.mpPingPongFbo1 = s.mpPingPongFbo1)
      ∨ (s2.mpPingPongFbo0 = s.mpPingPongFbo1 ∧ s2.mpPingPongFbo1 = s.mpPingPongFbo0))
    (hr : (s2.mpCurReprojFbo = s.mpCurReprojFbo ∧ s2.mpPrevReprojFbo = s.mpPrevReprojFbo)
      ∨ (s2.mpCurReprojFbo = s.mpPrevReprojFbo ∧ s2.mpPrevReprojFbo = s.mpCurReprojFbo))
    (hfp : s2.mpFilteredPastFbo = s.mpFilteredPastFbo)
    (hout : s2.mpOutputFbo = s.mpOutputFbo)
    (hz : s2.mInputTex.prevLinearZ = s.mInputTex.prevLinearZ) : s2.Allocated := by
  obtain ⟨d1, d2, d3, d4, d5, d6, d7, d8, d9, d10, d11, d12, d13, d14, d15⟩ :=
    allocated_distinct s hs
  obtain ⟨c0, c1, c2, c3, c4, c5, _, cz⟩ := hs
  unfold SVGFPass.Allocated
  rcases hpp with ⟨h0, h1⟩ | ⟨h0, h1⟩ <;> rcases hr with ⟨h2, h3⟩ | ⟨h2, h3⟩ <;>
    rw [h0, h1, h2, h3, hfp, hout, hz] <;>
    refine ⟨by assumption, by assumption, by assumption, by assumption, by assumption,
      by assumption, ?_, cz⟩ <;>
    simp only [List.nodup_cons, List.mem_cons, List.mem_singleton, List.not_mem_nil,
      or_false, not_or, List.nodup_nil, and_true, not_false_eq_true] <;>
    refine ⟨⟨?_, ?_, ?_, ?_, ?_⟩, ⟨?_, ?_, ?_, ?_⟩, ⟨?_, ?_, ?_⟩, ⟨?_, ?_⟩, ?_⟩ <;>
    first
      | assumption
      | (intro e; exact absurd e.symm (by assumption))

theorem swapPingPong_allocated (s : SVGFPass) (hs : s.Allocated) : s.swapPingPong.Allocated :=
  allocated_of_perm s s.swapPingPong hs (Or.inr ⟨rfl, rfl⟩) (Or.inl ⟨rfl, rfl⟩) rfl rfl rfl

theorem swapReproj_allocated (s : SVGFPass) (hs : s.Allocated) : s.swapReproj.Allocated :=
  allocated_of_perm s s.swapReproj hs (Or.inl ⟨rfl, rfl⟩) (Or.inr ⟨rfl, rfl⟩) rfl rfl rfl

theorem bindInputs_allocated (s : SVGFPass) (rm : ResourceManager) (hs : s.Allocated) :
    (s.bindInputs rm).Allocated :=
  allocated_of_perm s (s.bindInputs rm) hs (Or.inl ⟨rfl, rfl⟩) (Or.inl ⟨rfl, rfl⟩) rfl rfl rfl

/-! ## Resize -/

/-- What a `resize` with positive dimensions leaves alone and what it sets. -/
theorem resize_fields (s : SVGFPass) (w h : Nat) (hw : 0 < w) (hh : 0 < h) :
    (s.resize w h).mpResManager = s.mpResManager
      ∧ (s.resize w h).mOutTexName = s.mOutTexName
      ∧ (s.resize w h).mFilterEnabled = s.mFilterEnabled
      ∧ (s.resize w h).mNeedFboClear = true := by
  unfold SVGFPass.resize
  rw [if_neg (by omega)]
  exact ⟨rfl, rfl, rfl, rfl⟩

/-- A `resize` with positive dimensions leaves six distinct framebuffers with 2, 2, 2,
4, 4 and 1 colour targets, and a previous-depth texture. -/
theorem resize_allocated (s : SVGFPass) (w h : Nat) (hw : 0 < w) (hh : 0 < h) :
    (s.resize w h).Allocated := by
  unfold SVGFPass.resize
  rw [if_neg (by omega)]
  simp [SVGFPass.Allocated, fboColors, fboId, FboHelper.create2D]

/-! ## The pending clear -/

theorem clearFbos_of_some (s : SVGFPass) (z : Texture2D)
    (hz : s.mInputTex.prevLinearZ = some z) :
    s.clearFbos =
      ({ s with mNeedFboClear := false },
       [ Cmd.clearFbo s.mpPrevReprojFbo Vec4.zero F32.one 0,
         Cmd.clearFbo s.mpCurReprojFbo Vec4.zero F32.one 0,
         Cmd.clearFbo s.mpFilteredPastFbo Vec4.zero F32.one 0,
         Cmd.clearFbo s.mpPingPongFbo0 Vec4.zero F32.one 0,
         Cmd.clearFbo s.mpPingPongFbo1 Vec4.zero F32.one 0,
         Cmd.clearUAV (Tex.owned z) ⟨F32.zero, F32.zero, F32.zero, F32.one⟩ ]) := by
  unfold SVGFPass.clearFbos
  rw [hz]

theorem clearFbos_of_none (s : SVGFPass) (hz : s.mInputTex.prevLinearZ = none) :
    s.clearFbos =
      (s,
       [ Cmd.clearFbo s.mpPrevReprojFbo Vec4.zero F32.one 0,
         Cmd.clearFbo s.mpCurReprojFbo Vec4.zero F32.one 0,
         Cmd.clearFbo s.mpFilteredPastFbo Vec4.zero F32.one 0,
         Cmd.clearFbo s.mpPingPongFbo0 Vec4.zero F32.one 0,
         Cmd.clearFbo s.mpPingPongFbo1 Vec4.zero F32.one 0,
         Cmd.fault ]) := by
  unfold SVGFPass.clearFbos
  rw [hz]

/-- `clearFbos` faults exactly when the previous-depth texture is not allocated. -/
theorem faulted_clearFbos (s : SVGFPass) :
    faulted s.clearFbos.2 = s.mInputTex.prevLinearZ.isNone := by
  cases hz : s.mInputTex.prevLinearZ with
  | none => rw [clearFbos_of_none s hz]; rfl
  | some z => rw [clearFbos_of_some s z hz]; rfl

theorem faulted_clearCmds_of_allocated (s : SVGFPass) (hs : s.Allocated) :
    faulted s.clearCmds = false := by
  obtain ⟨z, hz⟩ := allocated_prevLinearZ s hs
  unfold SVGFPass.clearCmds
  split
  · rw [faulted_clearFbos, hz]; rfl
  · rfl

theorem faulted_clearCmds_of_not_pending (s : SVGFPass) (h : s.mNeedFboClear = false) :
    faulted s.clearCmds = false := by
  simp [SVGFPass.clearCmds, h, faulted_nil]

/-- The commands of `clearFbos` leave resource-manager textures alone. -/
theorem clearCmds_managed (s : SVGFPass) (σ : Store) (name : String) :
    runCmds s.clearCmds σ (Tex.managed name) = σ (Tex.managed name) := by
  unfold SVGFPass.clearCmds
  split
  · cases h : s.mInputTex.prevLinearZ with
    | none =>
      rw [clearFbos_of_none s h]
      simp [runCmds, Cmd.apply, slot_fbo_managed]
    | some z =>
      rw [clearFbos_of_some s z h]
      simp [runCmds, Cmd.apply, slot_fbo_managed, Store.set]
  · rfl

theorem drawsOf_clearCmds (s : SVGFPass) : drawsOf s.clearCmds = [] := by
  unfold SVGFPass.clearCmds SVGFPass.clearFbos
  split
  · split <;> rfl
  · rfl

theorem blitsOf_clearCmds (s : SVGFPass) : blitsOf s.clearCmds = [] := by
  unfold SVGFPass.clearCmds SVGFPass.clearFbos
  split
  · split <;> rfl
  · rfl

/-- Reading a resource-manager texture is not affected by the pending clear. -/
theorem read_getTexture_clearCmds (s : SVGFPass) (rm : ResourceManager) (σ : Store)
    (name : String) :
    (runCmds s.clearCmds σ).read (rm.getTexture name) = σ.read (rm.getTexture name) := by
  unfold ResourceManager.getTexture
  split
  · simp [Store.read, clearCmds_managed]
  · rfl

/-! ## The start of a frame -/

/-- The object at the start of a frame is the original one with the inputs bound, the
pending-clear flag lowered or not. -/
theorem frameStart_cases (s : SVGFPass) (rm : ResourceManager) :
    s.frameStart rm = s.bindInputs rm
      ∨ s.frameStart rm = ({ s with mNeedFboClear := false } : SVGFPass).bindInputs rm := by
  unfold SVGFPass.frameStart
  cases hc : s.mNeedFboClear with
  | false => exact Or.inl rfl
  | true =>
    cases hz : s.mInputTex.prevLinearZ with
    | none => rw [if_pos rfl, clearFbos_of_none s hz]; exact Or.inl rfl
    | some z => rw [if_pos rfl, clearFbos_of_some s z hz]; exact Or.inr rfl

theorem frameStart_config (s : SVGFPass) (rm : ResourceManager) :
    (s.frameStart rm).mFilterIterations = s.mFilterIterations
      ∧ (s.frameStart rm).mFeedbackTap = s.mFeedbackTap
      ∧ (s.frameStart rm).mpPingPongFbo0 = s.mpPingPongFbo0
      ∧ (s.frameStart rm).mpPingPongFbo1 = s.mpPingPongFbo1
      ∧ (s.frameStart rm).mpFilteredPastFbo = s.mpFilteredPastFbo
      ∧ (s.frameStart rm).mpCurReprojFbo = s.mpCurReprojFbo
      ∧ (s.frameStart rm).mpPrevReprojFbo = s.mpPrevReprojFbo
      ∧ (s.frameStart rm).mpOutputFbo = s.mpOutputFbo
      ∧ (s.frameStart rm).mInputTex.prevLinearZ = s.mInputTex.prevLinearZ := by
  rcases frameStart_cases s rm with h | h <;> rw [h] <;>
    exact ⟨rfl, rfl, rfl, rfl, rfl, rfl, rfl, rfl, rfl⟩

theorem frameStart_allocated (s : SVGFPass) (rm : ResourceManager) (hs : s.Allocated) :
    (s.frameStart rm).Allocated := by
  obtain ⟨_, _, hp0, hp1, hfp, hcur, hprev, hou, hz⟩ := frameStart_config s rm
  exact allocated_of_perm s _ hs (Or.inl ⟨hp0, hp1⟩) (Or.inl ⟨hcur, hprev⟩) hfp hou hz

/-- The input textures as `execute` binds them. -/
theorem frameStart_inputs (s : SVGFPass) (rm : ResourceManager) :
    (s.frameStart rm).mInputTex.directIllum = rm.getTexture s.mDirectInTexName
      ∧ (s.frameStart rm).mInputTex.indirectIllum = rm.getTexture s.mIndirectInTexName
      ∧ (s.frameStart rm).mInputTex.linearZ = rm.getTexture "SVGF_LinearZ"
      ∧ (s.frameStart rm).mInputTex.motionVecs = rm.getTexture "SVGF_MotionVecs"
      ∧ (s.frameStart rm).mInputTex.miscBuf = rm.getTexture "SVGF_CompactNormDepth"
      ∧ (s.frameStart rm).mInputTex.dirAlbedo = rm.getTexture "OutDirectAlbedo"
      ∧ (s.frameStart rm).mInputTex.indirAlbedo = rm.getTexture "OutIndirectAlbedo" := by
  rcases frameStart_cases s rm with h | h <;> rw [h] <;>
    exact ⟨rfl, rfl, rfl, rfl, rfl, rfl, rfl⟩

/-- Once the pending clear has run without a fault, no clear is pending. -/
theorem frameStart_needClear (s : SVGFPass) (rm : ResourceManager)
    (hcl : faulted s.clearCmds = false) :
    (s.frameStart rm).mNeedFboClear = false := by
  unfold SVGFPass.frameStart
  cases h : s.mNeedFboClear with
  | false => simp [SVGFPass.bindInputs, h]
  | true =>
    cases hz : s.mInputTex.prevLinearZ with
    | none =>
      simp only [SVGFPass.clearCmds, h, if_true, faulted_clearFbos, hz] at hcl
      exact absurd hcl (by decide)
    | some z => simp [clearFbos_of_some s z hz, SVGFPass.bindInputs]

theorem frameStart_enabled (s : SVGFPass) (rm : ResourceManager) :
    (s.frameStart rm).mFilterEnabled = s.mFilterEnabled := by
  rcases frameStart_cases s rm with h | h <;> rw [h] <;> rfl

/-- How `execute` unfolds once the resource manager and the output texture are there
and the pending clear does not fault. -/
theorem execute_eq (s : SVGFPass) (rm : ResourceManager) (pDst : Tex)
    (hrm : s.mpResManager = some rm) (hout : rm.getTexture s.mOutTexName = some pDst)
    (hcl : faulted s.clearCmds = false) :
    s.execute =
      if s.mFilterEnabled then
        (((s.frameStart rm).executeFiltered pDst).1,
          s.clearCmds ++ ((s.frameStart rm).executeFiltered pDst).2)
      else
        (s.frameStart rm, s.clearCmds ++ [Cmd.draw ((s.frameStart rm).combineDraw rm)]) := by
  have he := frameStart_enabled s rm
  unfold SVGFPass.execute
  simp only [hrm, hout]
  unfold SVGFPass.frameStart at he ⊢
  unfold SVGFPass.clearCmds at hcl ⊢
  cases hc : s.mNeedFboClear with
  | false =>
    simp only [hc, Bool.false_eq_true, if_false] at he ⊢
    rw [thenRun_ok (s, []) _ (show faulted (s, ([] : List Cmd)).2 = false from rfl), he]
    split <;> simp
  | true =>
    simp only [hc, if_true] at he hcl ⊢
    rw [thenRun_ok _ _ hcl, he]
    split <;> rfl

/-- When `clearFbos` faults, the execution ends there with the object unchanged. -/
theorem execute_clear_fault (s : SVGFPass) (rm : ResourceManager) (pDst : Tex)
    (hrm : s.mpResManager = some rm) (hout : rm.getTexture s.mOutTexName = some pDst)
    (hflag : s.mNeedFboClear = true) (hz : s.mInputTex.prevLinearZ = none) :
    s.execute =
      (s,
       [ Cmd.clearFbo s.mpPrevReprojFbo Vec4.zero F32.one 0,
         Cmd.clearFbo s.mpCurReprojFbo Vec4.zero F32.one 0,
         Cmd.clearFbo s.mpFilteredPastFbo Vec4.zero F32.one 0,
         Cmd.clearFbo s.mpPingPongFbo0 Vec4.zero F32.one 0,
         Cmd.clearFbo s.mpPingPongFbo1 Vec4.zero F32.one 0,
         Cmd.fault ]) := by
  unfold SVGFPass.execute
  simp only [hrm, hout, hflag, if_true]
  rw [thenRun_fault _ _ (by rw [faulted_clearFbos, hz]; rfl), clearFbos_of_none s hz]

theorem slot_managed_singleton (t : Tex) :
    (Target.managedFbo [some t]).slot t = some 0 := by
  have h : List.indexOf (some t) [some t] = 0 := by
    simp [List.indexOf, List.findIdx_cons]
  simp [Target.slot, h]

/-- The draw of the filter-disabled branch, with the bindings written out. -/
theorem combineDraw_frameStart (s : SVGFPass) (rm : ResourceManager) :
    (s.frameStart rm).combineDraw rm =
      { shader := Shader.combineUnfiltered
        textures :=
          [ ("gDirect", rm.getTexture s.mDirectInTexName),
            ("gIndirect", rm.getTexture s.mIndirectInTexName),
            ("gDirAlbedo", rm.getTexture "OutDirectAlbedo"),
            ("gIndirAlbedo", rm.getTexture "OutIndirectAlbedo") ]
        constants := []
        target := Target.managedFbo [rm.getTexture s.mOutTexName] } := by
  rcases frameStart_cases s rm with h | h <;> rw [h] <;> rfl

/-- The commands and the output content of an execution with the filter off whose
pending clear does not fault. -/
theorem execute_disabled_draw (s : SVGFPass) (rm : ResourceManager) (pDst : Tex)
    (hrm : s.mpResManager = some rm) (hout : rm.getTexture s.mOutTexName = some pDst)
    (hoff : s.mFilterEnabled = false) (hcl : faulted s.clearCmds = false) :
    drawsOf s.execute.2 =
        [ { shader := Shader.combineUnfiltered
            textures :=
              [ ("gDirect", rm.getTexture s.mDirectInTexName),
                ("gIndirect", rm.getTexture s.mIndirectInTexName),
                ("gDirAlbedo", rm.getTexture "OutDirectAlbedo"),
                ("gIndirAlbedo", rm.getTexture "OutIndirectAlbedo") ]
            constants := []
            target := Target.managedFbo [some pDst] } ]
      ∧ blitsOf s.execute.2 = []
      ∧ (∀ σ : Store, runCmds s.execute.2 σ pDst =
          Val.shaded Shader.combineUnfiltered
            [ ("gDirect", σ.read (rm.getTexture s.mDirectInTexName)),
              ("gIndirect", σ.read (rm.getTexture s.mIndirectInTexName)),
              ("gDirAlbedo", σ.read (rm.getTexture "OutDirectAlbedo")),
              ("gIndirAlbedo", σ.read (rm.getTexture "OutIndirectAlbedo")) ] [] 0) := by
  rw [execute_eq s rm pDst hrm hout hcl]
  simp only [hoff, Bool.false_eq_true, if_false, combineDraw_frameStart, hout]
  refine ⟨?_, ?_, ?_⟩
  · simp [drawsOf_append, drawsOf_clearCmds, drawsOf]
  · simp [blitsOf_append, blitsOf_clearCmds, blitsOf]
  · intro σ
    simp [runCmds_append, runCmds, Cmd.apply, slot_managed_singleton, Draw.output,
      read_getTexture_clearCmds]

/-! ## The ping-pong swaps -/

theorem swapPingPong_swapPingPong (s : SVGFPass) : s.swapPingPong.swapPingPong = s := rfl

theorem afterSwaps_zero (s : SVGFPass) : s.afterSwaps 0 = s := rfl

theorem afterSwaps_swap (s : SVGFPass) (j : Nat) :
    s.swapPingPong.afterSwaps j = s.afterSwaps (j + 1) := by
  unfold SVGFPass.afterSwaps
  rcases Nat.mod_two_eq_zero_or_one j with h | h
  · have h2 : (j + 1) % 2 = 1 := by omega
    simp [h, h2]
  · have h2 : (j + 1) % 2 = 0 := by omega
    simp [h, h2, swapPingPong_swapPingPong]

theorem afterSwaps_config (s : SVGFPass) (j : Nat) :
    (s.afterSwaps j).mFilterIterations = s.mFilterIterations
      ∧ (s.afterSwaps j).mFeedbackTap = s.mFeedbackTap
      ∧ (s.afterSwaps j).mpFilteredPastFbo = s.mpFilteredPastFbo
      ∧ (s.afterSwaps j).mpCurReprojFbo = s.mpCurReprojFbo
      ∧ (s.afterSwaps j).mpPrevReprojFbo = s.mpPrevReprojFbo
      ∧ (s.afterSwaps j).mpOutputFbo = s.mpOutputFbo
      ∧ (s.afterSwaps j).mInputTex = s.mInputTex := by
  unfold SVGFPass.afterSwaps
  split <;> exact ⟨rfl, rfl, rfl, rfl, rfl, rfl, rfl⟩

/-- The two ping-pong pointers after `j` swaps are the original two, in the original or
the exchanged order. -/
theorem afterSwaps_pingPong (s : SVGFPass) (j : Nat) :
    ((s.afterSwaps j).mpPingPongFbo0 = s.mpPingPongFbo0
        ∧ (s.afterSwaps j).mpPingPongFbo1 = s.mpPingPongFbo1)
      ∨ ((s.afterSwaps j).mpPingPongFbo0 = s.mpPingPongFbo1
        ∧ (s.afterSwaps j).mpPingPongFbo1 = s.mpPingPongFbo0) := by
  unfold SVGFPass.afterSwaps
  split
  · exact Or.inl ⟨rfl, rfl⟩
  · exact Or.inr ⟨rfl, rfl⟩

theorem afterSwaps_succ_pingPong (s : SVGFPass) (j : Nat) :
    (s.afterSwaps (j + 1)).mpPingPongFbo0 = (s.afterSwaps j).mpPingPongFbo1
      ∧ (s.afterSwaps (j + 1)).mpPingPongFbo1 = (s.afterSwaps j).mpPingPongFbo0 := by
  unfold SVGFPass.afterSwaps
  rcases Nat.mod_two_eq_zero_or_one j with h | h
  · have h2 : (j + 1) % 2 = 1 := by omega
    simp [h, h2, SVGFPass.swapPingPong]
  · have h2 : (j + 1) % 2 = 0 := by omega
    simp [h, h2, SVGFPass.swapPingPong]

theorem afterSwaps_frameStart_pingPong (s : SVGFPass) (rm : ResourceManager) (j : Nat) :
    ((s.frameStart rm).afterSwaps j).mpPingPongFbo0 = (s.afterSwaps j).mpPingPongFbo0
      ∧ ((s.frameStart rm).afterSwaps j).mpPingPongFbo1 = (s.afterSwaps j).mpPingPongFbo1 := by
  obtain ⟨_, _, hp0, hp1, _⟩ := frameStart_config s rm
  unfold SVGFPass.afterSwaps
  split <;> simp [SVGFPass.swapPingPong, hp0, hp1]

theorem swapPingPong_fields (s : SVGFPass) :
    s.swapPingPong.mpPingPongFbo0 = s.mpPingPongFbo1
      ∧ s.swapPingPong.mpPingPongFbo1 = s.mpPingPongFbo0
      ∧ s.swapPingPong.mpOutputFbo = s.mpOutputFbo
      ∧ s.swapPingPong.mpFilteredPastFbo = s.mpFilteredPastFbo
      ∧ s.swapPingPong.mFeedbackTap = s.mFeedbackTap
      ∧ s.swapPingPong.mFilterIterations = s.mFilterIterations
      ∧ s.swapPingPong.mpCurReprojFbo = s.mpCurReprojFbo :=
  ⟨rfl, rfl, rfl, rfl, rfl, rfl, rfl⟩

theorem afterSwaps_allocated (s : SVGFPass) (j : Nat) (hs : s.Allocated) :
    (s.afterSwaps j).Allocated := by
  unfold SVGFPass.afterSwaps
  split
  · exact hs
  · exact swapPingPong_allocated s hs

/-! ## The captures -/

theorem feedbackCapture_of_ne (s : SVGFPass) (i : Int)
    (h : i ≠ min s.mFeedbackTap (s.mFilterIterations - 1)) : s.feedbackCapture i = [] := by
  unfold SVGFPass.feedbackCapture
  rw [if_neg h]

/-- The capture of an iteration before the last one, on an allocated pass: two blits
from the second ping-pong framebuffer. -/
theorem feedbackCapture_pingPong (s : SVGFPass) (hs : s.Allocated) (i : Int)
    (hi : i = min s.mFeedbackTap (s.mFilterIterations - 1))
    (hne : i ≠ s.mFilterIterations - 1) :
    ∃ p1 fp : Fbo, s.mpPingPongFbo1 = some p1 ∧ s.mpFilteredPastFbo = some fp
      ∧ s.feedbackCapture i =
          [ Cmd.blit (Tex.attachment p1.id 0) (Tex.attachment fp.id 0),
            Cmd.blit (Tex.attachment p1.id 1) (Tex.attachment fp.id 1) ] := by
  obtain ⟨p0, p1, fp, cur, prv, out, e0, e1, e2, e3, e4, e5, l0, l1, l2, l3, l4, l5, _⟩ :=
    allocated_exists s hs
  refine ⟨p1, fp, e1, e2, ?_⟩
  unfold SVGFPass.feedbackCapture
  rw [if_pos hi]
  simp [SVGFPass.curTargetFbo, hne, e1, e2, getColorTexture, l1, l2, blitCall, seqCmds,
    faulted, Cmd.isFault]

/-- The capture of the last iteration, on an allocated pass: the blit of the colour
target of the output framebuffer, then the fault at its missing second colour target. -/
theorem feedbackCapture_output (s : SVGFPass) (hs : s.Allocated) (i : Int)
    (hi : i = min s.mFeedbackTap (s.mFilterIterations - 1))
    (he : i = s.mFilterIterations - 1) :
    ∃ out fp : Fbo, s.mpOutputFbo = some out ∧ s.mpFilteredPastFbo = some fp
      ∧ s.feedbackCapture i =
          [ Cmd.blit (Tex.attachment out.id 0) (Tex.attachment fp.id 0), Cmd.fault ] := by
  obtain ⟨p0, p1, fp, cur, prv, out, e0, e1, e2, e3, e4, e5, l0, l1, l2, l3, l4, l5, _⟩ :=
    allocated_exists s hs
  refine ⟨out, fp, e5, e2, ?_⟩
  unfold SVGFPass.feedbackCapture
  rw [if_pos hi]
  simp [SVGFPass.curTargetFbo, he, e5, e2, getColorTexture, l5, l2, blitCall, seqCmds,
    faulted, Cmd.isFault]

/-- On an allocated pass the capture of iteration `i` faults exactly when `i` is the
last index and the feedback tap is at or beyond it. -/
theorem faulted_feedbackCapture (s : SVGFPass) (hs : s.Allocated) (i : Int) :
    faulted (s.feedbackCapture i) =
      decide (i = s.mFilterIterations - 1 ∧ s.mFilterIterations - 1 ≤ s.mFeedbackTap) := by
  by_cases hi : i = min s.mFeedbackTap (s.mFilterIterations - 1)
  · by_cases he : i = s.mFilterIterations - 1
    · obtain ⟨out, fp, _, _, h⟩ := feedbackCapture_output s hs i hi he
      have hd : i = s.mFilterIterations - 1 ∧ s.mFilterIterations - 1 ≤ s.mFeedbackTap :=
        ⟨he, by omega⟩
      rw [h, decide_eq_true hd]
      rfl
    · obtain ⟨p1, fp, _, _, h⟩ := feedbackCapture_pingPong s hs i hi he
      rw [h, decide_eq_false (fun hd => he hd.1)]
      rfl
  · have hd : ¬ (i = s.mFilterIterations - 1 ∧ s.mFilterIterations - 1 ≤ s.mFeedbackTap) := by
      omega
    rw [feedbackCapture_of_ne s i hi, decide_eq_false hd]
    rfl

/-- The fallback capture on an allocated pass: two blits from the current-reprojection
framebuffer when the guard holds, nothing otherwise. -/
theorem fallbackCapture_allocated (s : SVGFPass) (hs : s.Allocated) :
    ∃ cur fp : Fbo, s.mpCurReprojFbo = some cur ∧ s.mpFilteredPastFbo = some fp
      ∧ s.fallbackCapture =
          if s.mFeedbackTap < 0 ∨ s.mFilterIterations ≤ 0 then
            [ Cmd.blit (Tex.attachment cur.id 0) (Tex.attachment fp.id 0),
              Cmd.blit (Tex.attachment cur.id 1) (Tex.attachment fp.id 1) ]
          else [] := by
  obtain ⟨p0, p1, fp, cur, prv, out, e0, e1, e2, e3, e4, e5, l0, l1, l2, l3, l4, l5, _⟩ :=
    allocated_exists s hs
  refine ⟨cur, fp, e3, e2, ?_⟩
  unfold SVGFPass.fallbackCapture
  split
  · simp [e3, e2, getColorTexture, l3, l2, blitCall, seqCmds, faulted, Cmd.isFault]
  · rfl

theorem faulted_fallbackCapture (s : SVGFPass) (hs : s.Allocated) :
    faulted s.fallbackCapture = false := by
  obtain ⟨cur, fp, _, _, h⟩ := fallbackCapture_allocated s hs
  rw [h]
  split <;> rfl

theorem drawsOf_feedbackCapture (s : SVGFPass) (i : Int) : drawsOf (s.feedbackCapture i) = [] := by
  unfold SVGFPass.feedbackCapture
  split
  · exact drawsOf_seqCmds _ _ (drawsOf_blitCall _ _) (drawsOf_blitCall _ _)
  · rfl

theorem drawsOf_fallbackCapture (s : SVGFPass) : drawsOf s.fallbackCapture = [] := by
  unfold SVGFPass.fallbackCapture
  split
  · exact drawsOf_seqCmds _ _ (drawsOf_blitCall _ _) (drawsOf_blitCall _ _)
  · rfl

/-! ## The wavelet loop -/

theorem atrousLoop_zero (i : Int) (s : SVGFPass) : SVGFPass.atrousLoop 0 i s = (s, []) := rfl

theorem atrousLoop_succ_def (n : Nat) (i : Int) (s : SVGFPass) :
    SVGFPass.atrousLoop (n + 1) i s =
      if faulted (s.atrousIteration i).2 then s.atrousIteration i
      else ((SVGFPass.atrousLoop n (i + 1) (s.atrousIteration i).1).1,
        (s.atrousIteration i).2 ++ (SVGFPass.atrousLoop n (i + 1) (s.atrousIteration i).1).2) :=
  rfl

/-- One iteration on an allocated pass. -/
theorem atrousIteration_allocated (s : SVGFPass) (hs : s.Allocated) (i : Int) :
    s.atrousIteration i =
      (if i = s.mFilterIterations - 1 ∧ s.mFilterIterations - 1 ≤ s.mFeedbackTap then s
        else s.swapPingPong,
       Cmd.draw (s.atrousDraw i) :: s.feedbackCapture i) := by
  obtain ⟨p0, _, _, _, _, _, e0, _⟩ := allocated_exists s hs
  unfold SVGFPass.atrousIteration
  simp only [e0, faulted_feedbackCapture s hs i, decide_eq_true_eq]
  split <;> rfl

theorem faulted_atrousIteration (s : SVGFPass) (hs : s.Allocated) (i : Int) :
    faulted (s.atrousIteration i).2 =
      decide (i = s.mFilterIterations - 1 ∧ s.mFilterIterations - 1 ≤ s.mFeedbackTap) := by
  rw [atrousIteration_allocated s hs i, faulted_cons, faulted_feedbackCapture s hs i]
  rfl

/-- One unrolling of the loop when iteration `i` does not fault. -/
theorem atrousLoop_succ (n : Nat) (i : Int) (s : SVGFPass) (hs : s.Allocated)
    (hok : ¬ (i = s.mFilterIterations - 1 ∧ s.mFilterIterations - 1 ≤ s.mFeedbackTap)) :
    SVGFPass.atrousLoop (n + 1) i s =
      ((SVGFPass.atrousLoop n (i + 1) s.swapPingPong).1,
        Cmd.draw (s.atrousDraw i) ::
          (s.feedbackCapture i ++ (SVGFPass.atrousLoop n (i + 1) s.swapPingPong).2)) := by
  rw [atrousLoop_succ_def, faulted_atrousIteration s hs i, decide_eq_false hok,
    atrousIteration_allocated s hs i, if_neg hok]
  simp only [Bool.false_eq_true, if_false, List.cons_append]

/-- One unrolling of the loop when iteration `i` faults: the loop ends there. -/
theorem atrousLoop_succ_fault (n : Nat) (i : Int) (s : SVGFPass) (hs : s.Allocated)
    (hbad : i = s.mFilterIterations - 1 ∧ s.mFilterIterations - 1 ≤ s.mFeedbackTap) :
    SVGFPass.atrousLoop (n + 1) i s = (s, Cmd.draw (s.atrousDraw i) :: s.feedbackCapture i) := by
  rw [atrousLoop_succ_def, faulted_atrousIteration s hs i, decide_eq_true hbad,
    atrousIteration_allocated s hs i, if_pos hbad]
  simp only [if_true]

/-- The commands of one unrolling of the loop, while the loop stays within the
iteration count: whether or not the last iteration faults, nothing follows it. -/
theorem atrousLoop_succ_cmds (n : Nat) (i : Int) (s : SVGFPass) (hs : s.Allocated)
    (hr : i + ((n + 1 : Nat) : Int) ≤ s.mFilterIterations) :
    (SVGFPass.atrousLoop (n + 1) i s).2 =
      Cmd.draw (s.atrousDraw i) ::
        (s.feedbackCapture i ++ (SVGFPass.atrousLoop n (i + 1) s.swapPingPong).2) := by
  by_cases hbad : i = s.mFilterIterations - 1 ∧ s.mFilterIterations - 1 ≤ s.mFeedbackTap
  · have hn : n = 0 := by
      push_cast at hr
      omega
    subst hn
    rw [atrousLoop_succ_fault 0 i s hs hbad, atrousLoop_zero]
    simp
  · rw [atrousLoop_succ n i s hs hbad]

/-- The object after `n` iterations of the loop none of which faults. -/
theorem atrousLoop_state (n : Nat) (i : Int) (s : SVGFPass) (hs : s.Allocated)
    (hok : ¬ (i ≤ s.mFilterIterations - 1 ∧ s.mFilterIterations - 1 < i + (n : Int)
      ∧ s.mFilterIterations - 1 ≤ s.mFeedbackTap)) :
    (SVGFPass.atrousLoop n i s).1 = s.afterSwaps n := by
  induction n generalizing i s with
  | zero => rfl
  | succ n ih =>
    obtain ⟨_, _, _, _, eT, eN, _⟩ := swapPingPong_fields s
    push_cast at hok
    rw [atrousLoop_succ n i s hs (by omega),
      ih (i + 1) s.swapPingPong (swapPingPong_allocated s hs) (by rw [eT, eN]; omega),
      afterSwaps_swap]

/-- Whether `n` iterations of the loop entered at index `i` fault: when they reach the
last index with the feedback tap at or beyond it. -/
theorem faulted_atrousLoop (n : Nat) (i : Int) (s : SVGFPass) (hs : s.Allocated) :
    faulted (SVGFPass.atrousLoop n i s).2 =
      decide (i ≤ s.mFilterIterations - 1 ∧ s.mFilterIterations - 1 < i + (n : Int)
        ∧ s.mFilterIterations - 1 ≤ s.mFeedbackTap) := by
  induction n generalizing i s with
  | zero =>
    have : ¬ (i ≤ s.mFilterIterations - 1 ∧ s.mFilterIterations - 1 < i + ((0 : Nat) : Int)
        ∧ s.mFilterIterations - 1 ≤ s.mFeedbackTap) := by
      push_cast
      omega
    simp only [atrousLoop_zero, faulted_nil, this, decide_False]
  | succ n ih =>
    obtain ⟨_, _, _, _, eT, eN, _⟩ := swapPingPong_fields s
    by_cases hbad : i = s.mFilterIterations - 1 ∧ s.mFilterIterations - 1 ≤ s.mFeedbackTap
    · rw [atrousLoop_succ_fault n i s hs hbad, faulted_cons, faulted_feedbackCapture s hs i]
      have : i ≤ s.mFilterIterations - 1 ∧ s.mFilterIterations - 1 < i + ((n + 1 : Nat) : Int)
          ∧ s.mFilterIterations - 1 ≤ s.mFeedbackTap := by
        push_cast
        omega
      rw [decide_eq_true hbad, decide_eq_true this]
      rfl
    · rw [atrousLoop_succ n i s hs hbad, faulted_cons, faulted_append,
        faulted_feedbackCapture s hs i, ih (i + 1) s.swapPingPong (swapPingPong_allocated s hs),
        eT, eN]
      rw [decide_eq_false hbad]
      simp only [Cmd.isFault, Bool.false_or]
      congr 1
      push_cast
      apply propext
      constructor <;> intro h <;> omega

/-- The draws of `n` iterations of the loop entered at index `i`, while the loop stays
within the iteration count: iteration `i + j` draws from the object as it is after `j`
swaps. -/
theorem drawsOf_atrousLoop (n : Nat) (i : Int) (s : SVGFPass) (hs : s.Allocated)
    (hr : 0 < n → i + (n : Int) ≤ s.mFilterIterations) :
    drawsOf (SVGFPass.atrousLoop n i s).2 =
      (List.range n).map (fun j => (s.afterSwaps j).atrousDraw (i + j)) := by
  induction n generalizing i s with
  | zero => rfl
  | succ n ih =>
    obtain ⟨_, _, _, _, eT, eN, _⟩ := swapPingPong_fields s
    have hr := hr (Nat.succ_pos n)
    rw [atrousLoop_succ_cmds n i s hs hr]
    push_cast at hr
    simp only [drawsOf, drawsOf_append,
      ih (i + 1) s.swapPingPong (swapPingPong_allocated s hs) (by rw [eN]; omega),
      drawsOf_feedbackCapture, List.nil_append,
      List.range_succ_eq_map, List.map_cons, List.map_map, afterSwaps_zero]
    congr 1
    · simp
    · apply List.map_congr_left
      intro j _
      simp only [Function.comp, afterSwaps_swap]
      congr 1
      push_cast
      ring

/-! ## The commands of a filter-enabled execution -/

/-- The whole loop of `computeAtrousDecomposition` faults exactly when there is at least
one iteration and the feedback tap is at or beyond the last index. -/
theorem faulted_fullLoop (s : SVGFPass) (hs : s.Allocated) :
    faulted (SVGFPass.atrousLoop s.mFilterIterations.toNat 0 s).2 =
      decide (1 ≤ s.mFilterIterations ∧ s.mFilterIterations - 1 ≤ s.mFeedbackTap) := by
  rw [faulted_atrousLoop _ 0 s hs]
  congr 1
  apply propext
  constructor <;> intro h <;> omega

theorem fallbackCapture_afterSwaps (s : SVGFPass) (j : Nat) :
    (s.afterSwaps j).fallbackCapture = s.fallbackCapture := by
  obtain ⟨aN, aT, afp, acur, _⟩ := afterSwaps_config s j
  simp only [SVGFPass.fallbackCapture, aN, aT, afp, acur]

theorem modulationDraw_afterSwaps (s : SVGFPass) (j : Nat) :
    (s.afterSwaps j).modulationDraw = s.modulationDraw := by
  obtain ⟨_, _, _, acur, _, aout, ain⟩ := afterSwaps_config s j
  simp only [SVGFPass.modulationDraw, acur, aout, ain]

/-- `computeAtrousDecomposition` on an allocated pass: the loop, and the fallback
capture when the loop did not fault. -/
theorem computeAtrousDecomposition_allocated (s : SVGFPass) (hs : s.Allocated) :
    s.computeAtrousDecomposition.2 =
        (SVGFPass.atrousLoop s.mFilterIterations.toNat 0 s).2 ++
          (if 1 ≤ s.mFilterIterations ∧ s.mFilterIterations - 1 ≤ s.mFeedbackTap then []
           else s.fallbackCapture)
      ∧ (¬ (1 ≤ s.mFilterIterations ∧ s.mFilterIterations - 1 ≤ s.mFeedbackTap) →
          s.computeAtrousDecomposition.1 = s.afterSwaps s.mFilterIterations.toNat)
      ∧ ((1 ≤ s.mFilterIterations ∧ s.mFilterIterations - 1 ≤ s.mFeedbackTap) →
          s.computeAtrousDecomposition.1
            = (SVGFPass.atrousLoop s.mFilterIterations.toNat 0 s).1)
      ∧ faulted s.computeAtrousDecomposition.2 =
          decide (1 ≤ s.mFilterIterations ∧ s.mFilterIterations - 1 ≤ s.mFeedbackTap) := by
  obtain ⟨_, _, _, cur, _, _, _, _, _, e3, _⟩ := allocated_exists s hs
  have hf := faulted_fullLoop s hs
  unfold SVGFPass.computeAtrousDecomposition
  simp only [e3]
  by_cases hbad : 1 ≤ s.mFilterIterations ∧ s.mFilterIterations - 1 ≤ s.mFeedbackTap
  · rw [decide_eq_true hbad] at hf
    rw [thenRun_fault _ _ hf, if_pos hbad, decide_eq_true hbad]
    exact ⟨by simp, fun h => absurd hbad h, fun _ => rfl, hf⟩
  · rw [decide_eq_false hbad] at hf
    have hst := atrousLoop_state s.mFilterIterations.toNat 0 s hs (by omega)
    rw [thenRun_ok _ _ hf, if_neg hbad, decide_eq_false hbad]
    refine ⟨?_, fun _ => hst, fun h => absurd h hbad, ?_⟩
    · simp only [hst, fallbackCapture_afterSwaps]
    · simp only [hst, fallbackCapture_afterSwaps, faulted_append, hf,
        faulted_fallbackCapture s hs, Bool.or_self]

/-- The draws of `computeAtrousDecomposition` on an allocated pass. -/
theorem drawsOf_computeAtrousDecomposition (s : SVGFPass) (hs : s.Allocated) :
    drawsOf s.computeAtrousDecomposition.2 =
      (List.range s.mFilterIterations.toNat).map
        (fun j => (s.afterSwaps j).atrousDraw (0 + j)) := by
  rw [(computeAtrousDecomposition_allocated s hs).1, drawsOf_append,
    drawsOf_atrousLoop _ 0 s hs (by omega)]
  split <;> simp [drawsOf, drawsOf_fallbackCapture]

/-- The filter-enabled branch on an allocated pass: the commands issued, and the object
left when no iteration faulted. -/
theorem executeFiltered_allocated (s : SVGFPass) (pDst : Tex) (hs : s.Allocated) :
    (s.executeFiltered pDst).2 =
        Cmd.draw s.reprojectionDraw :: Cmd.draw s.varianceDraw ::
          ((SVGFPass.atrousLoop s.mFilterIterations.toNat 0 s).2 ++
            (if 1 ≤ s.mFilterIterations ∧ s.mFilterIterations - 1 ≤ s.mFeedbackTap then []
             else
              s.fallbackCapture ++
                ((if s.mFilterIterations ≤ 0 then [Cmd.draw s.modulationDraw] else []) ++
                  (blitCall (getColorTexture s.mpOutputFbo 0) (some pDst) ++
                    blitCall s.mInputTex.linearZ (s.mInputTex.prevLinearZ.map Tex.owned)))))
      ∧ (¬ (1 ≤ s.mFilterIterations ∧ s.mFilterIterations - 1 ≤ s.mFeedbackTap) →
          (s.executeFiltered pDst).1 = (s.afterSwaps s.mFilterIterations.toNat).swapReproj)
      ∧ ((1 ≤ s.mFilterIterations ∧ s.mFilterIterations - 1 ≤ s.mFeedbackTap) →
          (s.executeFiltered pDst).1
            = (SVGFPass.atrousLoop s.mFilterIterations.toNat 0 s).1) := by
  obtain ⟨p0, p1, fp, cur, prv, out, e0, e1, e2, e3, e4, e5, l0, l1, l2, l3, l4, l5, _⟩ :=
    allocated_exists s hs
  obtain ⟨hc, hok1, hbad1, hcf⟩ := computeAtrousDecomposition_allocated s hs
  have h1 : thenRun (s, s.computeReprojection) (fun t => (t, t.computeVarianceEstimate))
      = (s, [Cmd.draw s.reprojectionDraw, Cmd.draw s.varianceDraw]) := by
    have : s.computeReprojection = [Cmd.draw s.reprojectionDraw] := by
      simp [SVGFPass.computeReprojection, e4, e2]
    rw [this, thenRun_ok (s, [Cmd.draw s.reprojectionDraw]) _ rfl]
    simp [SVGFPass.computeVarianceEstimate, e3]
  have h2 : thenRun (s, [Cmd.draw s.reprojectionDraw, Cmd.draw s.varianceDraw])
      (fun t => t.computeAtrousDecomposition)
      = (s.computeAtrousDecomposition.1,
          Cmd.draw s.reprojectionDraw :: Cmd.draw s.varianceDraw ::
            s.computeAtrousDecomposition.2) := by
    rw [thenRun_ok (s, [Cmd.draw s.reprojectionDraw, Cmd.draw s.varianceDraw]) _ rfl]
    rfl
  unfold SVGFPass.executeFiltered
  rw [h1, h2]
  by_cases hbad : 1 ≤ s.mFilterIterations ∧ s.mFilterIterations - 1 ≤ s.mFeedbackTap
  · have hf : faulted (s.computeAtrousDecomposition.1,
        Cmd.draw s.reprojectionDraw :: Cmd.draw s.varianceDraw ::
          s.computeAtrousDecomposition.2).2 = true := by
      show faulted (Cmd.draw s.reprojectionDraw :: Cmd.draw s.varianceDraw ::
          s.computeAtrousDecomposition.2) = true
      rw [faulted_cons, faulted_cons, hcf, decide_eq_true hbad]
      rfl
    rw [thenRun_fault _ _ hf, thenRun_fault _ _ hf, thenRun_fault _ _ hf]
    refine ⟨?_, fun h => absurd hbad h, fun _ => hbad1 hbad⟩
    simp only [hc, if_pos hbad]
  · have hst := hok1 hbad
    obtain ⟨aN, aT, afp, acur, aprev, aout, ain⟩ := afterSwaps_config s s.mFilterIterations.toNat
    have hf : faulted (s.computeAtrousDecomposition.1,
        Cmd.draw s.reprojectionDraw :: Cmd.draw s.varianceDraw ::
          s.computeAtrousDecomposition.2).2 = false := by
      show faulted (Cmd.draw s.reprojectionDraw :: Cmd.draw s.varianceDraw ::
          s.computeAtrousDecomposition.2) = false
      rw [faulted_cons, faulted_cons, hcf, decide_eq_false hbad]
      rfl
    rw [thenRun_ok _ _ hf]
    have hmod : (if s.computeAtrousDecomposition.1.mFilterIterations ≤ 0
          then s.computeAtrousDecomposition.1.computeModulation else [])
        = (if s.mFilterIterations ≤ 0 then [Cmd.draw s.modulationDraw] else []) := by
      rw [hst, aN]
      split
      · simp [SVGFPass.computeModulation, acur, e3, modulationDraw_afterSwaps]
      · rfl
    have hmf : faulted (if s.mFilterIterations ≤ 0 then [Cmd.draw s.modulationDraw] else [])
        = false := by
      split <;> rfl
    simp only [hmod]
    have hf2 : faulted (s.computeAtrousDecomposition.1,
        (Cmd.draw s.reprojectionDraw :: Cmd.draw s.varianceDraw ::
          s.computeAtrousDecomposition.2) ++
          (if s.mFilterIterations ≤ 0 then [Cmd.draw s.modulationDraw] else [])).2 = false := by
      show faulted ((Cmd.draw s.reprojectionDraw :: Cmd.draw s.varianceDraw ::
          s.computeAtrousDecomposition.2) ++
          (if s.mFilterIterations ≤ 0 then [Cmd.draw s.modulationDraw] else [])) = false
      rw [faulted_append, hmf]
      exact (Bool.or_false _).trans hf
    rw [thenRun_ok _ _ hf2]
    have hob : blitCall (getColorTexture s.computeAtrousDecomposition.1.mpOutputFbo 0)
        (some pDst) = [Cmd.blit (Tex.attachment out.id 0) pDst] := by
      rw [hst, aout, e5]
      simp [getColorTexture, l5, blitCall]
    have hob2 : blitCall (getColorTexture s.mpOutputFbo 0) (some pDst)
        = [Cmd.blit (Tex.attachment out.id 0) pDst] := by
      rw [e5]
      simp [getColorTexture, l5, blitCall]
    simp only [hob]
    have hf3 : faulted (s.computeAtrousDecomposition.1,
        ((Cmd.draw s.reprojectionDraw :: Cmd.draw s.varianceDraw ::
          s.computeAtrousDecomposition.2) ++
          (if s.mFilterIterations ≤ 0 then [Cmd.draw s.modulationDraw] else [])) ++
          [Cmd.blit (Tex.attachment out.id 0) pDst]).2 = false := by
      show faulted (((Cmd.draw s.reprojectionDraw :: Cmd.draw s.varianceDraw ::
          s.computeAtrousDecomposition.2) ++
          (if s.mFilterIterations ≤ 0 then [Cmd.draw s.modulationDraw] else [])) ++
          [Cmd.blit (Tex.attachment out.id 0) pDst]) = false
      rw [faulted_append]
      exact (Bool.or_false _).trans hf2
    rw [thenRun_ok _ _ hf3]
    refine ⟨?_, fun _ => by rw [hst], fun h => absurd h hbad⟩
    simp only [hc, if_neg hbad, hst, hob2, SVGFPass.swapReproj, ain, List.cons_append,
      List.append_assoc]

/-- The commands of a filter-enabled execution of an allocated pass, in issue order: the
pending clear, the reprojection draw, the moment-filter draw, the wavelet loop, and,
unless the loop faulted, the fallback capture, the standalone modulation when the
iteration count is not positive, the blit of the output framebuffer to the output
texture and the copy of linear depth. -/
theorem execute_enabled_cmds (s : SVGFPass) (rm : ResourceManager) (pDst : Tex)
    (hrm : s.mpResManager = some rm) (hout : rm.getTexture s.mOutTexName = some pDst)
    (hon : s.mFilterEnabled = true) (hs : s.Allocated) :
    s.execute.2 =
      s.clearCmds ++
        (Cmd.draw (s.frameStart rm).reprojectionDraw ::
          Cmd.draw (s.frameStart rm).varianceDraw ::
            ((SVGFPass.atrousLoop s.mFilterIterations.toNat 0 (s.frameStart rm)).2 ++
              (if 1 ≤ s.mFilterIterations ∧ s.mFilterIterations - 1 ≤ s.mFeedbackTap then []
               else
                (s.frameStart rm).fallbackCapture ++
                  ((if s.mFilterIterations ≤ 0 then
                      [Cmd.draw (s.frameStart rm).modulationDraw] else []) ++
                    (blitCall (getColorTexture s.mpOutputFbo 0) (some pDst) ++
                      blitCall (rm.getTexture "SVGF_LinearZ")
                        (s.mInputTex.prevLinearZ.map Tex.owned)))))) := by
  rw [execute_eq s rm pDst hrm hout (faulted_clearCmds_of_allocated s hs)]
  simp only [hon, if_true]
  congr 1
  obtain ⟨hN, hT, hp0, hp1, hfp, hcur, hprev, hou, hz⟩ := frameStart_config s rm
  obtain ⟨_, _, hlin, _⟩ := frameStart_inputs s rm
  rw [(executeFiltered_allocated (s.frameStart rm) pDst (frameStart_allocated s rm hs)).1]
  simp only [hN, hT, hou, hz, hlin]

/-- The object after a filter-enabled execution of an allocated pass in which no
iteration faults: the pending-clear flag is reset, the inputs are bound, the ping-pong
pointers have been swapped once per iteration and the current/previous reprojection
pointers once. -/
theorem execute_enabled_state (s : SVGFPass) (rm : ResourceManager) (pDst : Tex)
    (hrm : s.mpResManager = some rm) (hout : rm.getTexture s.mOutTexName = some pDst)
    (hon : s.mFilterEnabled = true) (hs : s.Allocated)
    (hok : ¬ (1 ≤ s.mFilterIterations ∧ s.mFilterIterations - 1 ≤ s.mFeedbackTap)) :
    s.execute.1 =
      { (s.frameStart rm).afterSwaps s.mFilterIterations.toNat with
        mpCurReprojFbo := s.mpPrevReprojFbo
        mpPrevReprojFbo := s.mpCurReprojFbo } := by
  rw [execute_eq s rm pDst hrm hout (faulted_clearCmds_of_allocated s hs)]
  simp only [hon, if_true]
  obtain ⟨hN, hT, _, _, _, hcur, hprev, _, _⟩ := frameStart_config s rm
  obtain ⟨_, _, _, acur, aprev, _, _⟩ :=
    afterSwaps_config (s.frameStart rm) s.mFilterIterations.toNat
  rw [(executeFiltered_allocated (s.frameStart rm) pDst (frameStart_allocated s rm hs)).2.1
    (by rw [hN, hT]; exact hok)]
  simp only [SVGFPass.swapReproj, hN, acur, aprev, hcur, hprev]

/-- The object after a filter-enabled execution of an allocated pass in which the last
iteration faults: the object the loop left, with the reprojection pointers as they
were. -/
theorem execute_enabled_state_fault (s : SVGFPass) (rm : ResourceManager) (pDst : Tex)
    (hrm : s.mpResManager = some rm) (hout : rm.getTexture s.mOutTexName = some pDst)
    (hon : s.mFilterEnabled = true) (hs : s.Allocated)
    (hbad : 1 ≤ s.mFilterIterations ∧ s.mFilterIterations - 1 ≤ s.mFeedbackTap) :
    s.execute.1 = (SVGFPass.atrousLoop s.mFilterIterations.toNat 0 (s.frameStart rm)).1 := by
  rw [execute_eq s rm pDst hrm hout (faulted_clearCmds_of_allocated s hs)]
  simp only [hon, if_true]
  obtain ⟨hN, hT, _⟩ := frameStart_config s rm
  rw [(executeFiltered_allocated (s.frameStart rm) pDst (frameStart_allocated s rm hs)).2.2
    (by rw [hN, hT]; exact hbad), hN]

/-- The draws of a filter-enabled execution of an allocated pass: reprojection, moment
filter, the wavelet draws, and the standalone modulation when the iteration count is not
positive. -/
theorem drawsOf_execute_enabled (s : SVGFPass) (rm : ResourceManager) (pDst : Tex)
    (hrm : s.mpResManager = some rm) (hout : rm.getTexture s.mOutTexName = some pDst)
    (hon : s.mFilterEnabled = true) (hs : s.Allocated) :
    drawsOf s.execute.2 =
      (s.frameStart rm).reprojectionDraw :: (s.frameStart rm).varianceDraw ::
        ((List.range s.mFilterIterations.toNat).map
            (fun j => ((s.frameStart rm).afterSwaps j).atrousDraw (0 + j)) ++
          if s.mFilterIterations ≤ 0 then [(s.frameStart rm).modulationDraw] else []) := by
  obtain ⟨hN, _⟩ := frameStart_config s rm
  rw [execute_enabled_cmds s rm pDst hrm hout hon hs]
  simp only [drawsOf_append, drawsOf_clearCmds, drawsOf, List.nil_append]
  rw [drawsOf_atrousLoop _ 0 _ (frameStart_allocated s rm hs) (by rw [hN]; omega)]
  congr 3
  by_cases hbad : 1 ≤ s.mFilterIterations ∧ s.mFilterIterations - 1 ≤ s.mFeedbackTap
  · rw [if_pos hbad, if_neg (by omega)]
    rfl
  · rw [if_neg hbad]
    simp only [drawsOf_append, drawsOf_fallbackCapture, drawsOf_blitCall, List.nil_append,
      List.append_nil]
    split <;> rfl

/-- Every draw of the wavelet loop runs the wavelet shader. -/
theorem atrousDraws_shader (s : SVGFPass) (hs : s.Allocated) :
    ∀ d ∈ drawsOf s.computeAtrousDecomposition.2, d.shader = Shader.atrous := by
  rw [drawsOf_computeAtrousDecomposition s hs]
  intro d hd
  simp only [List.mem_map] at hd
  obtain ⟨j, _, rfl⟩ := hd
  rfl

/-- The wavelet draws of a filter-enabled execution of an allocated pass, whatever the
feedback tap. -/
theorem atrousDrawsOf_execute (s : SVGFPass) (rm : ResourceManager) (pDst : Tex)
    (hrm : s.mpResManager = some rm) (hout : rm.getTexture s.mOutTexName = some pDst)
    (hon : s.mFilterEnabled = true) (hs : s.Allocated) :
    atrousDrawsOf s.execute.2 =
      (List.range s.mFilterIterations.toNat).map
        (fun j => ((s.frameStart rm).afterSwaps j).atrousDraw (0 + j)) := by
  unfold atrousDrawsOf
  rw [drawsOf_execute_enabled s rm pDst hrm hout hon hs]
  have hfilter : ((List.range s.mFilterIterations.toNat).map
      (fun j => ((s.frameStart rm).afterSwaps j).atrousDraw (0 + j))).filter
      (fun d => d.shader = Shader.atrous)
      = (List.range s.mFilterIterations.toNat).map
        (fun j => ((s.frameStart rm).afterSwaps j).atrousDraw (0 + j)) := by
    rw [List.filter_eq_self]
    intro d hd
    simp only [List.mem_map] at hd
    obtain ⟨j, _, rfl⟩ := hd
    simp [SVGFPass.atrousDraw]
  have hmod : (if s.mFilterIterations ≤ 0 then
      [(s.frameStart rm).modulationDraw] else []).filter
      (fun d => d.shader = Shader.atrous) = [] := by
    split <;> simp [SVGFPass.modulationDraw]
  simp only [List.filter_cons, List.filter_append, hfilter, hmod, List.append_nil]
  simp [SVGFPass.reprojectionDraw, SVGFPass.varianceDraw]

theorem shiftLeftOne_eq (i : Nat) (h : i ≤ 30) : shiftLeftOne (i : Int) = 2 ^ i := by
  unfold shiftLeftOne toInt32
  simp only [Int.toNat_ofNat]
  have h1 : (2 : Int) ^ i ≤ 2 ^ 30 := pow_le_pow_right₀ (by norm_num) h
  have h0 : (0 : Int) < 2 ^ i := by positivity
  rw [Int.emod_eq_of_lt (by omega) (by omega)]
  omega

/-! ## What the entries of the command lists are -/

theorem mem_blitCall (a b : Option Tex) (c : Cmd) (h : c ∈ blitCall a b) :
    c = Cmd.fault ∨ ∃ x y, a = some x ∧ b = some y ∧ c = Cmd.blit x y := by
  rcases blitCall_cases a b with ⟨x, y, ha, hb, e⟩ | ⟨_, e⟩
  · rw [e, List.mem_singleton] at h
    exact Or.inr ⟨x, y, ha, hb, h⟩
  · rw [e, List.mem_singleton] at h
    exact Or.inl h

/-- An entry of the capture of iteration `i` is a blit of a colour target of the render
target of that iteration into the same colour target of the filtered-past framebuffer,
or the fault marker. -/
theorem mem_feedbackCapture (s : SVGFPass) (i : Int) (c : Cmd)
    (h : c ∈ s.feedbackCapture i) :
    i = min s.mFeedbackTap (s.mFilterIterations - 1)
      ∧ (c = Cmd.fault
        ∨ ∃ k x y, getColorTexture (s.curTargetFbo i) k = some x
            ∧ getColorTexture s.mpFilteredPastFbo k = some y ∧ c = Cmd.blit x y) := by
  unfold SVGFPass.feedbackCapture at h
  split at h
  · rename_i hi
    refine ⟨hi, ?_⟩
    rcases mem_seqCmds _ _ c h with h | h
    · rcases mem_blitCall _ _ c h with h | ⟨x, y, hx, hy, hc⟩
      · exact Or.inl h
      · exact Or.inr ⟨0, x, y, hx, hy, hc⟩
    · rcases mem_blitCall _ _ c h with h | ⟨x, y, hx, hy, hc⟩
      · exact Or.inl h
      · exact Or.inr ⟨1, x, y, hx, hy, hc⟩
  · simp at h

/-- An entry of the fallback capture is a blit of a colour target of the
current-reprojection framebuffer into the same colour target of the filtered-past
framebuffer, or the fault marker. -/
theorem mem_fallbackCapture (s : SVGFPass) (c : Cmd) (h : c ∈ s.fallbackCapture) :
    (s.mFeedbackTap < 0 ∨ s.mFilterIterations ≤ 0)
      ∧ (c = Cmd.fault
        ∨ ∃ k x y, getColorTexture s.mpCurReprojFbo k = some x
            ∧ getColorTexture s.mpFilteredPastFbo k = some y ∧ c = Cmd.blit x y) := by
  unfold SVGFPass.fallbackCapture at h
  split at h
  · rename_i hg
    refine ⟨hg, ?_⟩
    rcases mem_seqCmds _ _ c h with h | h
    · rcases mem_blitCall _ _ c h with h | ⟨x, y, hx, hy, hc⟩
      · exact Or.inl h
      · exact Or.inr ⟨0, x, y, hx, hy, hc⟩
    · rcases mem_blitCall _ _ c h with h | ⟨x, y, hx, hy, hc⟩
      · exact Or.inl h
      · exact Or.inr ⟨1, x, y, hx, hy, hc⟩
  · simp at h

/-- An entry of the loop is the fault marker, the draw of the first iteration, an entry
of its capture, or an entry of the remaining iterations. -/
theorem mem_atrousLoop_succ (n : Nat) (i : Int) (s : SVGFPass) (c : Cmd)
    (h : c ∈ (SVGFPass.atrousLoop (n + 1) i s).2) :
    c = Cmd.fault ∨ c = Cmd.draw (s.atrousDraw i) ∨ c ∈ s.feedbackCapture i
      ∨ c ∈ (SVGFPass.atrousLoop n (i + 1) s.swapPingPong).2 := by
  rw [atrousLoop_succ_def] at h
  unfold SVGFPass.atrousIteration at h
  cases hp : s.mpPingPongFbo0 with
  | none =>
    simp only [hp] at h
    rw [if_pos (show faulted [Cmd.fault] = true from rfl), List.mem_singleton] at h
    exact Or.inl h
  | some p =>
    simp only [hp] at h
    by_cases hf : faulted (s.feedbackCapture i) = true
    · simp only [hf, if_true, faulted_cons, Bool.or_true, List.mem_cons] at h
      rcases h with h | h
      · exact Or.inr (Or.inl h)
      · exact Or.inr (Or.inr (Or.inl h))
    · simp only [hf, Bool.false_eq_true, if_false, faulted_cons, Cmd.isFault,
        Bool.false_or, List.mem_append, List.mem_cons] at h
      rcases h with (h | h) | h
      · exact Or.inr (Or.inl h)
      · exact Or.inr (Or.inr (Or.inl h))
      · exact Or.inr (Or.inr (Or.inr h))

theorem feedbackCapture_writes (s : SVGFPass) (i : Int) (u : Tex) :
    ∀ c ∈ s.feedbackCapture i, c.writes u = true →
      isTarget s.mpFilteredPastFbo u = true
        ∧ i = min s.mFeedbackTap (s.mFilterIterations - 1) := by
  intro c hc hw
  obtain ⟨hi, h | ⟨k, x, y, _, hy, rfl⟩⟩ := mem_feedbackCapture s i c hc
  · subst h
    simp [Cmd.writes] at hw
  · simp only [Cmd.writes, decide_eq_true_eq] at hw
    subst hw
    exact ⟨getColorTexture_isTarget _ _ _ hy, hi⟩

/-- The textures the wavelet loop can overwrite: colour targets of the two ping-pong
framebuffers and of the output framebuffer, and colour targets of the filtered-past
framebuffer when the capture index falls inside the loop. -/
theorem atrousLoop_writes (n : Nat) (i : Int) (s : SVGFPass) (u : Tex) :
    ∀ c ∈ (SVGFPass.atrousLoop n i s).2, c.writes u = true →
      isTarget s.mpPingPongFbo0 u = true ∨ isTarget s.mpPingPongFbo1 u = true
        ∨ isTarget s.mpOutputFbo u = true
        ∨ (isTarget s.mpFilteredPastFbo u = true
            ∧ i ≤ min s.mFeedbackTap (s.mFilterIterations - 1)
            ∧ min s.mFeedbackTap (s.mFilterIterations - 1) < i + n) := by
  induction n generalizing i s with
  | zero => intro c hc; simp [atrousLoop_zero] at hc
  | succ n ih =>
    intro c hc hw
    rcases mem_atrousLoop_succ n i s c hc with rfl | rfl | hc | hc
    · simp [Cmd.writes] at hw
    · simp only [Cmd.writes, SVGFPass.atrousDraw, SVGFPass.curTargetFbo] at hw
      split at hw
      · exact Or.inr (Or.inr (Or.inl hw))
      · exact Or.inr (Or.inl hw)
    · obtain ⟨h1, h2⟩ := feedbackCapture_writes s i u c hc hw
      refine Or.inr (Or.inr (Or.inr ⟨h1, ?_, ?_⟩))
      · omega
      · push_cast
        omega
    · obtain ⟨e0, e1, eo, ef, et, en, _⟩ := swapPingPong_fields s
      have := ih (i + 1) s.swapPingPong c hc hw
      rw [e0, e1, eo, ef, et, en] at this
      rcases this with h | h | h | ⟨h, h1, h2⟩
      · exact Or.inr (Or.inl h)
      · exact Or.inl h
      · exact Or.inr (Or.inr (Or.inl h))
      · refine Or.inr (Or.inr (Or.inr ⟨h, ?_, ?_⟩))
        · omega
        · push_cast
          omega

/-- The entries of the pending clear: five `clearFbo` calls, and the `clearUAV` of the
previous-depth texture or a fault. -/
theorem mem_clearCmds (s : SVGFPass) (c : Cmd) (h : c ∈ s.clearCmds) :
    c = Cmd.clearFbo s.mpPrevReprojFbo Vec4.zero F32.one 0
      ∨ c = Cmd.clearFbo s.mpCurReprojFbo Vec4.zero F32.one 0
      ∨ c = Cmd.clearFbo s.mpFilteredPastFbo Vec4.zero F32.one 0
      ∨ c = Cmd.clearFbo s.mpPingPongFbo0 Vec4.zero F32.one 0
      ∨ c = Cmd.clearFbo s.mpPingPongFbo1 Vec4.zero F32.one 0
      ∨ (∃ z, s.mInputTex.prevLinearZ = some z
          ∧ c = Cmd.clearUAV (Tex.owned z) ⟨F32.zero, F32.zero, F32.zero, F32.one⟩)
      ∨ c = Cmd.fault := by
  unfold SVGFPass.clearCmds at h
  split at h
  · cases hz : s.mInputTex.prevLinearZ with
    | none =>
      rw [clearFbos_of_none s hz] at h
      simp only [List.mem_cons, List.mem_singleton, List.not_mem_nil, or_false] at h
      rcases h with h | h | h | h | h | h <;> simp [h]
    | some z =>
      rw [clearFbos_of_some s z hz] at h
      simp only [List.mem_cons, List.mem_singleton, List.not_mem_nil, or_false] at h
      rcases h with h | h | h | h | h | h <;> simp [h]
  · simp at h

/-- The textures the pending clear overwrites. -/
theorem clearCmds_writes (s : SVGFPass) (u : Tex) :
    ∀ c ∈ s.clearCmds, c.writes u = true →
      isTarget s.mpPrevReprojFbo u = true ∨ isTarget s.mpCurReprojFbo u = true
        ∨ isTarget s.mpFilteredPastFbo u = true ∨ isTarget s.mpPingPongFbo0 u = true
        ∨ isTarget s.mpPingPongFbo1 u = true
        ∨ s.mInputTex.prevLinearZ.map Tex.owned = some u := by
  intro c hc hw
  rcases mem_clearCmds s c hc with rfl | rfl | rfl | rfl | rfl | ⟨z, hz, rfl⟩ | rfl
  · exact Or.inl hw
  · exact Or.inr (Or.inl hw)
  · exact Or.inr (Or.inr (Or.inl hw))
  · exact Or.inr (Or.inr (Or.inr (Or.inl hw)))
  · exact Or.inr (Or.inr (Or.inr (Or.inr (Or.inl hw))))
  · simp only [Cmd.writes, decide_eq_true_eq] at hw
    refine Or.inr (Or.inr (Or.inr (Or.inr (Or.inr ?_))))
    rw [hz, ← hw]
    rfl
  · simp [Cmd.writes] at hw

theorem fallbackCapture_writes (s : SVGFPass) (u : Tex) :
    ∀ c ∈ s.fallbackCapture, c.writes u = true → isTarget s.mpFilteredPastFbo u = true := by
  intro c hc hw
  obtain ⟨_, h | ⟨k, x, y, _, hy, rfl⟩⟩ := mem_fallbackCapture s c hc
  · subst h
    simp [Cmd.writes] at hw
  · simp only [Cmd.writes, decide_eq_true_eq] at hw
    subst hw
    exact getColorTexture_isTarget _ _ _ hy

theorem atrousLoop_isClear (n : Nat) (i : Int) (s : SVGFPass) :
    ∀ c ∈ (SVGFPass.atrousLoop n i s).2, c.isClear = false := by
  induction n generalizing i s with
  | zero => intro c hc; simp [atrousLoop_zero] at hc
  | succ n ih =>
    intro c hc
    rcases mem_atrousLoop_succ n i s c hc with rfl | rfl | hc | hc
    · rfl
    · rfl
    · obtain ⟨_, h | ⟨k, x, y, _, _, rfl⟩⟩ := mem_feedbackCapture s i c hc
      · subst h; rfl
      · rfl
    · exact ih _ _ c hc

/-- The entries of a filter-enabled execution of an allocated pass. -/
theorem mem_execute_enabled (s : SVGFPass) (rm : ResourceManager) (pDst : Tex)
    (hrm : s.mpResManager = some rm) (hout : rm.getTexture s.mOutTexName = some pDst)
    (hon : s.mFilterEnabled = true) (hs : s.Allocated) (c : Cmd) (h : c ∈ s.execute.2) :
    c ∈ s.clearCmds
      ∨ c = Cmd.draw (s.frameStart rm).reprojectionDraw
      ∨ c = Cmd.draw (s.frameStart rm).varianceDraw
      ∨ c ∈ (SVGFPass.atrousLoop s.mFilterIterations.toNat 0 (s.frameStart rm)).2
      ∨ c ∈ (s.frameStart rm).fallbackCapture
      ∨ (s.mFilterIterations ≤ 0 ∧ c = Cmd.draw (s.frameStart rm).modulationDraw)
      ∨ (∃ x, getColorTexture s.mpOutputFbo 0 = some x ∧ c = Cmd.blit x pDst)
      ∨ (∃ x z, rm.getTexture "SVGF_LinearZ" = some x ∧ s.mInputTex.prevLinearZ = some z
          ∧ c = Cmd.blit x (Tex.owned z))
      ∨ c = Cmd.fault := by
  rw [execute_enabled_cmds s rm pDst hrm hout hon hs] at h
  simp only [List.mem_append, List.mem_cons] at h
  rcases h with h | h | h | h | h
  · exact Or.inl h
  · exact Or.inr (Or.inl h)
  · exact Or.inr (Or.inr (Or.inl h))
  · exact Or.inr (Or.inr (Or.inr (Or.inl h)))
  · split at h
    · simp at h
    · simp only [List.mem_append] at h
      rcases h with h | h | h | h
      · exact Or.inr (Or.inr (Or.inr (Or.inr (Or.inl h))))
      · split at h
        · rename_i hN
          simp only [List.mem_singleton] at h
          exact Or.inr (Or.inr (Or.inr (Or.inr (Or.inr (Or.inl ⟨hN, h⟩)))))
        · simp at h
      · rcases mem_blitCall _ _ c h with h | ⟨x, y, hx, hy, hc⟩
        · simp [h]
        · simp only [Option.some.injEq] at hy
          subst hy
          exact Or.inr (Or.inr (Or.inr (Or.inr (Or.inr (Or.inr (Or.inl ⟨x, hx, hc⟩))))))
      · rcases mem_blitCall _ _ c h with h | ⟨x, y, hx, hy, hc⟩
        · simp [h]
        · cases hz : s.mInputTex.prevLinearZ with
          | none => simp [hz] at hy
          | some z =>
            simp only [hz, Option.map_some', Option.some.injEq] at hy
            subst hy
            exact Or.inr (Or.inr (Or.inr (Or.inr (Or.inr (Or.inr (Or.inr
              (Or.inl ⟨x, z, hx, rfl, hc⟩)))))))

/-- The textures a filter-enabled execution of an allocated pass can overwrite: colour
targets of the six framebuffers, the previous-depth texture and the output texture. -/
theorem execute_enabled_writes (s : SVGFPass) (rm : ResourceManager) (pDst : Tex)
    (hrm : s.mpResManager = some rm) (hout : rm.getTexture s.mOutTexName = some pDst)
    (hon : s.mFilterEnabled = true) (hs : s.Allocated) (u : Tex) :
    ∀ c ∈ s.execute.2, c.writes u = true →
      isTarget s.mpPingPongFbo0 u = true ∨ isTarget s.mpPingPongFbo1 u = true
        ∨ isTarget s.mpFilteredPastFbo u = true ∨ isTarget s.mpCurReprojFbo u = true
        ∨ isTarget s.mpPrevReprojFbo u = true ∨ isTarget s.mpOutputFbo u = true
        ∨ s.mInputTex.prevLinearZ.map Tex.owned = some u ∨ u = pDst := by
  intro c hc hw
  obtain ⟨hN, hT, hp0, hp1, hfp, hcur, hprev, hou, hz⟩ := frameStart_config s rm
  rcases mem_execute_enabled s rm pDst hrm hout hon hs c hc with
    hc | rfl | rfl | hc | hc | ⟨_, rfl⟩ | ⟨x, _, rfl⟩ | ⟨x, z, _, hzz, rfl⟩ | rfl
  · rcases clearCmds_writes s u c hc hw with h | h | h | h | h | h <;> simp [h]
  · simp only [Cmd.writes, SVGFPass.reprojectionDraw, hcur] at hw
    have : isTarget s.mpCurReprojFbo u = true := hw
    simp [this]
  · simp only [Cmd.writes, SVGFPass.varianceDraw, hp0] at hw
    have : isTarget s.mpPingPongFbo0 u = true := hw
    simp [this]
  · have := atrousLoop_writes _ _ _ u c hc hw
    rw [hp0, hp1, hou, hfp] at this
    rcases this with h | h | h | ⟨h, _⟩ <;> simp [h]
  · have := fallbackCapture_writes _ u c hc hw
    rw [hfp] at this
    simp [this]
  · simp only [Cmd.writes, SVGFPass.modulationDraw, hou] at hw
    have : isTarget s.mpOutputFbo u = true := hw
    simp [this]
  · simp only [Cmd.writes, decide_eq_true_eq] at hw
    simp [hw]
  · simp only [Cmd.writes, decide_eq_true_eq] at hw
    simp [hzz, hw]
  · simp [Cmd.writes] at hw

/-! ## What the pending clear leaves -/

/-- After the commands of `clearFbos` every colour target of the two reprojection
framebuffers, the filtered-past framebuffer and the two ping-pong framebuffers holds the
colour `vec4(0)`. -/
theorem clearFbos_zero (s : SVGFPass) (σ : Store) (u : Tex)
    (h : isTarget s.mpPrevReprojFbo u = true ∨ isTarget s.mpCurReprojFbo u = true
      ∨ isTarget s.mpFilteredPastFbo u = true ∨ isTarget s.mpPingPongFbo0 u = true
      ∨ isTarget s.mpPingPongFbo1 u = true) :
    runCmds s.clearFbos.2 σ u = Val.cleared Vec4.zero := by
  cases u with
  | managed n => simp [isTarget_managed] at h
  | owned t => simp [isTarget_owned] at h
  | attachment id k =>
    simp only [isTarget] at h
    cases hz : s.mInputTex.prevLinearZ with
    | none =>
      rw [clearFbos_of_none s hz]
      simp only [runCmds, Cmd.apply]
      cases h1 : (Target.fbo s.mpPingPongFbo1).slot (Tex.attachment id k) <;>
      cases h2 : (Target.fbo s.mpPingPongFbo0).slot (Tex.attachment id k) <;>
      cases h3 : (Target.fbo s.mpFilteredPastFbo).slot (Tex.attachment id k) <;>
      cases h4 : (Target.fbo s.mpCurReprojFbo).slot (Tex.attachment id k) <;>
      cases h5 : (Target.fbo s.mpPrevReprojFbo).slot (Tex.attachment id k) <;>
      simp_all
    | some z =>
      rw [clearFbos_of_some s z hz]
      simp only [runCmds, Cmd.apply, Store.set, reduceCtorEq, if_false]
      cases h1 : (Target.fbo s.mpPingPongFbo1).slot (Tex.attachment id k) <;>
      cases h2 : (Target.fbo s.mpPingPongFbo0).slot (Tex.attachment id k) <;>
      cases h3 : (Target.fbo s.mpFilteredPastFbo).slot (Tex.attachment id k) <;>
      cases h4 : (Target.fbo s.mpCurReprojFbo).slot (Tex.attachment id k) <;>
      cases h5 : (Target.fbo s.mpPrevReprojFbo).slot (Tex.attachment id k) <;>
      simp_all

/-- After the commands of `clearFbos` the previous-depth texture holds
`vec4(0, 0, 0, 1)`. -/
theorem clearFbos_prevLinearZ (s : SVGFPass) (σ : Store) (p : Texture2D)
    (h : s.mInputTex.prevLinearZ = some p) :
    runCmds s.clearFbos.2 σ (Tex.owned p) =
      Val.cleared ⟨F32.zero, F32.zero, F32.zero, F32.one⟩ := by
  rw [clearFbos_of_some s p h]
  simp [runCmds, Cmd.apply, Store.set]

/-- The commands of `clearFbos` do not touch the output framebuffer. -/
theorem clearFbos_output (s : SVGFPass) (hs : s.Allocated) (σ : Store) (u : Tex)
    (h : isTarget s.mpOutputFbo u = true) :
    runCmds s.clearFbos.2 σ u = σ u := by
  apply runCmds_of_not_writes
  intro c hc
  obtain ⟨_, _, _, _, h0, _, _, _, h1, _, _, h2, _, h3, h4⟩ := allocated_distinct s hs
  obtain ⟨z, hz⟩ := allocated_prevLinearZ s hs
  rw [clearFbos_of_some s z hz] at hc
  simp only [List.mem_cons, List.mem_singleton, List.not_mem_nil, or_false] at hc
  rcases hc with rfl | rfl | rfl | rfl | rfl | rfl
  · exact isTarget_of_ne _ _ u (Ne.symm h4) h
  · exact isTarget_of_ne _ _ u (Ne.symm h3) h
  · exact isTarget_of_ne _ _ u (Ne.symm h2) h
  · exact isTarget_of_ne _ _ u (Ne.symm h0) h
  · exact isTarget_of_ne _ _ u (Ne.symm h1) h
  · cases u with
    | managed n => simp [isTarget_managed] at h
    | owned t => simp [isTarget_owned] at h
    | attachment id k => simp [Cmd.writes]

/-! ## The object an execution leaves -/

/-- The object the loop leaves is the object it started from after some number of
ping-pong swaps. -/
theorem atrousLoop_state_cases (n : Nat) (i : Int) (s : SVGFPass) :
    ∃ k, (SVGFPass.atrousLoop n i s).1 = s.afterSwaps k := by
  induction n generalizing i s with
  | zero => exact ⟨0, rfl⟩
  | succ n ih =>
    rw [atrousLoop_succ_def]
    unfold SVGFPass.atrousIteration
    cases hp : s.mpPingPongFbo0 with
    | none =>
      simp only [hp]
      rw [if_pos (show faulted [Cmd.fault] = true from rfl)]
      exact ⟨0, rfl⟩
    | some p =>
      simp only [hp]
      by_cases hf : faulted (s.feedbackCapture i) = true
      · simp only [hf, if_true, faulted_cons, Bool.or_true]
        exact ⟨0, rfl⟩
      · simp only [hf, Bool.false_eq_true, if_false, faulted_cons, Cmd.isFault,
          Bool.false_or]
        obtain ⟨k, hk⟩ := ih (i + 1) s.swapPingPong
        exact ⟨k + 1, by rw [hk, afterSwaps_swap]⟩

/-- The object a filter-enabled execution of an allocated pass leaves: the object at the
start of the frame after some number of ping-pong swaps, with the reprojection pointers
exchanged or as they were. -/
theorem execute_enabled_state_cases (s : SVGFPass) (rm : ResourceManager) (pDst : Tex)
    (hrm : s.mpResManager = some rm) (hout : rm.getTexture s.mOutTexName = some pDst)
    (hon : s.mFilterEnabled = true) (hs : s.Allocated) :
    ∃ k, s.execute.1 = (s.frameStart rm).afterSwaps k
      ∨ s.execute.1 = ((s.frameStart rm).afterSwaps k).swapReproj := by
  by_cases hbad : 1 ≤ s.mFilterIterations ∧ s.mFilterIterations - 1 ≤ s.mFeedbackTap
  · obtain ⟨k, hk⟩ := atrousLoop_state_cases s.mFilterIterations.toNat 0 (s.frameStart rm)
    exact ⟨k, Or.inl (by
      rw [execute_enabled_state_fault s rm pDst hrm hout hon hs hbad, hk])⟩
  · refine ⟨s.mFilterIterations.toNat, Or.inr ?_⟩
    rw [execute_enabled_state s rm pDst hrm hout hon hs hbad]
    obtain ⟨_, _, _, _, _, hcur, hprev, _, _⟩ := frameStart_config s rm
    obtain ⟨_, _, _, acur, aprev, _, _⟩ :=
      afterSwaps_config (s.frameStart rm) s.mFilterIterations.toNat
    simp only [SVGFPass.swapReproj, acur, aprev, hcur, hprev]

theorem afterSwaps_needClear (s : SVGFPass) (k : Nat) :
    (s.afterSwaps k).mNeedFboClear = s.mNeedFboClear := by
  unfold SVGFPass.afterSwaps
  split <;> rfl

/-- An execution of an allocated pass that finds its output texture resets the
pending-clear flag. -/
theorem execute_needClear (s : SVGFPass) (rm : ResourceManager) (pDst : Tex)
    (hrm : s.mpResManager = some rm) (hout : rm.getTexture s.mOutTexName = some pDst)
    (hs : s.Allocated) :
    s.execute.1.mNeedFboClear = false := by
  have hcl := faulted_clearCmds_of_allocated s hs
  cases hon : s.mFilterEnabled with
  | true =>
    obtain ⟨k, h | h⟩ := execute_enabled_state_cases s rm pDst hrm hout hon hs
    · rw [h, afterSwaps_needClear]
      exact frameStart_needClear s rm hcl
    · rw [h]
      show ((s.frameStart rm).afterSwaps k).mNeedFboClear = false
      rw [afterSwaps_needClear]
      exact frameStart_needClear s rm hcl
  | false =>
    rw [execute_eq s rm pDst hrm hout hcl]
    simp only [hon, Bool.false_eq_true, if_false]
    exact frameStart_needClear s rm hcl

/-- The commands of an execution of an allocated pass that finds its output texture are
the pending clear followed by commands none of which is a clear. -/
theorem execute_cmds_split (s : SVGFPass) (rm : ResourceManager) (pDst : Tex)
    (hrm : s.mpResManager = some rm) (hout : rm.getTexture s.mOutTexName = some pDst)
    (hs : s.Allocated) :
    ∃ rest, s.execute.2 = s.clearCmds ++ rest ∧ ∀ c ∈ rest, c.isClear = false := by
  cases hon : s.mFilterEnabled with
  | true =>
    refine ⟨_, execute_enabled_cmds s rm pDst hrm hout hon hs, ?_⟩
    intro c hc
    simp only [List.mem_append, List.mem_cons] at hc
    rcases hc with rfl | rfl | hc | hc
    · rfl
    · rfl
    · exact atrousLoop_isClear _ _ _ c hc
    · split at hc
      · simp at hc
      · simp only [List.mem_append] at hc
        rcases hc with hc | hc | hc | hc
        · obtain ⟨_, h | ⟨k, x, y, _, _, rfl⟩⟩ := mem_fallbackCapture _ c hc
          · subst h; rfl
          · rfl
        · split at hc
          · simp only [List.mem_singleton] at hc
            subst hc
            rfl
          · simp at hc
        · rcases mem_blitCall _ _ c hc with rfl | ⟨x, y, _, _, rfl⟩ <;> rfl
        · rcases mem_blitCall _ _ c hc with rfl | ⟨x, y, _, _, rfl⟩ <;> rfl
  | false =>
    refine ⟨[Cmd.draw ((s.frameStart rm).combineDraw rm)], ?_, ?_⟩
    · rw [execute_eq s rm pDst hrm hout (faulted_clearCmds_of_allocated s hs)]
      simp [hon]
    · intro c hc
      simp only [List.mem_singleton] at hc
      subst hc
      rfl

/-! ## What the feedback capture leaves in the filtered-past framebuffer -/

/-- The loop leaves alone every texture that is no colour target of the ping-pong and
output framebuffers, provided the capture index is outside the loop's range or the
texture is no colour target of the filtered-past framebuffer. -/
theorem atrousLoop_keeps (n : Nat) (i : Int) (s : SVGFPass) (σ : Store) (u : Tex)
    (h0 : isTarget s.mpPingPongFbo0 u = false) (h1 : isTarget s.mpPingPongFbo1 u = false)
    (ho : isTarget s.mpOutputFbo u = false)
    (hm : isTarget s.mpFilteredPastFbo u = false
      ∨ ¬ (i ≤ min s.mFeedbackTap (s.mFilterIterations - 1)
          ∧ min s.mFeedbackTap (s.mFilterIterations - 1) < i + n)) :
    runCmds (SVGFPass.atrousLoop n i s).2 σ u = σ u := by
  apply runCmds_of_not_writes
  intro c hc
  cases hw : c.writes u with
  | false => rfl
  | true =>
    exfalso
    rcases atrousLoop_writes n i s u c hc hw with h | h | h | ⟨h, h2, h3⟩
    · simp [h0] at h
    · simp [h1] at h
    · simp [ho] at h
    · rcases hm with hm | hm
      · simp [hm] at h
      · exact hm ⟨h2, h3⟩

/-- Splitting the commands of the loop after its first `a` iterations, while the loop
stays within the iteration count. -/
theorem atrousLoop_add (a b : Nat) (i : Int) (s : SVGFPass) (hs : s.Allocated)
    (hr : i + ((a + b : Nat) : Int) ≤ s.mFilterIterations) :
    (SVGFPass.atrousLoop (a + b) i s).2 =
      (SVGFPass.atrousLoop a i s).2 ++ (SVGFPass.atrousLoop b (i + a) (s.afterSwaps a)).2 := by
  induction a generalizing i s with
  | zero => simp [atrousLoop_zero, afterSwaps_zero]
  | succ a ih =>
    obtain ⟨_, _, _, _, eT, eN, _⟩ := swapPingPong_fields s
    have e : a + 1 + b = (a + b) + 1 := by omega
    push_cast at hr
    rw [e, atrousLoop_succ_cmds (a + b) i s hs (by push_cast; omega),
      atrousLoop_succ_cmds a i s hs (by push_cast; omega),
      ih (i + 1) s.swapPingPong (swapPingPong_allocated s hs) (by rw [eN]; push_cast; omega)]
    simp only [afterSwaps_swap, List.cons_append, List.append_assoc]
    have e2 : i + 1 + (a : Int) = i + ((a + 1 : Nat) : Int) := by push_cast; ring
    rw [e2]

/-- The commands after the fallback capture (standalone modulation and the two final
blits) do not write the filtered-past framebuffer. -/
theorem frame_tail_keeps (s fs : SVGFPass) (hs : s.Allocated) (pDst z : Option Tex)
    (hfs : fs.mpOutputFbo = s.mpOutputFbo) (σ : Store) (u : Tex)
    (hu : isTarget s.mpFilteredPastFbo u = true)
    (hp : ∀ v, pDst = some v → isTarget s.mpFilteredPastFbo v = false) :
    runCmds ((if s.mFilterIterations ≤ 0 then [Cmd.draw fs.modulationDraw] else []) ++
      (blitCall (getColorTexture s.mpOutputFbo 0) pDst ++
        blitCall z (s.mInputTex.prevLinearZ.map Tex.owned))) σ u = σ u := by
  apply runCmds_of_not_writes
  intro c hc
  have hne := (allocated_distinct s hs).2.2.2.2.2.2.2.2.2.2.2.1
  simp only [List.mem_append] at hc
  rcases hc with hc | hc | hc
  · split at hc
    · simp only [List.mem_singleton] at hc
      subst hc
      simp only [Cmd.writes, SVGFPass.modulationDraw, hfs]
      exact isTarget_of_ne _ _ u hne hu
    · simp at hc
  · rcases mem_blitCall _ _ c hc with rfl | ⟨x, y, _, hy, rfl⟩
    · rfl
    · cases hw : (Cmd.blit x y).writes u with
      | false => rfl
      | true =>
        simp only [Cmd.writes, decide_eq_true_eq] at hw
        subst hw
        have := hp y hy
        simp [hu] at this
  · rcases mem_blitCall _ _ c hc with rfl | ⟨x, y, _, hy, rfl⟩
    · rfl
    · cases hzz : s.mInputTex.prevLinearZ with
      | none => simp [hzz] at hy
      | some p =>
        simp only [hzz, Option.map_some', Option.some.injEq] at hy
        subst hy
        cases u with
        | managed n => simp [isTarget_managed] at hu
        | owned t => simp [isTarget_owned] at hu
        | attachment id k => simp [Cmd.writes]

/-- Fallback capture.  With the buffers allocated and the feedback tap negative or the
iteration count not positive, colour target `k` (0 or 1) of the filtered-past
framebuffer ends the frame holding output `k` of this frame's reprojection draw. -/
theorem filteredPast_after_fallback (s : SVGFPass) (rm : ResourceManager) (pDst : Tex)
    (hrm : s.mpResManager = some rm) (hout : rm.getTexture s.mOutTexName = some pDst)
    (hon : s.mFilterEnabled = true) (hs : s.Allocated)
    (hcfg : s.mFeedbackTap < 0 ∨ s.mFilterIterations ≤ 0) (σ : Store) (k : Nat)
    (hk : k < 2) :
    ∃ g, s.mpFilteredPastFbo = some g
      ∧ runCmds s.execute.2 σ (Tex.attachment g.id k)
          = (s.frameStart rm).reprojectionDraw.output (runCmds s.clearCmds σ) k := by
  obtain ⟨p0, p1, fp, cur, prv, out, e0, e1, e2, e3, e4, e5, l0, l1, l2, l3, l4, l5,
    n01, n0f, n0c, n0p, n0o, n1f, n1c, n1p, n1o, nfc, nfp, nfo, ncp, nco, npo⟩ :=
    allocated_exists s hs
  obtain ⟨hN, hT, hp0, hp1, hfp, hcur, hprev, hou, hz⟩ := frameStart_config s rm
  refine ⟨fp, e2, ?_⟩
  have hfpk : isTarget s.mpFilteredPastFbo (Tex.attachment fp.id k) = true := by
    simp [e2, isTarget_attachment, l2, hk]
  rw [execute_enabled_cmds s rm pDst hrm hout hon hs, if_neg (by omega), runCmds_append]
  simp only [runCmds]
  rw [runCmds_append, runCmds_append]
  rw [frame_tail_keeps s (s.frameStart rm) hs (some pDst) _ hou _ _ hfpk
    (by
      intro v hv
      rw [← Option.some.inj hv, getTexture_managed rm _ _ hout]
      exact isTarget_managed _ _)]
  have hfb : (s.frameStart rm).fallbackCapture =
      [ Cmd.blit (Tex.attachment cur.id 0) (Tex.attachment fp.id 0),
        Cmd.blit (Tex.attachment cur.id 1) (Tex.attachment fp.id 1) ] := by
    simp [SVGFPass.fallbackCapture, hN, hT, hcur, hfp, e2, e3, getColorTexture, l2, l3, hcfg,
      blitCall, seqCmds, faulted, Cmd.isFault]
  rw [hfb]
  have hcopy : ∀ τ : Store,
      runCmds [ Cmd.blit (Tex.attachment cur.id 0) (Tex.attachment fp.id 0),
        Cmd.blit (Tex.attachment cur.id 1) (Tex.attachment fp.id 1) ] τ
        (Tex.attachment fp.id k) = τ (Tex.attachment cur.id k) := by
    intro τ
    have hk2 : k = 0 ∨ k = 1 := by omega
    rcases hk2 with rfl | rfl <;>
      simp [runCmds, Cmd.apply, Store.set, nfc, Ne.symm nfc]
  rw [hcopy]
  have hck : ∀ f : Option Fbo, fboId f ≠ fboId (some cur) →
      isTarget f (Tex.attachment cur.id k) = false := by
    intro f hf
    exact isTarget_of_ne (some cur) f _ (Ne.symm hf)
      (by simp [isTarget_attachment, l3]; omega)
  rw [atrousLoop_keeps _ _ _ _ _
    (by rw [hp0, e0]; exact hck _ (by simp [fboId, n0c]))
    (by rw [hp1, e1]; exact hck _ (by simp [fboId, n1c]))
    (by rw [hou, e5]; exact hck _ (by simp [fboId, Ne.symm nco]))
    (Or.inl (by rw [hfp, e2]; exact hck _ (by simp [fboId, nfc])))]
  rw [apply_of_not_writes (Cmd.draw (s.frameStart rm).varianceDraw) _ _
    (by
      simp only [Cmd.writes, SVGFPass.varianceDraw, hp0, e0]
      exact hck _ (by simp [fboId, n0c]))]
  simp only [Cmd.apply, SVGFPass.reprojectionDraw, hcur, e3, slot_fbo_attachment, l3]
  have hk4 : k < 4 := by omega
  simp [hk4]

/-- The commands of a filter-enabled execution of an allocated pass, split at wavelet
draw `t`, for a feedback tap below the last index. -/
theorem execute_enabled_split (s : SVGFPass) (rm : ResourceManager) (pDst : Tex)
    (hrm : s.mpResManager = some rm) (hout : rm.getTexture s.mOutTexName = some pDst)
    (hon : s.mFilterEnabled = true) (hs : s.Allocated) (t : Nat)
    (ht : (t : Int) < s.mFilterIterations)
    (hok : ¬ (1 ≤ s.mFilterIterations ∧ s.mFilterIterations - 1 ≤ s.mFeedbackTap)) :
    s.execute.2 =
      (s.clearCmds ++
        (Cmd.draw (s.frameStart rm).reprojectionDraw ::
          Cmd.draw (s.frameStart rm).varianceDraw ::
            (SVGFPass.atrousLoop t 0 (s.frameStart rm)).2)) ++
      (Cmd.draw (((s.frameStart rm).afterSwaps t).atrousDraw t) ::
        (((s.frameStart rm).afterSwaps t).feedbackCapture t ++
          ((SVGFPass.atrousLoop (s.mFilterIterations.toNat - t - 1) ((t : Int) + 1)
              ((s.frameStart rm).afterSwaps t).swapPingPong).2 ++
            ((s.frameStart rm).fallbackCapture ++
              ((if s.mFilterIterations ≤ 0 then [Cmd.draw (s.frameStart rm).modulationDraw]
                else []) ++
                (blitCall (getColorTexture s.mpOutputFbo 0) (some pDst) ++
                  blitCall (rm.getTexture "SVGF_LinearZ")
                    (s.mInputTex.prevLinearZ.map Tex.owned))))))) := by
  obtain ⟨hN, _⟩ := frameStart_config s rm
  obtain ⟨aN, _⟩ := afterSwaps_config (s.frameStart rm) t
  have hfs := frameStart_allocated s rm hs
  have hsplit : t + ((s.mFilterIterations.toNat - t - 1) + 1) = s.mFilterIterations.toNat := by
    omega
  have hloop := atrousLoop_add t ((s.mFilterIterations.toNat - t - 1) + 1) 0 (s.frameStart rm)
    hfs (by rw [hsplit, hN]; omega)
  rw [hsplit, atrousLoop_succ_cmds _ _ _ (afterSwaps_allocated _ t hfs)
    (by rw [aN, hN]; push_cast; omega)] at hloop
  rw [execute_enabled_cmds s rm pDst hrm hout hon hs, if_neg hok, hloop]
  simp only [List.append_assoc, List.cons_append, zero_add]

/-- The first part of that split, whatever the feedback tap: the commands up to and
including wavelet draw `t`. -/
theorem execute_enabled_upto (s : SVGFPass) (rm : ResourceManager) (pDst : Tex)
    (hrm : s.mpResManager = some rm) (hout : rm.getTexture s.mOutTexName = some pDst)
    (hon : s.mFilterEnabled = true) (hs : s.Allocated) (t : Nat)
    (ht : (t : Int) < s.mFilterIterations) :
    ∃ post, s.execute.2 =
      (s.clearCmds ++
        (Cmd.draw (s.frameStart rm).reprojectionDraw ::
          Cmd.draw (s.frameStart rm).varianceDraw ::
            (SVGFPass.atrousLoop t 0 (s.frameStart rm)).2)) ++
      (Cmd.draw (((s.frameStart rm).afterSwaps t).atrousDraw t) :: post) := by
  obtain ⟨hN, _⟩ := frameStart_config s rm
  obtain ⟨aN, _⟩ := afterSwaps_config (s.frameStart rm) t
  have hfs := frameStart_allocated s rm hs
  have hsplit : t + ((s.mFilterIterations.toNat - t - 1) + 1) = s.mFilterIterations.toNat := by
    omega
  have hloop := atrousLoop_add t ((s.mFilterIterations.toNat - t - 1) + 1) 0 (s.frameStart rm)
    hfs (by rw [hsplit, hN]; omega)
  rw [hsplit, atrousLoop_succ_cmds _ _ _ (afterSwaps_allocated _ t hfs)
    (by rw [aN, hN]; push_cast; omega)] at hloop
  rw [execute_enabled_cmds s rm pDst hrm hout hon hs, hloop]
  simp only [List.append_assoc, List.cons_append, zero_add]
  exact ⟨_, rfl⟩

/-- Capture at the tap.  With the buffers allocated and the feedback tap `t` naming an
iteration before the last one, colour target `k` (0 or 1) of the filtered-past
framebuffer ends the frame holding output `k` of wavelet draw `t`, as that draw computed
it from the store left by the commands before it. -/
theorem filteredPast_after_tap (s : SVGFPass) (rm : ResourceManager) (pDst : Tex)
    (hrm : s.mpResManager = some rm) (hout : rm.getTexture s.mOutTexName = some pDst)
    (hon : s.mFilterEnabled = true) (hs : s.Allocated) (t : Nat)
    (ht : s.mFeedbackTap = (t : Int)) (hlt : (t : Int) + 1 < s.mFilterIterations)
    (σ : Store) (k : Nat) (hk : k < 2) :
    ∃ g, s.mpFilteredPastFbo = some g
      ∧ runCmds s.execute.2 σ (Tex.attachment g.id k)
          = (((s.frameStart rm).afterSwaps t).atrousDraw t).output
              (runCmds (s.clearCmds ++
                (Cmd.draw (s.frameStart rm).reprojectionDraw ::
                  Cmd.draw (s.frameStart rm).varianceDraw ::
                    (SVGFPass.atrousLoop t 0 (s.frameStart rm)).2)) σ) k := by
  obtain ⟨p0, p1, fp, cur, prv, out, e0, e1, e2, e3, e4, e5, l0, l1, l2, l3, l4, l5,
    n01, n0f, n0c, n0p, n0o, n1f, n1c, n1p, n1o, nfc, nfp, nfo, ncp, nco, npo⟩ :=
    allocated_exists s hs
  obtain ⟨hN, hT, hp0, hp1, hfp, hcur, hprev, hou, hz⟩ := frameStart_config s rm
  obtain ⟨aN, aT, afp, acur, aprev, aout, ain⟩ := afterSwaps_config (s.frameStart rm) t
  refine ⟨fp, e2, ?_⟩
  have hfpk : isTarget s.mpFilteredPastFbo (Tex.attachment fp.id k) = true := by
    simp [e2, isTarget_attachment, l2, hk]
  have hfpk0 : ∀ f : Option Fbo, fboId f ≠ fboId (some fp) →
      isTarget f (Tex.attachment fp.id k) = false := by
    intro f hf
    exact isTarget_of_ne (some fp) f _ (Ne.symm hf) (by rw [← e2]; exact hfpk)
  rw [execute_enabled_split s rm pDst hrm hout hon hs t (by omega) (by omega),
    runCmds_append, runCmds_cons, runCmds_append, runCmds_append, runCmds_append]
  -- the tail of the frame
  rw [frame_tail_keeps s (s.frameStart rm) hs (some pDst) _ hou _ _ hfpk
    (by
      intro v hv
      rw [← Option.some.inj hv, getTexture_managed rm _ _ hout]
      exact isTarget_managed _ _)]
  -- no fallback capture
  have hfb : (s.frameStart rm).fallbackCapture = [] := by
    simp only [SVGFPass.fallbackCapture, hN, hT, ht]
    rw [if_neg (by omega)]
  rw [hfb, runCmds_nil]
  -- the iterations after the tap
  obtain ⟨s0, s1, so, sf, st, sn, _⟩ := swapPingPong_fields ((s.frameStart rm).afterSwaps t)
  have hpp := afterSwaps_pingPong (s.frameStart rm) t
  rw [hp0, hp1, e0, e1] at hpp
  rw [atrousLoop_keeps _ _ _ _ _
    (by
      rw [s0]
      rcases hpp with ⟨_, h⟩ | ⟨_, h⟩ <;> rw [h] <;> apply hfpk0 <;> simp [fboId, n0f, n1f])
    (by
      rw [s1]
      rcases hpp with ⟨h, _⟩ | ⟨h, _⟩ <;> rw [h] <;> apply hfpk0 <;> simp [fboId, n0f, n1f])
    (by
      rw [so, aout, hou, e5]
      apply hfpk0
      simp [fboId, Ne.symm nfo])
    (Or.inr (by
      rw [st, sn, aT, aN, hT, hN, ht]
      omega))]
  -- the capture of iteration t
  have htarget : ((s.frameStart rm).afterSwaps t).curTargetFbo (t : Int)
      = ((s.frameStart rm).afterSwaps t).mpPingPongFbo1 := by
    simp only [SVGFPass.curTargetFbo, aN, hN]
    rw [if_neg (by omega)]
  obtain ⟨x, hx, lx, nx⟩ : ∃ x : Fbo, ((s.frameStart rm).afterSwaps t).mpPingPongFbo1 = some x
      ∧ x.desc.colorTargets.length = 2 ∧ x.id ≠ fp.id := by
    rcases hpp with ⟨_, h⟩ | ⟨_, h⟩
    · exact ⟨p1, h, l1, n1f⟩
    · exact ⟨p0, h, l0, n0f⟩
  have hcap : ((s.frameStart rm).afterSwaps t).feedbackCapture (t : Int) =
      [ Cmd.blit (Tex.attachment x.id 0) (Tex.attachment fp.id 0),
        Cmd.blit (Tex.attachment x.id 1) (Tex.attachment fp.id 1) ] := by
    simp only [SVGFPass.feedbackCapture, htarget, hx, aN, aT, afp, hN, hT, hfp, e2, ht]
    rw [if_pos (by omega)]
    simp [getColorTexture, lx, l2, blitCall, seqCmds, faulted, Cmd.isFault]
  rw [hcap]
  have hcopy : ∀ τ : Store,
      runCmds [ Cmd.blit (Tex.attachment x.id 0) (Tex.attachment fp.id 0),
        Cmd.blit (Tex.attachment x.id 1) (Tex.attachment fp.id 1) ] τ
        (Tex.attachment fp.id k) = τ (Tex.attachment x.id k) := by
    intro τ
    have hk2 : k = 0 ∨ k = 1 := by omega
    rcases hk2 with rfl | rfl <;>
      simp [runCmds, Cmd.apply, Store.set, nx, Ne.symm nx]
  rw [hcopy]
  -- the draw of iteration t
  have hdt : (((s.frameStart rm).afterSwaps t).atrousDraw (t : Int)).target
      = Target.fbo (some x) := by
    simp only [SVGFPass.atrousDraw, htarget, hx]
  simp only [Cmd.apply, hdt, slot_fbo_attachment, lx, hk, and_self, if_true]

/-! ## The blits of a filter-enabled execution -/

theorem blitsOf_blitCall_some (a b : Tex) :
    blitsOf (blitCall (some a) (some b)) = [(some a, some b)] := rfl

/-- The blits of the depth copy into an allocated previous-depth texture: one when the
manager has the depth texture, none when the copy faults. -/
theorem blitsOf_depthCopy (lz : Option Tex) (d : Option Tex) (hd : d.isSome = true) :
    blitsOf (blitCall lz d) = (lz.map (fun v => (some v, d))).toList := by
  obtain ⟨z, rfl⟩ := Option.isSome_iff_exists.1 hd
  cases lz <;> rfl

/-- The blits of the loop, while it stays within the iteration count: none when the
capture index `min(mFeedbackTap, mFilterIterations - 1)` is outside the range of indices
the loop runs through, otherwise the blits of the capture at that index. -/
theorem blitsOf_atrousLoop (n : Nat) (i : Int) (s : SVGFPass) (hs : s.Allocated)
    (hr : 0 < n → i + (n : Int) ≤ s.mFilterIterations) :
    blitsOf (SVGFPass.atrousLoop n i s).2 =
      if i ≤ min s.mFeedbackTap (s.mFilterIterations - 1)
          ∧ min s.mFeedbackTap (s.mFilterIterations - 1) < i + n then
        blitsOf ((s.afterSwaps (min s.mFeedbackTap (s.mFilterIterations - 1) - i).toNat).feedbackCapture
          (min s.mFeedbackTap (s.mFilterIterations - 1)))
      else [] := by
  induction n generalizing i s with
  | zero =>
    rw [atrousLoop_zero, if_neg (by push_cast; omega)]
    rfl
  | succ n ih =>
    have hr := hr (Nat.succ_pos n)
    rw [atrousLoop_succ_cmds n i s hs hr]
    obtain ⟨_, _, _, _, et, en, _⟩ := swapPingPong_fields s
    push_cast at hr
    simp only [blitsOf, blitsOf_append,
      ih (i + 1) s.swapPingPong (swapPingPong_allocated s hs) (by rw [en]; omega),
      et, en, afterSwaps_swap]
    by_cases hi : i = min s.mFeedbackTap (s.mFilterIterations - 1)
    · rw [if_neg (by omega), if_pos (by push_cast; omega), ← hi]
      simp [afterSwaps_zero]
    · rw [feedbackCapture_of_ne s i hi]
      by_cases hr2 : i ≤ min s.mFeedbackTap (s.mFilterIterations - 1)
          ∧ min s.mFeedbackTap (s.mFilterIterations - 1) < i + (n + 1 : Nat)
      · rw [if_pos (by push_cast at hr2; omega), if_pos hr2]
        have e : (min s.mFeedbackTap (s.mFilterIterations - 1) - (i + 1)).toNat + 1
            = (min s.mFeedbackTap (s.mFilterIterations - 1) - i).toNat := by
          push_cast at hr2
          omega
        rw [e]
        rfl
      · rw [if_neg (by push_cast at hr2 ⊢; omega), if_neg hr2]
        rfl

/-- The blits of a filter-enabled execution of an allocated pass: those of the wavelet
loop and, unless the loop faulted, those of the fallback capture, the blit of the output
framebuffer to the output texture and the copy of linear depth when the manager has the
depth texture. -/
theorem blitsOf_execute_enabled (s : SVGFPass) (rm : ResourceManager) (pDst : Tex)
    (hrm : s.mpResManager = some rm) (hout : rm.getTexture s.mOutTexName = some pDst)
    (hon : s.mFilterEnabled = true) (hs : s.Allocated) :
    blitsOf s.execute.2 =
      blitsOf (SVGFPass.atrousLoop s.mFilterIterations.toNat 0 (s.frameStart rm)).2 ++
        (if 1 ≤ s.mFilterIterations ∧ s.mFilterIterations - 1 ≤ s.mFeedbackTap then []
         else
          blitsOf (s.frameStart rm).fallbackCapture ++
            ((getColorTexture s.mpOutputFbo 0, some pDst) ::
              ((rm.getTexture "SVGF_LinearZ").map
                (fun v => (some v, s.mInputTex.prevLinearZ.map Tex.owned))).toList)) := by
  obtain ⟨p0, p1, fp, cur, prv, out, e0, e1, e2, e3, e4, e5, l0, l1, l2, l3, l4, l5, _⟩ :=
    allocated_exists s hs
  have hz : (s.mInputTex.prevLinearZ.map Tex.owned).isSome = true := by
    obtain ⟨z, hz⟩ := allocated_prevLinearZ s hs
    rw [hz]
    rfl
  have ho : getColorTexture s.mpOutputFbo 0 = some (Tex.attachment out.id 0) := by
    simp [e5, getColorTexture, l5]
  rw [execute_enabled_cmds s rm pDst hrm hout hon hs]
  simp only [blitsOf_append, blitsOf_clearCmds, blitsOf, List.nil_append]
  congr 1
  split
  · rfl
  · rw [blitsOf_append, blitsOf_append, blitsOf_append, blitsOf_depthCopy _ _ hz, ho,
      blitsOf_blitCall_some]
    congr 1
    split <;> rfl

/-- The blits of a filter-enabled execution of an allocated pass when the feedback tap
is negative or the iteration count is not positive. -/
theorem blitsOf_execute_fallback (s : SVGFPass) (rm : ResourceManager) (pDst : Tex)
    (hrm : s.mpResManager = some rm) (hout : rm.getTexture s.mOutTexName = some pDst)
    (hon : s.mFilterEnabled = true) (hs : s.Allocated)
    (hcfg : s.mFeedbackTap < 0 ∨ s.mFilterIterations ≤ 0) :
    blitsOf s.execute.2 =
        (getColorTexture s.mpCurReprojFbo 0, getColorTexture s.mpFilteredPastFbo 0) ::
        (getColorTexture s.mpCurReprojFbo 1, getColorTexture s.mpFilteredPastFbo 1) ::
        (getColorTexture s.mpOutputFbo 0, some pDst) ::
        ((rm.getTexture "SVGF_LinearZ").map
          (fun v => (some v, s.mInputTex.prevLinearZ.map Tex.owned))).toList := by
  obtain ⟨p0, p1, fp, cur, prv, out, e0, e1, e2, e3, e4, e5, l0, l1, l2, l3, l4, l5, _⟩ :=
    allocated_exists s hs
  obtain ⟨hN, hT, hp0, hp1, hfp, hcur, hprev, hou, hz⟩ := frameStart_config s rm
  have hfs := frameStart_allocated s rm hs
  rw [blitsOf_execute_enabled s rm pDst hrm hout hon hs,
    blitsOf_atrousLoop _ _ _ hfs (by intro h; rw [hN]; omega), hN, hT]
  rw [if_neg (by
    rintro ⟨h1, h2⟩
    rcases hcfg with h | h
    · omega
    · have : s.mFilterIterations.toNat = 0 := by omega
      rw [this] at h2
      push_cast at h2
      omega)]
  rw [if_neg (by omega)]
  obtain ⟨c, f, hc, hf, hfb⟩ := fallbackCapture_allocated (s.frameStart rm) hfs
  rw [hfb, hN, hT, if_pos hcfg]
  rw [hcur, e3] at hc
  rw [hfp, e2] at hf
  obtain rfl := Option.some.inj hc
  obtain rfl := Option.some.inj hf
  simp [blitsOf, e3, e2, getColorTexture, l3, l2]

/-- The blits of a filter-enabled execution of an allocated pass when the feedback tap
`t` names an iteration before the last one. -/
theorem blitsOf_execute_tap (s : SVGFPass) (rm : ResourceManager) (pDst : Tex)
    (hrm : s.mpResManager = some rm) (hout : rm.getTexture s.mOutTexName = some pDst)
    (hon : s.mFilterEnabled = true) (hs : s.Allocated) (t : Nat)
    (ht : s.mFeedbackTap = (t : Int)) (hlt : (t : Int) + 1 < s.mFilterIterations) :
    blitsOf s.execute.2 =
        (getColorTexture (s.afterSwaps t).mpPingPongFbo1 0,
          getColorTexture s.mpFilteredPastFbo 0) ::
        (getColorTexture (s.afterSwaps t).mpPingPongFbo1 1,
          getColorTexture s.mpFilteredPastFbo 1) ::
        (getColorTexture s.mpOutputFbo 0, some pDst) ::
        ((rm.getTexture "SVGF_LinearZ").map
          (fun v => (some v, s.mInputTex.prevLinearZ.map Tex.owned))).toList := by
  obtain ⟨p0, p1, fp, cur, prv, out, e0, e1, e2, e3, e4, e5, l0, l1, l2, l3, l4, l5, _⟩ :=
    allocated_exists s hs
  obtain ⟨hN, hT, hp0, hp1, hfp, hcur, hprev, hou, hz⟩ := frameStart_config s rm
  obtain ⟨aN, aT, afp, acur, aprev, aout, ain⟩ := afterSwaps_config (s.frameStart rm) t
  obtain ⟨_, hpp1⟩ := afterSwaps_frameStart_pingPong s rm t
  have hfs := frameStart_allocated s rm hs
  have hmin : min s.mFeedbackTap (s.mFilterIterations - 1) = (t : Int) := by
    rw [ht]
    omega
  rw [blitsOf_execute_enabled s rm pDst hrm hout hon hs,
    blitsOf_atrousLoop _ _ _ hfs (by intro h; rw [hN]; omega), hN, hT, hmin]
  rw [if_pos (by omega), if_neg (by omega)]
  have hfb : (s.frameStart rm).fallbackCapture = [] := by
    simp only [SVGFPass.fallbackCapture, hN, hT, ht]
    rw [if_neg (by omega)]
  obtain ⟨x, f, hx, hf, hcap⟩ := feedbackCapture_pingPong ((s.frameStart rm).afterSwaps t)
    (afterSwaps_allocated _ t hfs) (t : Int) (by rw [aN, aT, hN, hT, hmin])
    (by rw [aN, hN]; omega)
  have lx : x.desc.colorTargets.length = 2 := by
    rw [hpp1] at hx
    rcases afterSwaps_pingPong s t with ⟨_, h⟩ | ⟨_, h⟩
    · rw [h, e1] at hx
      rw [← Option.some.inj hx]
      exact l1
    · rw [h, e0] at hx
      rw [← Option.some.inj hx]
      exact l0
  rw [hpp1] at hx
  rw [afp, hfp, e2] at hf
  obtain rfl := Option.some.inj hf
  simp only [sub_zero, Int.toNat_ofNat, hfb, blitsOf, List.nil_append, hcap, hx, e2,
    List.cons_append, getColorTexture, lx, l2]
  simp

/-- The blits of a filter-enabled execution of an allocated pass when the feedback tap
is at or beyond the last iteration index: the single blit of the colour target of the
output framebuffer into the first target of the filtered-past framebuffer, issued
before the frame faults. -/
theorem blitsOf_execute_clamped (s : SVGFPass) (rm : ResourceManager) (pDst : Tex)
    (hrm : s.mpResManager = some rm) (hout : rm.getTexture s.mOutTexName = some pDst)
    (hon : s.mFilterEnabled = true) (hs : s.Allocated)
    (hN1 : 1 ≤ s.mFilterIterations) (htap : s.mFilterIterations - 1 ≤ s.mFeedbackTap) :
    blitsOf s.execute.2 =
      [ (getColorTexture s.mpOutputFbo 0, getColorTexture s.mpFilteredPastFbo 0) ] := by
  obtain ⟨p0, p1, fp, cur, prv, out, e0, e1, e2, e3, e4, e5, l0, l1, l2, l3, l4, l5, _⟩ :=
    allocated_exists s hs
  obtain ⟨hN, hT, hp0, hp1, hfp, hcur, hprev, hou, hz⟩ := frameStart_config s rm
  obtain ⟨aN, aT, afp, acur, aprev, aout, ain⟩ :=
    afterSwaps_config (s.frameStart rm) (s.mFilterIterations - 1).toNat
  have hfs := frameStart_allocated s rm hs
  have hmin : min s.mFeedbackTap (s.mFilterIterations - 1) = s.mFilterIterations - 1 := by
    omega
  rw [blitsOf_execute_enabled s rm pDst hrm hout hon hs,
    blitsOf_atrousLoop _ _ _ hfs (by intro h; rw [hN]; omega), hN, hT, hmin]
  rw [if_pos (by omega), if_pos ⟨hN1, htap⟩]
  obtain ⟨o, f, ho, hf, hcap⟩ := feedbackCapture_output
    ((s.frameStart rm).afterSwaps (s.mFilterIterations - 1).toNat)
    (afterSwaps_allocated _ _ hfs) (s.mFilterIterations - 1) (by rw [aN, aT, hN, hT, hmin])
    (by rw [aN, hN])
  rw [aout, hou, e5] at ho
  rw [afp, hfp, e2] at hf
  obtain rfl := Option.some.inj ho
  obtain rfl := Option.some.inj hf
  simp only [sub_zero, hcap, blitsOf, List.append_nil, e5, e2, getColorTexture, l5, l2]
  simp

theorem mem_depthCopy (lz d : Option Tex) (b : Option Tex × Option Tex)
    (hb : b ∈ (lz.map (fun v => (some v, d))).toList) : ∃ v, lz = some v ∧ b = (some v, d) := by
  cases lz with
  | none => simp at hb
  | some v =>
    simp at hb
    exact ⟨v, rfl, hb⟩

/-- The wavelet draws among the commands up to the loop's first `t` iterations are the
`t` draws of those iterations. -/
theorem atrousDrawsOf_prefix (s : SVGFPass) (rm : ResourceManager) (hs : s.Allocated) (t : Nat)
    (ht : (t : Int) ≤ s.mFilterIterations) :
    (atrousDrawsOf (s.clearCmds ++
        (Cmd.draw (s.frameStart rm).reprojectionDraw ::
          Cmd.draw (s.frameStart rm).varianceDraw ::
            (SVGFPass.atrousLoop t 0 (s.frameStart rm)).2))).length = t := by
  obtain ⟨hN, _⟩ := frameStart_config s rm
  unfold atrousDrawsOf
  simp only [drawsOf_append, drawsOf_clearCmds, List.nil_append, drawsOf,
    drawsOf_atrousLoop t 0 _ (frameStart_allocated s rm hs) (by intro _; rw [hN]; omega)]
  simp only [List.filter_cons, SVGFPass.reprojectionDraw, SVGFPass.varianceDraw]
  simp only [reduceCtorEq, decide_False, Bool.false_eq_true, if_false]
  rw [List.filter_eq_self.2]
  · simp
  · intro d hd
    simp only [List.mem_map] at hd
    obtain ⟨j, _, rfl⟩ := hd
    simp [SVGFPass.atrousDraw]

/-- Pre-modulation capture.  In a filter-enabled frame with the framebuffers allocated
and a feedback tap below the last iteration index (`tap + 1 < N`, negative taps
included), no blit into the filtered-past framebuffer reads from the output
framebuffer, and after the frame colour target `k` (0 or 1) of the filtered-past
framebuffer holds either an output of the reprojection shader or an output of the
wavelet shader run with `gPerformModulation` off. -/
theorem capture_premodulation (s : SVGFPass) (rm : ResourceManager) (pDst : Tex)
    (hrm : s.mpResManager = some rm) (hout : rm.getTexture s.mOutTexName = some pDst)
    (hon : s.mFilterEnabled = true) (hs : s.Allocated)
    (htap : s.mFeedbackTap + 1 < s.mFilterIterations) :
    (∀ b ∈ blitsOf s.execute.2,
        (∃ u, b.2 = some u ∧ isTarget s.mpFilteredPastFbo u = true) →
        ∃ v, b.1 = some v ∧ isTarget s.mpOutputFbo v = false)
      ∧ ∀ (σ : Store) (k : Nat), k < 2 →
          ∃ g, s.mpFilteredPastFbo = some g
            ∧ ∃ sh ins cs, runCmds s.execute.2 σ (Tex.attachment g.id k)
                  = Val.shaded sh ins cs k
                ∧ (sh = Shader.reproject
                    ∨ (sh = Shader.atrous
                        ∧ cs.lookup "gPerformModulation" = some (Const.bool false))) := by
  obtain ⟨p0, p1, fp, cur, prv, out, e0, e1, e2, e3, e4, e5, l0, l1, l2, l3, l4, l5,
    n01, n0f, n0c, n0p, n0o, n1f, n1c, n1p, n1o, nfc, nfp, nfo, ncp, nco, npo⟩ :=
    allocated_exists s hs
  have hdm := getTexture_managed rm _ _ hout
  by_cases hneg : s.mFeedbackTap < 0
  · refine ⟨?_, ?_⟩
    · intro b hb hdst
      rw [blitsOf_execute_fallback s rm pDst hrm hout hon hs (Or.inl hneg)] at hb
      simp only [List.mem_cons] at hb
      obtain ⟨u, hu1, hu2⟩ := hdst
      rcases hb with rfl | rfl | rfl | hb
      · exact ⟨Tex.attachment cur.id 0,
          by simp [e3, getColorTexture, l3], by simp [e5, isTarget_attachment, nco]⟩
      · exact ⟨Tex.attachment cur.id 1,
          by simp [e3, getColorTexture, l3], by simp [e5, isTarget_attachment, nco]⟩
      · simp only [Option.some.injEq] at hu1
        rw [← hu1, hdm, isTarget_managed] at hu2
        simp at hu2
      · obtain ⟨v, _, rfl⟩ := mem_depthCopy _ _ b hb
        cases hz : s.mInputTex.prevLinearZ with
        | none => simp [hz] at hu1
        | some z =>
          simp only [hz, Option.map_some', Option.some.injEq] at hu1
          rw [← hu1, isTarget_owned] at hu2
          simp at hu2
    · intro σ k hk
      obtain ⟨g, hg, hval⟩ :=
        filteredPast_after_fallback s rm pDst hrm hout hon hs (Or.inl hneg) σ k hk
      exact ⟨g, hg, _, _, _, hval, Or.inl rfl⟩
  · obtain ⟨t, ht⟩ : ∃ t : Nat, s.mFeedbackTap = (t : Int) :=
      ⟨s.mFeedbackTap.toNat, by omega⟩
    have hlt : (t : Int) + 1 < s.mFilterIterations := by omega
    obtain ⟨x, hx, lx, nx⟩ : ∃ x : Fbo, (s.afterSwaps t).mpPingPongFbo1 = some x
        ∧ x.desc.colorTargets.length = 2 ∧ x.id ≠ out.id := by
      rcases afterSwaps_pingPong s t with ⟨_, h⟩ | ⟨_, h⟩
      · exact ⟨p1, by rw [h, e1], l1, n1o⟩
      · exact ⟨p0, by rw [h, e0], l0, n0o⟩
    refine ⟨?_, ?_⟩
    · intro b hb hdst
      rw [blitsOf_execute_tap s rm pDst hrm hout hon hs t ht hlt] at hb
      simp only [List.mem_cons] at hb
      obtain ⟨u, hu1, hu2⟩ := hdst
      rcases hb with rfl | rfl | rfl | hb
      · exact ⟨Tex.attachment x.id 0,
          by simp [hx, getColorTexture, lx], by simp [e5, isTarget_attachment, nx]⟩
      · exact ⟨Tex.attachment x.id 1,
          by simp [hx, getColorTexture, lx], by simp [e5, isTarget_attachment, nx]⟩
      · simp only [Option.some.injEq] at hu1
        rw [← hu1, hdm, isTarget_managed] at hu2
        simp at hu2
      · obtain ⟨v, _, rfl⟩ := mem_depthCopy _ _ b hb
        cases hz : s.mInputTex.prevLinearZ with
        | none => simp [hz] at hu1
        | some z =>
          simp only [hz, Option.map_some', Option.some.injEq] at hu1
          rw [← hu1, isTarget_owned] at hu2
          simp at hu2
    · intro σ k hk
      obtain ⟨g, hg, hval⟩ :=
        filteredPast_after_tap s rm pDst hrm hout hon hs t ht hlt σ k hk
      refine ⟨g, hg, _, _, _, hval, Or.inr ⟨rfl, ?_⟩⟩
      obtain ⟨hN2, _⟩ := frameStart_config s rm
      have hne : ¬ ((t : Int) = s.mFilterIterations - 1) := by omega
      simp [SVGFPass.atrousDraw, List.lookup, (afterSwaps_config (s.frameStart rm) t).1,
        hN2, hne]

/-! ## The allocation invariant -/

theorem execute_skipped_state (s : SVGFPass)
    (h : s.mpResManager = none
      ∨ ∃ rm, s.mpResManager = some rm ∧ rm.getTexture s.mOutTexName = none) :
    s.execute = (s, []) := by
  unfold SVGFPass.execute
  rcases h with h | ⟨rm, h1, h2⟩
  · simp [h]
  · simp [h1, h2]

/-- Execution keeps the buffers allocated: it only exchanges the two ping-pong pointers
and the two reprojection pointers, whether or not the frame faults. -/
theorem execute_allocated (s : SVGFPass) (hs : s.Allocated) : s.execute.1.Allocated := by
  cases hrm : s.mpResManager with
  | none => rw [execute_skipped_state s (Or.inl hrm)]; exact hs
  | some rm =>
    cases hout : rm.getTexture s.mOutTexName with
    | none => rw [execute_skipped_state s (Or.inr ⟨rm, hrm, hout⟩)]; exact hs
    | some pDst =>
      have hfs := frameStart_allocated s rm hs
      cases hon : s.mFilterEnabled with
      | true =>
        obtain ⟨k, h | h⟩ := execute_enabled_state_cases s rm pDst hrm hout hon hs
        · rw [h]
          exact afterSwaps_allocated _ k hfs
        · rw [h]
          exact swapReproj_allocated _ (afterSwaps_allocated _ k hfs)
      | false =>
        rw [execute_eq s rm pDst hrm hout (faulted_clearCmds_of_allocated s hs)]
        simp only [hon, Bool.false_eq_true, if_false]
        exact hfs

/-! ## Every read follows a write -/

theorem freshReads_mono (w w2 : Tex → Bool) (cs : List Cmd)
    (h : ∀ u, w u = true → w2 u = true) (hf : freshReads w cs = true) :
    freshReads w2 cs = true := by
  induction cs generalizing w w2 with
  | nil => rfl
  | cons c cs ih =>
    simp only [freshReads, Bool.and_eq_true, List.all_eq_true, Bool.or_eq_true] at hf ⊢
    refine ⟨fun u hu => (hf.1 u hu).imp id (h u), ?_⟩
    apply ih _ _ _ hf.2
    intro u hu
    simp only [Bool.or_eq_true] at hu ⊢
    exact hu.imp (h u) id

/-- Two command lists in sequence: the second may rely on what the first has written. -/
theorem freshReads_append (w w2 : Tex → Bool) (a b : List Cmd)
    (ha : freshReads w a = true) (hb : freshReads w2 b = true)
    (h : ∀ u, w2 u = true → w u = true ∨ ∃ c ∈ a, c.writes u = true) :
    freshReads w (a ++ b) = true := by
  induction a generalizing w with
  | nil =>
    apply freshReads_mono w2 w b _ hb
    intro u hu
    rcases h u hu with h1 | ⟨c, hc, _⟩
    · exact h1
    · simp at hc
  | cons c cs ih =>
    simp only [freshReads, Bool.and_eq_true, List.cons_append] at ha ⊢
    refine ⟨ha.1, ih _ ha.2 ?_⟩
    intro u hu
    rcases h u hu with h1 | ⟨c2, hc2, hw2⟩
    · exact Or.inl (by simp [h1])
    · simp only [List.mem_cons] at hc2
      rcases hc2 with rfl | hc2
      · exact Or.inl (by simp [hw2])
      · exact Or.inr ⟨c2, hc2, hw2⟩

theorem freshReads_of_reads (w : Tex → Bool) (cs : List Cmd)
    (h : ∀ c ∈ cs, ∀ u ∈ c.reads, u.isManaged = true ∨ w u = true) :
    freshReads w cs = true := by
  induction cs generalizing w with
  | nil => rfl
  | cons c cs ih =>
    simp only [freshReads, Bool.and_eq_true, List.all_eq_true, Bool.or_eq_true]
    refine ⟨h c (List.mem_cons_self _ _), ih _ ?_⟩
    intro c2 hc2 u hu
    rcases h c2 (List.mem_cons_of_mem _ hc2) u hu with h1 | h1
    · exact Or.inl h1
    · exact Or.inr (by simp [h1])

/-- The reads of a capture are colour targets of the render target of its iteration. -/
theorem feedbackCapture_reads (s : SVGFPass) (i : Int) :
    ∀ c ∈ s.feedbackCapture i, ∀ u ∈ c.reads, isTarget (s.curTargetFbo i) u = true := by
  intro c hc u hu
  obtain ⟨_, h | ⟨k, x, y, hx, _, rfl⟩⟩ := mem_feedbackCapture s i c hc
  · subst h
    simp [Cmd.reads] at hu
  · simp only [Cmd.reads, List.mem_singleton] at hu
    subst hu
    exact getColorTexture_isTarget _ _ _ hx

/-- The reads of the fallback capture are colour targets of the current-reprojection
framebuffer. -/
theorem fallbackCapture_reads (s : SVGFPass) :
    ∀ c ∈ s.fallbackCapture, ∀ u ∈ c.reads, isTarget s.mpCurReprojFbo u = true := by
  intro c hc u hu
  obtain ⟨_, h | ⟨k, x, y, hx, _, rfl⟩⟩ := mem_fallbackCapture s c hc
  · subst h
    simp [Cmd.reads] at hu
  · simp only [Cmd.reads, List.mem_singleton] at hu
    subst hu
    exact getColorTexture_isTarget _ _ _ hx

/-- The reads of a blit call are its source. -/
theorem blitCall_reads (a b : Option Tex) :
    ∀ c ∈ blitCall a b, ∀ u ∈ c.reads, a = some u := by
  intro c hc u hu
  rcases mem_blitCall a b c hc with h | ⟨x, y, hx, _, rfl⟩
  · subst h
    simp [Cmd.reads] at hu
  · simp only [Cmd.reads, List.mem_singleton] at hu
    rw [hu, hx]

/-- The reads of the wavelet loop are covered once the ping-pong and current
reprojection framebuffers have been written: each iteration reads the first ping-pong
framebuffer and the history length, and a capture reads the target just drawn. -/
theorem freshReads_atrousLoop (n : Nat) (i : Int) (s : SVGFPass) (w : Tex → Bool)
    (hs : s.Allocated) (hr : 0 < n → i + (n : Int) ≤ s.mFilterIterations)
    (hmisc : ∀ u, s.mInputTex.miscBuf = some u → u.isManaged = true)
    (hda : ∀ u, s.mInputTex.dirAlbedo = some u → u.isManaged = true)
    (hia : ∀ u, s.mInputTex.indirAlbedo = some u → u.isManaged = true)
    (hp0 : ∀ u, isTarget s.mpPingPongFbo0 u = true → w u = true)
    (hp1 : ∀ u, isTarget s.mpPingPongFbo1 u = true → w u = true)
    (hcur : ∀ u, isTarget s.mpCurReprojFbo u = true → w u = true) :
    freshReads w (SVGFPass.atrousLoop n i s).2 = true := by
  induction n generalizing i s w with
  | zero => rfl
  | succ n ih =>
    have hr := hr (Nat.succ_pos n)
    rw [atrousLoop_succ_cmds n i s hs hr]
    push_cast at hr
    simp only [freshReads, Bool.and_eq_true, List.all_eq_true, Bool.or_eq_true]
    refine ⟨?_, ?_⟩
    · intro u hu
      simp only [Cmd.reads, SVGFPass.atrousDraw, List.mem_filterMap, List.mem_cons,
        List.mem_singleton, List.not_mem_nil, or_false] at hu
      obtain ⟨p, hp, hpu⟩ := hu
      rcases hp with rfl | rfl | rfl | rfl | rfl | rfl
      · exact Or.inr (hcur u (getColorTexture_isTarget _ _ _ hpu))
      · exact Or.inl (hmisc u hpu)
      · exact Or.inr (hp0 u (getColorTexture_isTarget _ _ _ hpu))
      · exact Or.inr (hp0 u (getColorTexture_isTarget _ _ _ hpu))
      · exact Or.inl (hda u hpu)
      · exact Or.inl (hia u hpu)
    · apply freshReads_append _ (fun u => w u || (Cmd.draw (s.atrousDraw i)).writes u)
      · apply freshReads_of_reads
        intro c hc u hu
        have := feedbackCapture_reads s i c hc u hu
        simp only [isTarget] at this
        exact Or.inr (by simp [Cmd.writes, SVGFPass.atrousDraw, this])
      · apply ih (i + 1) s.swapPingPong _ (swapPingPong_allocated s hs)
          (by
            intro _
            have : s.swapPingPong.mFilterIterations = s.mFilterIterations := rfl
            rw [this]
            omega) hmisc hda hia
        · intro u hu
          simp [hp1 u hu]
        · intro u hu
          simp [hp0 u hu]
        · intro u hu
          simp [hcur u hu]
      · intro u hu
        exact Or.inl hu

/-- A loop that runs through the last index draws into the output framebuffer. -/
theorem atrousLoop_writes_output (n : Nat) (i : Int) (s : SVGFPass) (hs : s.Allocated)
    (hn : 0 < n) (hin : i + n = s.mFilterIterations) (u : Tex)
    (hu : isTarget s.mpOutputFbo u = true) :
    ∃ c ∈ (SVGFPass.atrousLoop n i s).2, c.writes u = true := by
  induction n generalizing i s with
  | zero => omega
  | succ n ih =>
    rw [atrousLoop_succ_cmds n i s hs (by omega)]
    by_cases h0 : n = 0
    · subst h0
      refine ⟨Cmd.draw (s.atrousDraw i), List.mem_cons_self _ _, ?_⟩
      have hi : i = s.mFilterIterations - 1 := by push_cast at hin; omega
      simp only [Cmd.writes, SVGFPass.atrousDraw, SVGFPass.curTargetFbo, hi, if_true]
      exact hu
    · obtain ⟨c, hc, hw⟩ := ih (i + 1) s.swapPingPong (swapPingPong_allocated s hs)
        (by omega)
        (by
          have : s.swapPingPong.mFilterIterations = s.mFilterIterations := rfl
          rw [this]
          push_cast at hin
          omega) hu
      exact ⟨c, List.mem_cons_of_mem _ (List.mem_append_right _ hc), hw⟩

theorem freshReads_clearFbos (s : SVGFPass) (w : Tex → Bool) :
    freshReads w s.clearFbos.2 = true := by
  apply freshReads_of_reads
  intro c hc u hu
  cases hz : s.mInputTex.prevLinearZ with
  | none =>
    rw [clearFbos_of_none s hz] at hc
    simp only [List.mem_cons, List.mem_singleton, List.not_mem_nil, or_false] at hc
    rcases hc with rfl | rfl | rfl | rfl | rfl | rfl <;> simp [Cmd.reads] at hu
  | some z =>
    rw [clearFbos_of_some s z hz] at hc
    simp only [List.mem_cons, List.mem_singleton, List.not_mem_nil, or_false] at hc
    rcases hc with rfl | rfl | rfl | rfl | rfl | rfl <;> simp [Cmd.reads] at hu

/-- When a clear is pending on an allocated pass, every texture a command of the
execution reads is a resource-manager texture or has been written by an earlier command
of that execution. -/
theorem freshReads_execute (s : SVGFPass) (rm : ResourceManager) (pDst : Tex)
    (hrm : s.mpResManager = some rm) (hout : rm.getTexture s.mOutTexName = some pDst)
    (hs : s.Allocated) (hclear : s.mNeedFboClear = true) :
    freshReads (fun _ => false) s.execute.2 = true := by
  obtain ⟨hN, hT, hp0, hp1, hfp, hcur, hprev, hou, hz⟩ := frameStart_config s rm
  obtain ⟨iD, iI, iZ, iM, iB, iA, iIA⟩ := frameStart_inputs s rm
  obtain ⟨z, hzz⟩ := allocated_prevLinearZ s hs
  have hfs := frameStart_allocated s rm hs
  have hcc : s.clearCmds = s.clearFbos.2 := by simp [SVGFPass.clearCmds, hclear]
  -- what the clears have written
  have hW : ∀ u, (isTarget s.mpPrevReprojFbo u || isTarget s.mpCurReprojFbo u
      || isTarget s.mpFilteredPastFbo u || isTarget s.mpPingPongFbo0 u
      || isTarget s.mpPingPongFbo1 u
      || decide (s.mInputTex.prevLinearZ.map Tex.owned = some u)) = true →
      (fun _ : Tex => false) u = true ∨ ∃ c ∈ s.clearFbos.2, c.writes u = true := by
    intro u hu
    refine Or.inr ?_
    simp only [Bool.or_eq_true, decide_eq_true_eq] at hu
    rw [clearFbos_of_some s z hzz]
    simp only [List.mem_cons, List.mem_singleton, List.not_mem_nil,
      or_false, exists_eq_or_imp, exists_eq_left, Cmd.writes, decide_eq_true_eq]
    rw [hzz] at hu
    simp only [Option.map_some', Option.some.injEq] at hu
    tauto
  cases hon : s.mFilterEnabled with
  | false =>
    rw [execute_eq s rm pDst hrm hout (faulted_clearCmds_of_allocated s hs)]
    simp only [hon, Bool.false_eq_true, if_false, hcc]
    apply freshReads_append _ _ _ _ (freshReads_clearFbos s _) _ hW
    simp only [freshReads, Bool.and_eq_true, List.all_eq_true, Bool.or_eq_true, and_true]
    intro u hu
    simp only [Cmd.reads, SVGFPass.combineDraw, iD, iI, iA, iIA, List.mem_filterMap,
      List.mem_cons, List.mem_singleton, List.not_mem_nil, or_false] at hu
    obtain ⟨p, hp, hpu⟩ := hu
    rcases hp with rfl | rfl | rfl | rfl <;> exact Or.inl (getTexture_isManaged _ _ _ hpu)
  | true =>
    rw [execute_enabled_cmds s rm pDst hrm hout hon hs, hcc]
    apply freshReads_append _ _ _ _ (freshReads_clearFbos s _) _ hW
    simp only [freshReads, Bool.and_eq_true, List.all_eq_true, Bool.or_eq_true]
    refine ⟨?_, ?_, ?_⟩
    · -- the reprojection draw
      intro u hu
      simp only [Cmd.reads, SVGFPass.reprojectionDraw, iD, iI, iZ, iM, hprev, hfp, hz,
        List.mem_filterMap, List.mem_cons, List.mem_singleton, List.not_mem_nil,
        or_false] at hu
      obtain ⟨p, hp, hpu⟩ := hu
      rcases hp with rfl | rfl | rfl | rfl | rfl | rfl | rfl | rfl | rfl
      · exact Or.inl (getTexture_isManaged _ _ _ hpu)
      · simp only at hpu
        simp [hpu]
      · exact Or.inl (getTexture_isManaged _ _ _ hpu)
      · simp [getColorTexture_isTarget _ _ _ hpu]
      · simp [getColorTexture_isTarget _ _ _ hpu]
      · simp [getColorTexture_isTarget _ _ _ hpu]
      · simp [getColorTexture_isTarget _ _ _ hpu]
      · exact Or.inl (getTexture_isManaged _ _ _ hpu)
      · exact Or.inl (getTexture_isManaged _ _ _ hpu)
    · -- the moment-filter draw
      intro u hu
      simp only [Cmd.reads, SVGFPass.varianceDraw, iB, hcur,
        List.mem_filterMap, List.mem_cons, List.mem_singleton, List.not_mem_nil,
        or_false] at hu
      obtain ⟨p, hp, hpu⟩ := hu
      rcases hp with rfl | rfl | rfl | rfl | rfl
      · simp [getColorTexture_isTarget _ _ _ hpu]
      · simp [getColorTexture_isTarget _ _ _ hpu]
      · simp [getColorTexture_isTarget _ _ _ hpu]
      · simp [getColorTexture_isTarget _ _ _ hpu]
      · exact Or.inl (getTexture_isManaged _ _ _ hpu)
    · -- the loop, then the rest of the frame
      apply freshReads_append _
        (fun u => isTarget s.mpCurReprojFbo u
          || (decide (0 < s.mFilterIterations) && isTarget s.mpOutputFbo u))
      · apply freshReads_atrousLoop _ _ _ _ hfs (by intro _; rw [hN]; omega)
        · intro u hu
          rw [iB] at hu
          exact getTexture_isManaged _ _ _ hu
        · intro u hu
          rw [iA] at hu
          exact getTexture_isManaged _ _ _ hu
        · intro u hu
          rw [iIA] at hu
          exact getTexture_isManaged _ _ _ hu
        · intro u hu
          rw [hp0] at hu
          simp [hu]
        · intro u hu
          rw [hp1] at hu
          simp [hu]
        · intro u hu
          rw [hcur] at hu
          simp [hu]
      · -- fallback capture, standalone modulation, final blits
        split
        · rfl
        apply freshReads_append _ _ _ _ _ _ (fun u hu => Or.inl hu)
        · apply freshReads_of_reads
          intro c hc u hu
          have := fallbackCapture_reads _ c hc u hu
          rw [hcur] at this
          exact Or.inr (by simp [this])
        · have hb2 : ∀ c ∈ blitCall (rm.getTexture "SVGF_LinearZ")
              (s.mInputTex.prevLinearZ.map Tex.owned), ∀ u ∈ c.reads, u.isManaged = true :=
            fun c hc u hu => getTexture_isManaged _ _ _ (blitCall_reads _ _ c hc u hu)
          have hb1 : ∀ c ∈ blitCall (getColorTexture s.mpOutputFbo 0) (some pDst),
              ∀ u ∈ c.reads, isTarget s.mpOutputFbo u = true :=
            fun c hc u hu => getColorTexture_isTarget _ _ _ (blitCall_reads _ _ c hc u hu)
          by_cases hle : s.mFilterIterations ≤ 0
          · rw [if_pos hle, List.singleton_append, freshReads, Bool.and_eq_true]
            refine ⟨?_, ?_⟩
            · rw [List.all_eq_true]
              intro u hu
              rw [Bool.or_eq_true]
              simp only [Cmd.reads, SVGFPass.modulationDraw, iA, iIA, hcur,
                List.mem_filterMap, List.mem_cons, List.mem_singleton, List.not_mem_nil,
                or_false] at hu
              obtain ⟨p, hp, hpu⟩ := hu
              rcases hp with rfl | rfl | rfl | rfl
              · simp [getColorTexture_isTarget _ _ _ hpu]
              · simp [getColorTexture_isTarget _ _ _ hpu]
              · exact Or.inl (getTexture_isManaged _ _ _ hpu)
              · exact Or.inl (getTexture_isManaged _ _ _ hpu)
            · apply freshReads_of_reads
              intro c hc u hu
              rcases List.mem_append.1 hc with hc | hc
              · have := hb1 c hc u hu
                simp only [isTarget] at this
                exact Or.inr (by simp [Cmd.writes, SVGFPass.modulationDraw, hou, this])
              · exact Or.inl (hb2 c hc u hu)
          · rw [if_neg hle]
            apply freshReads_of_reads
            intro c hc u hu
            simp only [List.nil_append, List.mem_append] at hc
            rcases hc with hc | hc
            · have hpos : 0 < s.mFilterIterations := by omega
              exact Or.inr (by simp [hb1 c hc u hu, hpos])
            · exact Or.inl (hb2 c hc u hu)
      · intro u hu
        simp only [Bool.or_eq_true, Bool.and_eq_true, decide_eq_true_eq] at hu
        rcases hu with hu | ⟨hpos, hu⟩
        · exact Or.inl (by simp [hu])
        · refine Or.inr (atrousLoop_writes_output _ 0 _ hfs (by omega) (by rw [hN]; omega) u ?_)
          rw [hou]
          exact hu

/-! ## Which commands write the output framebuffer -/

/-- The wavelet draw of iteration `i` has `gPerformModulation` set exactly at the last
index. -/
theorem atrousDraw_performModulation (s : SVGFPass) (i : Int) :
    (s.atrousDraw i).performModulation
      = some (Const.bool (decide (i = s.mFilterIterations - 1))) := by
  simp [Draw.performModulation, SVGFPass.atrousDraw, List.lookup]

theorem range_filter_last (n : Nat) (hn : 0 < n) :
    (List.range n).filter (fun j => decide (j = n - 1)) = [n - 1] := by
  obtain ⟨m, rfl⟩ : ∃ m, n = m + 1 := ⟨n - 1, by omega⟩
  rw [List.range_succ, List.filter_append]
  have h1 : (List.range m).filter (fun j => decide (j = m + 1 - 1)) = [] := by
    rw [List.filter_eq_nil_iff]
    intro j hj
    have := List.mem_range.1 hj
    simp only [decide_eq_true_eq]
    omega
  rw [h1]
  simp

/-- Among the wavelet draws of a frame with at least one iteration, the only one with
`gPerformModulation` set is the last. -/
theorem atrousDraws_filter_modulating (s : SVGFPass) (hN : 1 ≤ s.mFilterIterations) :
    ((List.range s.mFilterIterations.toNat).map
        (fun j => (s.afterSwaps j).atrousDraw (0 + j))).filter
        (fun d => decide (d.performModulation = some (Const.bool true)))
      = [(s.afterSwaps (s.mFilterIterations.toNat - 1)).atrousDraw
          (0 + ((s.mFilterIterations.toNat - 1 : Nat) : Int))] := by
  rw [List.filter_map]
  have hfun : ((fun d : Draw => decide (d.performModulation = some (Const.bool true))) ∘
      fun j : Nat => (s.afterSwaps j).atrousDraw (0 + (j : Int)))
      = fun j : Nat => decide (j = s.mFilterIterations.toNat - 1) := by
    funext j
    simp only [Function.comp, atrousDraw_performModulation, (afterSwaps_config s j).1,
      Option.some.injEq, Const.bool.injEq, decide_eq_true_eq, zero_add]
    apply decide_eq_decide.2
    omega
  rw [hfun, range_filter_last _ (by omega)]
  rfl

/-- The commands of the loop that write a colour target of the output framebuffer: the
draw of the last iteration, when the loop runs through it. -/
theorem atrousLoop_filter_output (n : Nat) (i : Int) (s : SVGFPass) (u : Tex)
    (hs : s.Allocated) (hr : 0 < n → i + (n : Int) ≤ s.mFilterIterations)
    (hu : isTarget s.mpOutputFbo u = true)
    (h0 : isTarget s.mpPingPongFbo0 u = false) (h1 : isTarget s.mpPingPongFbo1 u = false)
    (hf : isTarget s.mpFilteredPastFbo u = false) :
    (SVGFPass.atrousLoop n i s).2.filter (fun c => c.writes u) =
      if i ≤ s.mFilterIterations - 1 ∧ s.mFilterIterations - 1 < i + n then
        [Cmd.draw ((s.afterSwaps (s.mFilterIterations - 1 - i).toNat).atrousDraw
          (s.mFilterIterations - 1))]
      else [] := by
  induction n generalizing i s with
  | zero =>
    rw [atrousLoop_zero, if_neg (by push_cast; omega)]
    rfl
  | succ n ih =>
    have hr := hr (Nat.succ_pos n)
    rw [atrousLoop_succ_cmds n i s hs hr]
    push_cast at hr
    obtain ⟨e0, e1, eo, ef, _, en, _⟩ := swapPingPong_fields s
    have hcap : (s.feedbackCapture i).filter (fun c => c.writes u) = [] := by
      rw [List.filter_eq_nil_iff]
      intro c hc hw
      have := (feedbackCapture_writes s i u c hc hw).1
      simp [hf] at this
    have ih2 := ih (i + 1) s.swapPingPong (swapPingPong_allocated s hs)
      (by intro _; rw [en]; omega) (by rw [eo]; exact hu) (by rw [e0]; exact h1)
      (by rw [e1]; exact h0) (by rw [ef]; exact hf)
    rw [en, afterSwaps_swap] at ih2
    simp only [List.filter_cons, List.filter_append, hcap, List.nil_append, ih2]
    by_cases hi : i = s.mFilterIterations - 1
    · have hw : (Cmd.draw (s.atrousDraw i)).writes u = true := by
        simp only [Cmd.writes, SVGFPass.atrousDraw, SVGFPass.curTargetFbo, hi, if_true]
        exact hu
      rw [hw, if_pos rfl, if_neg (by omega), if_pos (by push_cast; omega), ← hi]
      simp [afterSwaps_zero]
    · have hw : (Cmd.draw (s.atrousDraw i)).writes u = false := by
        simp only [Cmd.writes, SVGFPass.atrousDraw, SVGFPass.curTargetFbo, hi, if_false]
        exact h1
      rw [hw]
      simp only [Bool.false_eq_true, if_false]
      by_cases hr2 : i ≤ s.mFilterIterations - 1
          ∧ s.mFilterIterations - 1 < i + (n + 1 : Nat)
      · rw [if_pos (by push_cast at hr2; omega), if_pos hr2]
        have e : (s.mFilterIterations - 1 - (i + 1)).toNat + 1
            = (s.mFilterIterations - 1 - i).toNat := by
          push_cast at hr2
          omega
        rw [e]
      · rw [if_neg (by push_cast at hr2 ⊢; omega), if_neg hr2]

/-- A blit call whose destination is not `u` has no command that writes `u`. -/
theorem blitCall_filter_writes (a b : Option Tex) (u : Tex) (hb : b ≠ some u) :
    (blitCall a b).filter (fun c => c.writes u) = [] := by
  rw [List.filter_eq_nil_iff]
  intro c hc hw
  rcases mem_blitCall a b c hc with rfl | ⟨x, y, _, hy, rfl⟩
  · simp [Cmd.writes] at hw
  · simp only [Cmd.writes, decide_eq_true_eq] at hw
    exact hb (by rw [hy, hw])

/-- With the framebuffers allocated, the one command before the final blits that writes
a colour target of the output framebuffer is the standalone modulation draw when the
iteration count is not positive, and the draw of the last wavelet iteration otherwise. -/
theorem execute_output_writers (s : SVGFPass) (rm : ResourceManager) (hs : s.Allocated)
    (u : Tex) (hu : isTarget s.mpOutputFbo u = true) (post : List Cmd)
    (hpost : post.filter (fun c => c.writes u) = []) :
    (s.clearCmds ++
        (Cmd.draw (s.frameStart rm).reprojectionDraw ::
          Cmd.draw (s.frameStart rm).varianceDraw ::
            ((SVGFPass.atrousLoop s.mFilterIterations.toNat 0 (s.frameStart rm)).2 ++
              (if 1 ≤ s.mFilterIterations ∧ s.mFilterIterations - 1 ≤ s.mFeedbackTap then []
               else
                (s.frameStart rm).fallbackCapture ++
                  ((if s.mFilterIterations ≤ 0 then
                      [Cmd.draw (s.frameStart rm).modulationDraw] else []) ++
                    post))))).filter (fun c => c.writes u) =
      if s.mFilterIterations ≤ 0 then [Cmd.draw (s.frameStart rm).modulationDraw]
      else [Cmd.draw (((s.frameStart rm).afterSwaps (s.mFilterIterations.toNat - 1)).atrousDraw
        (s.mFilterIterations - 1))] := by
  obtain ⟨hN, hT, hp0, hp1, hfp, hcur, hprev, hou, hz⟩ := frameStart_config s rm
  obtain ⟨_, _, _, _, d0o, _, _, _, d1o, _, _, dfo, _, dco, dpo⟩ := allocated_distinct s hs
  have n0 : isTarget s.mpPingPongFbo0 u = false := isTarget_of_ne _ _ u (Ne.symm d0o) hu
  have n1 : isTarget s.mpPingPongFbo1 u = false := isTarget_of_ne _ _ u (Ne.symm d1o) hu
  have nf : isTarget s.mpFilteredPastFbo u = false := isTarget_of_ne _ _ u (Ne.symm dfo) hu
  have nc : isTarget s.mpCurReprojFbo u = false := isTarget_of_ne _ _ u (Ne.symm dco) hu
  have np : isTarget s.mpPrevReprojFbo u = false := isTarget_of_ne _ _ u (Ne.symm dpo) hu
  have hclear : s.clearCmds.filter (fun c => c.writes u) = [] := by
    rw [List.filter_eq_nil_iff]
    intro c hc hw
    rcases clearCmds_writes s u c hc hw with h | h | h | h | h | h
    · simp [np] at h
    · simp [nc] at h
    · simp [nf] at h
    · simp [n0] at h
    · simp [n1] at h
    · cases u with
      | managed n => simp [isTarget_managed] at hu
      | owned t => simp [isTarget_owned] at hu
      | attachment id k => cases hz2 : s.mInputTex.prevLinearZ <;> simp [hz2] at h
  have hfb : (s.frameStart rm).fallbackCapture.filter (fun c => c.writes u) = [] := by
    rw [List.filter_eq_nil_iff]
    intro c hc hw
    have := fallbackCapture_writes _ u c hc hw
    rw [hfp] at this
    simp [nf] at this
  have hd1 : (Cmd.draw (s.frameStart rm).reprojectionDraw).writes u = false := by
    simp only [Cmd.writes, SVGFPass.reprojectionDraw, hcur]
    exact nc
  have hd2 : (Cmd.draw (s.frameStart rm).varianceDraw).writes u = false := by
    simp only [Cmd.writes, SVGFPass.varianceDraw, hp0]
    exact n0
  have hmd : (Cmd.draw (s.frameStart rm).modulationDraw).writes u = true := by
    simp only [Cmd.writes, SVGFPass.modulationDraw, hou]
    exact hu
  have hloop := atrousLoop_filter_output s.mFilterIterations.toNat 0 (s.frameStart rm) u
    (frameStart_allocated s rm hs) (by intro _; rw [hN]; omega)
    (by rw [hou]; exact hu) (by rw [hp0]; exact n0) (by rw [hp1]; exact n1)
    (by rw [hfp]; exact nf)
  rw [hN] at hloop
  simp only [List.filter_append, List.filter_cons, hclear, hd1, hd2, hloop,
    List.nil_append, Bool.false_eq_true, if_false]
  by_cases hle : s.mFilterIterations ≤ 0
  · rw [if_neg (by omega), if_neg (by omega), if_pos hle, if_pos hle]
    simp [hmd, hfb, hpost, List.filter_append]
  · rw [if_pos (by omega), if_neg hle]
    have e : (s.mFilterIterations - 1 - 0).toNat = s.mFilterIterations.toNat - 1 := by omega
    rw [e]
    split
    · simp
    · simp [hfb, hpost, List.filter_append]

/-- The two final blit calls of a frame write no colour target of the output
framebuffer. -/
theorem final_blits_filter_output (s : SVGFPass) (rm : ResourceManager) (pDst : Tex)
    (hout : rm.getTexture s.mOutTexName = some pDst) (u : Tex)
    (hu : isTarget s.mpOutputFbo u = true) (z : Option Tex) :
    (blitCall (getColorTexture s.mpOutputFbo 0) (some pDst) ++
      blitCall z (s.mInputTex.prevLinearZ.map Tex.owned)).filter (fun c => c.writes u)
      = [] := by
  rw [List.filter_append, blitCall_filter_writes, blitCall_filter_writes]
  · rfl
  · intro h
    cases hz : s.mInputTex.prevLinearZ with
    | none => simp [hz] at h
    | some p =>
      simp only [hz, Option.map_some', Option.some.injEq] at h
      rw [← h, isTarget_owned] at hu
      exact absurd hu (by decide)
  · intro h
    rw [← Option.some.inj h, getTexture_managed rm _ _ hout, isTarget_managed] at hu
    exact absurd hu (by decide)

/-- With the framebuffers allocated, the one command of a filter-enabled execution that
writes a colour target of the output framebuffer is the standalone modulation draw when
the iteration count is not positive, and the draw of the last wavelet iteration
otherwise, whatever the feedback tap. -/
theorem execute_output_writer (s : SVGFPass) (rm : ResourceManager) (pDst : Tex)
    (hrm : s.mpResManager = some rm) (hout : rm.getTexture s.mOutTexName = some pDst)
    (hon : s.mFilterEnabled = true) (hs : s.Allocated)
    (u : Tex) (hu : isTarget s.mpOutputFbo u = true) :
    s.execute.2.filter (fun c => c.writes u) =
      if s.mFilterIterations ≤ 0 then [Cmd.draw (s.frameStart rm).modulationDraw]
      else [Cmd.draw (((s.frameStart rm).afterSwaps (s.mFilterIterations.toNat - 1)).atrousDraw
        (s.mFilterIterations - 1))] := by
  rw [execute_enabled_cmds s rm pDst hrm hout hon hs]
  exact execute_output_writers s rm hs u hu _ (final_blits_filter_output s rm pDst hout u hu _)

/-! ## The ping-pong discipline of the wavelet loop -/

/-- Wavelet draw number `i` of a filter-enabled execution is the draw of iteration
`i`. -/
theorem atrousDrawsOf_getElem (s : SVGFPass) (rm : ResourceManager) (pDst : Tex)
    (hrm : s.mpResManager = some rm) (hout : rm.getTexture s.mOutTexName = some pDst)
    (hon : s.mFilterEnabled = true) (hs : s.Allocated) (i : Nat)
    (hi : (i : Int) < s.mFilterIterations) :
    (atrousDrawsOf s.execute.2)[i]? = some (s.iterationDraw rm i) := by
  rw [atrousDrawsOf_execute s rm pDst hrm hout hon hs]
  have hlt : i < s.mFilterIterations.toNat := by omega
  simp [List.getElem?_map, List.getElem?_range hlt, SVGFPass.iterationDraw]

/-- What the draw of iteration `i` reads as illumination and where it renders. -/
theorem iterationDraw_bindings (s : SVGFPass) (rm : ResourceManager) (i : Nat) :
    (s.iterationDraw rm i).textures.lookup "gDirect"
        = some (getColorTexture (s.afterSwaps i).mpPingPongFbo0 0)
      ∧ (s.iterationDraw rm i).textures.lookup "gIndirect"
        = some (getColorTexture (s.afterSwaps i).mpPingPongFbo0 1)
      ∧ (s.iterationDraw rm i).target = Target.fbo
          (if (i : Int) = s.mFilterIterations - 1 then s.mpOutputFbo
           else (s.afterSwaps i).mpPingPongFbo1) := by
  obtain ⟨hN, _, _, _, _, _, _, hou, _⟩ := frameStart_config s rm
  obtain ⟨aN, _, _, _, _, aout, _⟩ := afterSwaps_config (s.frameStart rm) i
  obtain ⟨h0, h1⟩ := afterSwaps_frameStart_pingPong s rm i
  refine ⟨?_, ?_, ?_⟩
  · simp [SVGFPass.iterationDraw, SVGFPass.atrousDraw, List.lookup, h0]
  · simp [SVGFPass.iterationDraw, SVGFPass.atrousDraw, List.lookup, h0]
  · simp only [SVGFPass.iterationDraw, SVGFPass.atrousDraw, SVGFPass.curTargetFbo, aN, hN,
      aout, hou, h1]

/-- The commands before iteration `i + 1` are those before iteration `i`, the draw of
iteration `i` and its feedback capture. -/
theorem cmdsBeforeIteration_succ (s : SVGFPass) (rm : ResourceManager) (hs : s.Allocated)
    (i : Nat) (hi : (i : Int) < s.mFilterIterations) :
    s.cmdsBeforeIteration rm (i + 1) =
      s.cmdsBeforeIteration rm i ++
        (Cmd.draw (s.iterationDraw rm i) ::
          ((s.frameStart rm).afterSwaps i).feedbackCapture i) := by
  obtain ⟨hN, _⟩ := frameStart_config s rm
  obtain ⟨aN, _⟩ := afterSwaps_config (s.frameStart rm) i
  have hfs := frameStart_allocated s rm hs
  have h := atrousLoop_add i 1 0 (s.frameStart rm) hfs (by rw [hN]; push_cast; omega)
  rw [atrousLoop_succ_cmds 0 _ _ (afterSwaps_allocated _ i hfs)
    (by rw [aN, hN]; push_cast; omega), atrousLoop_zero] at h
  simp only [SVGFPass.cmdsBeforeIteration, h, SVGFPass.iterationDraw, zero_add,
    List.append_assoc, List.cons_append, List.append_nil]

/-- A filter-enabled execution issues the commands before iteration `i`, then the draw
of iteration `i`, then the rest. -/
theorem execute_at_iteration (s : SVGFPass) (rm : ResourceManager) (pDst : Tex)
    (hrm : s.mpResManager = some rm) (hout : rm.getTexture s.mOutTexName = some pDst)
    (hon : s.mFilterEnabled = true) (hs : s.Allocated) (i : Nat)
    (hi : (i : Int) < s.mFilterIterations) :
    ∃ post, s.execute.2 = s.cmdsBeforeIteration rm i ++ Cmd.draw (s.iterationDraw rm i) :: post :=
  execute_enabled_upto s rm pDst hrm hout hon hs i hi

/-- When the loop starts, the first ping-pong framebuffer holds what the moment-filter
draw wrote. -/
theorem iteration_zero_input (s : SVGFPass) (rm : ResourceManager) (hs : s.Allocated)
    (σ : Store) (k : Nat) (hk : k < 2) :
    ∃ r, s.mpPingPongFbo0 = some r
      ∧ runCmds (s.cmdsBeforeIteration rm 0) σ (Tex.attachment r.id k)
          = (s.frameStart rm).varianceDraw.output
              (runCmds (s.clearCmds ++ [Cmd.draw (s.frameStart rm).reprojectionDraw]) σ) k := by
  obtain ⟨p0, p1, fp, cur, prv, out, e0, e1, e2, e3, e4, e5, l0, l1, l2, l3, l4, l5, _⟩ :=
    allocated_exists s hs
  obtain ⟨_, _, hp0, _⟩ := frameStart_config s rm
  refine ⟨p0, e0, ?_⟩
  simp only [SVGFPass.cmdsBeforeIteration, atrousLoop_zero, runCmds_append, runCmds_cons,
    runCmds_nil]
  simp only [Cmd.apply, SVGFPass.varianceDraw, hp0, e0, slot_fbo_attachment, l0, hk,
    and_self, if_true]

/-- When iteration `i + 1` starts, the framebuffer iteration `i` rendered into holds
what that iteration wrote. -/
theorem iteration_succ_input (s : SVGFPass) (rm : ResourceManager) (hs : s.Allocated)
    (i : Nat) (hi : (i : Int) + 1 < s.mFilterIterations) (σ : Store) (k : Nat) (hk : k < 2) :
    ∃ w, (s.afterSwaps i).mpPingPongFbo1 = some w
      ∧ runCmds (s.cmdsBeforeIteration rm (i + 1)) σ (Tex.attachment w.id k)
          = (s.iterationDraw rm i).output (runCmds (s.cmdsBeforeIteration rm i) σ) k := by
  obtain ⟨p0, p1, fp, cur, prv, out, e0, e1, e2, e3, e4, e5, l0, l1, l2, l3, l4, l5,
    n01, n0f, n0c, n0p, n0o, n1f, n1c, n1p, n1o, _⟩ := allocated_exists s hs
  obtain ⟨_, _, _, _, hfp, _⟩ := frameStart_config s rm
  obtain ⟨_, _, afp, _⟩ := afterSwaps_config (s.frameStart rm) i
  obtain ⟨w, hw, lw, nw⟩ : ∃ w : Fbo, (s.afterSwaps i).mpPingPongFbo1 = some w
      ∧ w.desc.colorTargets.length = 2 ∧ w.id ≠ fp.id := by
    rcases afterSwaps_pingPong s i with ⟨_, h⟩ | ⟨_, h⟩
    · exact ⟨p1, by rw [h, e1], l1, n1f⟩
    · exact ⟨p0, by rw [h, e0], l0, n0f⟩
  refine ⟨w, hw, ?_⟩
  rw [cmdsBeforeIteration_succ s rm hs i (by omega), runCmds_append, runCmds_cons]
  rw [runCmds_of_not_writes]
  · have ht := (iterationDraw_bindings s rm i).2.2
    rw [if_neg (by omega), hw] at ht
    simp only [Cmd.apply, ht, slot_fbo_attachment, lw, hk, and_self, if_true]
  · intro c hc
    cases hwr : c.writes (Tex.attachment w.id k) with
    | false => rfl
    | true =>
      have := (feedbackCapture_writes _ _ _ c hc hwr).1
      rw [afp, hfp, e2, isTarget_attachment] at this
      simp [nw] at this

/-- With the framebuffers allocated, the draw of an iteration reads its illumination
from one framebuffer and renders into a different one, and writes none of the textures
bound to it. -/
theorem iterationDraw_no_alias (s : SVGFPass) (rm : ResourceManager) (hs : s.Allocated)
    (i : Nat) :
    ∃ r w : Fbo, (s.afterSwaps i).mpPingPongFbo0 = some r
      ∧ (s.iterationDraw rm i).target = Target.fbo (some w)
      ∧ r.id ≠ w.id
      ∧ ∀ u ∈ (Cmd.draw (s.iterationDraw rm i)).reads,
          (Cmd.draw (s.iterationDraw rm i)).writes u = false := by
  obtain ⟨p0, p1, fp, cur, prv, out, e0, e1, e2, e3, e4, e5, l0, l1, l2, l3, l4, l5,
    n01, n0f, n0c, n0p, n0o, n1f, n1c, n1p, n1o, nfc, nfp, nfo, ncp, nco, npo⟩ :=
    allocated_exists s hs
  obtain ⟨_, _, _, _, _, hcur, _⟩ := frameStart_config s rm
  obtain ⟨_, _, _, acur, _, _, ain⟩ := afterSwaps_config (s.frameStart rm) i
  obtain ⟨_, _, _, _, iB, iA, iIA⟩ := frameStart_inputs s rm
  obtain ⟨b1, b2, b3⟩ := iterationDraw_bindings s rm i
  obtain ⟨h0, _⟩ := afterSwaps_frameStart_pingPong s rm i
  obtain ⟨r, w, hr, hw, nrw, ncw⟩ : ∃ r w : Fbo, (s.afterSwaps i).mpPingPongFbo0 = some r
      ∧ (if (i : Int) = s.mFilterIterations - 1 then s.mpOutputFbo
          else (s.afterSwaps i).mpPingPongFbo1) = some w
      ∧ r.id ≠ w.id ∧ cur.id ≠ w.id := by
    rcases afterSwaps_pingPong s i with ⟨h, h'⟩ | ⟨h, h'⟩ <;>
      by_cases hl : (i : Int) = s.mFilterIterations - 1
    · exact ⟨p0, out, by rw [h, e0], by rw [if_pos hl, e5], n0o, nco⟩
    · exact ⟨p0, p1, by rw [h, e0], by rw [if_neg hl, h', e1], n01, Ne.symm n1c⟩
    · exact ⟨p1, out, by rw [h, e1], by rw [if_pos hl, e5], n1o, nco⟩
    · exact ⟨p1, p0, by rw [h, e1], by rw [if_neg hl, h', e0], Ne.symm n01, Ne.symm n0c⟩
  rw [hw] at b3
  refine ⟨r, w, hr, b3, nrw, ?_⟩
  intro u hu
  have hwr : ∀ v, (Cmd.draw (s.iterationDraw rm i)).writes v = isTarget (some w) v := by
    intro v
    simp only [Cmd.writes, b3, isTarget]
  rw [hwr]
  simp only [Cmd.reads, SVGFPass.iterationDraw, SVGFPass.atrousDraw, acur, hcur, e3, ain,
    iB, iA, iIA, h0, hr, List.mem_filterMap, List.mem_cons, List.mem_singleton,
    List.not_mem_nil, or_false] at hu
  obtain ⟨p, hp, hpu⟩ := hu
  rcases hp with rfl | rfl | rfl | rfl | rfl | rfl
  · simp only [getColorTexture, l3] at hpu
    simp only [Nat.lt_succ_self, if_true, Option.some.injEq] at hpu
    rw [← hpu, isTarget_attachment]
    simp [ncw]
  · rw [getTexture_managed _ _ _ hpu]
    exact isTarget_managed _ _
  · simp only [getColorTexture, l0, l1] at hpu
    split at hpu
    · rw [← Option.some.inj hpu, isTarget_attachment]
      simp [nrw]
    · simp at hpu
  · simp only [getColorTexture, l0, l1] at hpu
    split at hpu
    · rw [← Option.some.inj hpu, isTarget_attachment]
      simp [nrw]
    · simp at hpu
  · rw [getTexture_managed _ _ _ hpu]
    exact isTarget_managed _ _
  · rw [getTexture_managed _ _ _ hpu]
    exact isTarget_managed _ _

/-! ## Exactly one of the two captures is taken -/

/-- The blits of `computeAtrousDecomposition` in a frame of an allocated pass whose
feedback tap is below the last iteration index: either the loop captures (feedback tap
not negative and at least one iteration) and the fallback is skipped, or the loop
captures nothing and the fallback copies the current reprojection framebuffer. -/
theorem capture_exclusive (s : SVGFPass) (rm : ResourceManager) (hs : s.Allocated)
    (hok : ¬ (1 ≤ s.mFilterIterations ∧ s.mFilterIterations - 1 ≤ s.mFeedbackTap)) :
    (0 ≤ s.mFeedbackTap ∧ 1 ≤ s.mFilterIterations
        ∧ (∃ j : Nat, (j : Int) = min s.mFeedbackTap (s.mFilterIterations - 1)
            ∧ blitsOf (SVGFPass.atrousLoop s.mFilterIterations.toNat 0 (s.frameStart rm)).2 =
              [ (getColorTexture (s.iterationDraw rm j).target.framebuffer 0,
                  getColorTexture s.mpFilteredPastFbo 0),
                (getColorTexture (s.iterationDraw rm j).target.framebuffer 1,
                  getColorTexture s.mpFilteredPastFbo 1) ])
        ∧ (s.frameStart rm).fallbackCapture = [])
      ∨ ((s.mFeedbackTap < 0 ∨ s.mFilterIterations ≤ 0)
        ∧ blitsOf (SVGFPass.atrousLoop s.mFilterIterations.toNat 0 (s.frameStart rm)).2 = []
        ∧ blitsOf (s.frameStart rm).fallbackCapture =
            [ (getColorTexture s.mpCurReprojFbo 0, getColorTexture s.mpFilteredPastFbo 0),
              (getColorTexture s.mpCurReprojFbo 1, getColorTexture s.mpFilteredPastFbo 1) ]) := by
  obtain ⟨hN, hT, hp0, hp1, hfp, hcur, hprev, hou, hz⟩ := frameStart_config s rm
  have hfs := frameStart_allocated s rm hs
  by_cases hcfg : s.mFeedbackTap < 0 ∨ s.mFilterIterations ≤ 0
  · refine Or.inr ⟨hcfg, ?_, ?_⟩
    · rw [blitsOf_atrousLoop _ _ _ hfs (by intro _; rw [hN]; omega), hN, hT, if_neg]
      rintro ⟨h1, h2⟩
      rcases hcfg with h | h
      · omega
      · have : s.mFilterIterations.toNat = 0 := by omega
        rw [this] at h2
        push_cast at h2
        omega
    · obtain ⟨p0, p1, fp, cur, prv, out, e0, e1, e2, e3, e4, e5, l0, l1, l2, l3, l4, l5, _⟩ :=
        allocated_exists s hs
      obtain ⟨c, f, hc, hf, hfb⟩ := fallbackCapture_allocated (s.frameStart rm) hfs
      rw [hfb, hN, hT, if_pos hcfg]
      rw [hcur, e3] at hc
      rw [hfp, e2] at hf
      obtain rfl := Option.some.inj hc
      obtain rfl := Option.some.inj hf
      simp [blitsOf, e3, e2, getColorTexture, l3, l2]
  · have h0 : 0 ≤ s.mFeedbackTap := by omega
    have h1 : 1 ≤ s.mFilterIterations := by omega
    have hmin : min s.mFeedbackTap (s.mFilterIterations - 1) = s.mFeedbackTap := by omega
    refine Or.inl ⟨h0, h1, ⟨s.mFeedbackTap.toNat, by omega, ?_⟩, ?_⟩
    · have e : ((s.mFeedbackTap.toNat : Nat) : Int) = s.mFeedbackTap := by omega
      have hne : ¬ (s.mFeedbackTap = s.mFilterIterations - 1) := by omega
      rw [blitsOf_atrousLoop _ _ _ hfs (by intro _; rw [hN]; omega), hN, hT,
        if_pos (by omega), hmin]
      obtain ⟨aN, aT, afp, _, _, aout, _⟩ :=
        afterSwaps_config (s.frameStart rm) s.mFeedbackTap.toNat
      obtain ⟨x, f, hx, hf, hcap⟩ := feedbackCapture_pingPong
        ((s.frameStart rm).afterSwaps s.mFeedbackTap.toNat)
        (afterSwaps_allocated _ _ hfs) s.mFeedbackTap (by rw [aN, aT, hN, hT, hmin])
        (by rw [aN, hN]; exact hne)
      obtain ⟨p0, p1, fp, cur, prv, out, e0, e1, e2, e3, e4, e5, l0, l1, l2, l3, l4, l5, _⟩ :=
        allocated_exists s hs
      have lx : x.desc.colorTargets.length = 2 := by
        rcases afterSwaps_pingPong (s.frameStart rm) s.mFeedbackTap.toNat with
          ⟨_, h⟩ | ⟨_, h⟩
        · rw [h, hp1, e1] at hx
          rw [← Option.some.inj hx]
          exact l1
        · rw [h, hp0, e0] at hx
          rw [← Option.some.inj hx]
          exact l0
      rw [afp, hfp, e2] at hf
      obtain rfl := Option.some.inj hf
      have htg : (s.iterationDraw rm s.mFeedbackTap.toNat).target.framebuffer = some x := by
        simp only [SVGFPass.iterationDraw, SVGFPass.atrousDraw, SVGFPass.curTargetFbo, aN,
          hN, e, Target.framebuffer]
        rw [if_neg hne, hx]
      rw [htg, e2]
      simp only [sub_zero, hcap, blitsOf, getColorTexture, lx, l2]
      simp
    · simp only [SVGFPass.fallbackCapture, hN, hT]
      rw [if_neg hcfg]

/-- With the framebuffers allocated, no draw of a filter-enabled execution renders into
the filtered-past framebuffer. -/
theorem draws_keep_filteredPast (s : SVGFPass) (rm : ResourceManager) (pDst : Tex)
    (hrm : s.mpResManager = some rm) (hout : rm.getTexture s.mOutTexName = some pDst)
    (hon : s.mFilterEnabled = true) (hs : s.Allocated) :
    ∀ d ∈ drawsOf s.execute.2, ∀ u, isTarget s.mpFilteredPastFbo u = true →
      (Cmd.draw d).writes u = false := by
  obtain ⟨hN, hT, hp0, hp1, hfp, hcur, hprev, hou, hz⟩ := frameStart_config s rm
  obtain ⟨_, d0f, _, _, _, d1f, _, _, _, dfc, _, dfo, _⟩ := allocated_distinct s hs
  intro d hd u hu
  have k0 : isTarget s.mpPingPongFbo0 u = false := isTarget_of_ne _ _ u (Ne.symm d0f) hu
  have k1 : isTarget s.mpPingPongFbo1 u = false := isTarget_of_ne _ _ u (Ne.symm d1f) hu
  have kc : isTarget s.mpCurReprojFbo u = false := isTarget_of_ne _ _ u dfc hu
  have ko : isTarget s.mpOutputFbo u = false := isTarget_of_ne _ _ u dfo hu
  rw [drawsOf_execute_enabled s rm pDst hrm hout hon hs] at hd
  simp only [List.mem_cons, List.mem_append] at hd
  rcases hd with rfl | rfl | hd | hd
  · simp only [Cmd.writes, SVGFPass.reprojectionDraw, hcur]
    exact kc
  · simp only [Cmd.writes, SVGFPass.varianceDraw, hp0]
    exact k0
  · simp only [List.mem_map] at hd
    obtain ⟨j, _, rfl⟩ := hd
    obtain ⟨aN, _, _, _, _, aout, _⟩ := afterSwaps_config (s.frameStart rm) j
    simp only [Cmd.writes, SVGFPass.atrousDraw, SVGFPass.curTargetFbo, aout, hou]
    split
    · exact ko
    · rcases afterSwaps_pingPong (s.frameStart rm) j with ⟨_, h⟩ | ⟨_, h⟩
      · rw [h, hp1]
        exact k1
      · rw [h, hp0]
        exact k0
  · split at hd
    · simp only [List.mem_singleton] at hd
      subst hd
      simp only [Cmd.writes, SVGFPass.modulationDraw, hou]
      exact ko
    · simp at hd

/-! ## The order of the stages -/

/-- The draws of a filter-enabled execution of an allocated pass, in order:
reprojection, moment filter, the draws of iterations `0, 1, .., N - 1`, and the
standalone modulation when the count is not positive. -/
theorem drawsOf_execute_iterations (s : SVGFPass) (rm : ResourceManager) (pDst : Tex)
    (hrm : s.mpResManager = some rm) (hout : rm.getTexture s.mOutTexName = some pDst)
    (hon : s.mFilterEnabled = true) (hs : s.Allocated) :
    drawsOf s.execute.2 =
      (s.frameStart rm).reprojectionDraw :: (s.frameStart rm).varianceDraw ::
        ((List.range s.mFilterIterations.toNat).map (fun j => s.iterationDraw rm j) ++
          if s.mFilterIterations ≤ 0 then [(s.frameStart rm).modulationDraw] else []) := by
  rw [drawsOf_execute_enabled s rm pDst hrm hout hon hs]
  simp only [SVGFPass.iterationDraw, zero_add]

/-! ## The pending clear across calls -/

theorem calls_nil (s : SVGFPass) : s.calls [] = (s, []) := rfl

theorem calls_cons (s : SVGFPass) (c : Call) (cs : List Call) :
    s.calls (c :: cs) =
      if faulted (s.call c).2 then s.call c
      else (((s.call c).1.calls cs).1, (s.call c).2 ++ ((s.call c).1.calls cs).2) := rfl

/-- A call that does not fault is followed by the remaining calls. -/
theorem calls_cons_ok (s : SVGFPass) (c : Call) (cs : List Call)
    (h : faulted (s.call c).2 = false) :
    s.calls (c :: cs) =
      (((s.call c).1.calls cs).1, (s.call c).2 ++ ((s.call c).1.calls cs).2) := by
  rw [calls_cons, h]
  rfl

/-- A call that faults is the last one. -/
theorem calls_cons_fault (s : SVGFPass) (c : Call) (cs : List Call)
    (h : faulted (s.call c).2 = true) : s.calls (c :: cs) = s.call c := by
  rw [calls_cons, h]
  rfl

/-- An execution either returns at once, or finds the resource manager and the output
texture. -/
theorem execute_cases (s : SVGFPass) :
    s.execute = (s, []) ∨
      ∃ rm pDst, s.mpResManager = some rm ∧ rm.getTexture s.mOutTexName = some pDst := by
  cases hrm : s.mpResManager with
  | none => exact Or.inl (execute_skipped_state s (Or.inl hrm))
  | some rm =>
    cases hout : rm.getTexture s.mOutTexName with
    | none => exact Or.inl (execute_skipped_state s (Or.inr ⟨rm, hrm, hout⟩))
    | some pDst => exact Or.inr ⟨rm, pDst, rfl, hout⟩

theorem resize_of_not_allocates (s : SVGFPass) (w h : Nat)
    (hc : (Call.resize w h).allocates = false) : s.resize w h = s := by
  simp only [Call.allocates, decide_eq_false_iff_not, not_and_or, Nat.not_lt,
    Nat.le_zero] at hc
  unfold SVGFPass.resize
  rcases hc with hc | hc <;> simp [hc]

/-- A call that neither executes nor reallocates issues no command and leaves the
framebuffer pointers, the previous-depth texture and the pending-clear flag alone. -/
theorem call_quiet (s : SVGFPass) (c : Call) (hc : c.allocates = false)
    (hne : c ≠ Call.execute) :
    (s.call c).2 = []
      ∧ (s.call c).1.mNeedFboClear = s.mNeedFboClear
      ∧ (s.call c).1.mpPingPongFbo0 = s.mpPingPongFbo0
      ∧ (s.call c).1.mpPingPongFbo1 = s.mpPingPongFbo1
      ∧ (s.call c).1.mpFilteredPastFbo = s.mpFilteredPastFbo
      ∧ (s.call c).1.mpCurReprojFbo = s.mpCurReprojFbo
      ∧ (s.call c).1.mpPrevReprojFbo = s.mpPrevReprojFbo
      ∧ (s.call c).1.mpOutputFbo = s.mpOutputFbo
      ∧ (s.call c).1.mInputTex.prevLinearZ = s.mInputTex.prevLinearZ := by
  cases c with
  | setup rm => exact ⟨rfl, rfl, rfl, rfl, rfl, rfl, rfl, rfl, rfl⟩
  | resize w h =>
    simp [SVGFPass.call, resize_of_not_allocates s w h hc]
  | renderGui e n t a b c => exact ⟨rfl, rfl, rfl, rfl, rfl, rfl, rfl, rfl, rfl⟩
  | execute => exact absurd rfl hne

/-- An execution of an allocated pass with no clear pending issues no clear and leaves
the flag off. -/
theorem execute_no_clear (s : SVGFPass) (hs : s.Allocated) (hflag : s.mNeedFboClear = false) :
    s.execute.1.mNeedFboClear = false ∧ ∀ c ∈ s.execute.2, c.isClear = false := by
  rcases execute_cases s with h | ⟨rm, pDst, hrm, hout⟩
  · rw [h]
    exact ⟨hflag, by simp⟩
  · refine ⟨execute_needClear s rm pDst hrm hout hs, ?_⟩
    obtain ⟨rest, h1, h2⟩ := execute_cmds_split s rm pDst hrm hout hs
    rw [h1]
    have : s.clearCmds = [] := by simp [SVGFPass.clearCmds, hflag]
    rw [this]
    simpa using h2

/-- An execution of an allocated pass that finds its output texture while a clear is
pending starts with the commands of `clearFbos`, issues no other clear, and resets the
flag. -/
theorem execute_clear_pending (s : SVGFPass) (rm : ResourceManager) (pDst : Tex)
    (hrm : s.mpResManager = some rm) (hout : rm.getTexture s.mOutTexName = some pDst)
    (hs : s.Allocated) (hflag : s.mNeedFboClear = true) :
    s.execute.1.mNeedFboClear = false
      ∧ ∃ rest, s.execute.2 = s.clearFbos.2 ++ rest ∧ ∀ c ∈ rest, c.isClear = false := by
  refine ⟨execute_needClear s rm pDst hrm hout hs, ?_⟩
  obtain ⟨rest, h1, h2⟩ := execute_cmds_split s rm pDst hrm hout hs
  refine ⟨rest, ?_, h2⟩
  rw [h1]
  simp [SVGFPass.clearCmds, hflag]

/-- The commands of `clearFbos` on an allocated pass: not empty, all of them clears. -/
theorem clearFbos_all_clear (s : SVGFPass) (hs : s.Allocated) :
    s.clearFbos.2 ≠ [] ∧ ∀ c ∈ s.clearFbos.2, c.isClear = true := by
  obtain ⟨z, hz⟩ := allocated_prevLinearZ s hs
  rw [clearFbos_of_some s z hz]
  refine ⟨by simp, ?_⟩
  intro c hc
  simp only [List.mem_cons, List.mem_singleton, List.not_mem_nil, or_false] at hc
  rcases hc with rfl | rfl | rfl | rfl | rfl | rfl <;> rfl

/-- Every call keeps the framebuffers allocated. -/
theorem call_allocated (s : SVGFPass) (c : Call) (hs : s.Allocated) :
    (s.call c).1.Allocated := by
  cases c with
  | setup rm => exact hs
  | resize w h =>
    simp only [SVGFPass.call]
    by_cases hwh : 0 < w ∧ 0 < h
    · exact resize_allocated s w h hwh.1 hwh.2
    · rw [resize_of_not_allocates s w h (by simp [Call.allocates, hwh])]
      exact hs
  | renderGui e n t a b c => exact hs
  | execute => exact execute_allocated s hs

/-- Every sequence of calls keeps the framebuffers allocated. -/
theorem calls_allocated (s : SVGFPass) (cs : List Call) (hs : s.Allocated) :
    (s.calls cs).1.Allocated := by
  induction cs generalizing s with
  | nil => exact hs
  | cons c cs ih =>
    rw [calls_cons]
    split
    · exact call_allocated s c hs
    · exact ih (s.call c).1 (call_allocated s c hs)

/-- With no clear pending, no sequence of calls on an allocated pass without a
reallocating `resize` issues a clear, and the flag stays off. -/
theorem calls_no_clear (s : SVGFPass) (cs : List Call) (hs : s.Allocated)
    (hflag : s.mNeedFboClear = false) (hcs : ∀ c ∈ cs, c.allocates = false) :
    (s.calls cs).1.mNeedFboClear = false ∧ ∀ c ∈ (s.calls cs).2, c.isClear = false := by
  induction cs generalizing s with
  | nil => exact ⟨hflag, by simp [calls_nil]⟩
  | cons c cs ih =>
    have hc := hcs c (List.mem_cons_self _ _)
    have hrest : ∀ c2 ∈ cs, c2.allocates = false :=
      fun c2 h2 => hcs c2 (List.mem_cons_of_mem _ h2)
    have hone : (s.call c).1.mNeedFboClear = false ∧ ∀ c2 ∈ (s.call c).2, c2.isClear = false := by
      by_cases hex : c = Call.execute
      · subst hex
        exact execute_no_clear s hs hflag
      · obtain ⟨q1, q2, _⟩ := call_quiet s c hc hex
        rw [q1, q2]
        exact ⟨hflag, by simp⟩
    rw [calls_cons]
    split
    · exact hone
    · obtain ⟨h3, h4⟩ := ih (s.call c).1 (call_allocated s c hs) hone.1 hrest
      refine ⟨h3, ?_⟩
      intro c2 hc2
      simp only [List.mem_append] at hc2
      rcases hc2 with hc2 | hc2
      · exact hone.2 c2 hc2
      · exact h4 c2 hc2

theorem clearFbos_congr (s t : SVGFPass)
    (h0 : t.mpPingPongFbo0 = s.mpPingPongFbo0) (h1 : t.mpPingPongFbo1 = s.mpPingPongFbo1)
    (h2 : t.mpFilteredPastFbo = s.mpFilteredPastFbo)
    (h3 : t.mpCurReprojFbo = s.mpCurReprojFbo) (h4 : t.mpPrevReprojFbo = s.mpPrevReprojFbo)
    (h5 : t.mInputTex.prevLinearZ = s.mInputTex.prevLinearZ) :
    t.clearFbos.2 = s.clearFbos.2 := by
  simp only [SVGFPass.clearFbos, h0, h1, h2, h3, h4, h5]
  cases s.mInputTex.prevLinearZ <;> rfl

/-- With a clear pending, a sequence of calls on an allocated pass without a reallocating
`resize` either issues no command at all and leaves the clear pending (every execution
was skipped), or issues the commands of `clearFbos` first, no other clear after them, and
ends with the flag off. -/
theorem calls_first_clear (s : SVGFPass) (cs : List Call) (hs : s.Allocated)
    (hflag : s.mNeedFboClear = true) (hcs : ∀ c ∈ cs, c.allocates = false) :
    ((s.calls cs).1.mNeedFboClear = true ∧ (s.calls cs).2 = [])
      ∨ ((s.calls cs).1.mNeedFboClear = false
        ∧ ∃ rest, (s.calls cs).2 = s.clearFbos.2 ++ rest ∧ ∀ c ∈ rest, c.isClear = false) := by
  induction cs generalizing s with
  | nil => exact Or.inl ⟨hflag, rfl⟩
  | cons c cs ih =>
    have hc := hcs c (List.mem_cons_self _ _)
    have hrest : ∀ c2 ∈ cs, c2.allocates = false :=
      fun c2 h2 => hcs c2 (List.mem_cons_of_mem _ h2)
    by_cases hex : c = Call.execute
    · subst hex
      rcases execute_cases s with h | ⟨rm, pDst, hrm, hout⟩
      · rw [calls_cons_ok s _ cs (by simp [SVGFPass.call, h, faulted_nil])]
        simp only [SVGFPass.call, h, List.nil_append]
        exact ih s hs hflag hrest
      · obtain ⟨h1, rest, h2, h3⟩ := execute_clear_pending s rm pDst hrm hout hs hflag
        rw [calls_cons]
        split
        · exact Or.inr ⟨h1, rest, h2, h3⟩
        · obtain ⟨h4, h5⟩ := calls_no_clear s.execute.1 cs (execute_allocated s hs) h1 hrest
          refine Or.inr ⟨h4, rest ++ (s.execute.1.calls cs).2, ?_, ?_⟩
          · simp only [SVGFPass.call]
            rw [h2, List.append_assoc]
          · intro c2 hc2
            simp only [List.mem_append] at hc2
            rcases hc2 with hc2 | hc2
            · exact h3 c2 hc2
            · exact h5 c2 hc2
    · obtain ⟨q1, q2, q3, q4, q5, q6, q7, _, q9⟩ := call_quiet s c hc hex
      have hcl := clearFbos_congr s (s.call c).1 q3 q4 q5 q6 q7 q9
      rw [calls_cons_ok s c cs (by rw [q1]; rfl), q1, List.nil_append, ← hcl]
      exact ih (s.call c).1 (call_allocated s c hs) (by rw [q2, hflag]) hrest

/-! ## Reachable states and the reprojection buffers -/

/-- The commands a filter-enabled execution of an allocated pass issues after the pending
clear start with the reprojection draw, and overwrite nothing but colour targets of the
ping-pong, filtered-past, current-reprojection and output framebuffers, the
previous-depth texture and the output texture. -/
theorem execute_enabled_rest_writes (s : SVGFPass) (rm : ResourceManager) (pDst : Tex)
    (hrm : s.mpResManager = some rm) (hout : rm.getTexture s.mOutTexName = some pDst)
    (hon : s.mFilterEnabled = true) (hs : s.Allocated) :
    ∃ rest, s.execute.2 = s.clearCmds ++ (Cmd.draw (s.frameStart rm).reprojectionDraw :: rest)
      ∧ ∀ u, ∀ c ∈ Cmd.draw (s.frameStart rm).reprojectionDraw :: rest, c.writes u = true →
          isTarget s.mpPingPongFbo0 u = true ∨ isTarget s.mpPingPongFbo1 u = true
            ∨ isTarget s.mpFilteredPastFbo u = true ∨ isTarget s.mpCurReprojFbo u = true
            ∨ isTarget s.mpOutputFbo u = true
            ∨ s.mInputTex.prevLinearZ.map Tex.owned = some u ∨ u = pDst := by
  refine ⟨_, execute_enabled_cmds s rm pDst hrm hout hon hs, ?_⟩
  intro u c hc hw
  obtain ⟨hN, hT, hp0, hp1, hfp, hcur, hprev, hou, hz⟩ := frameStart_config s rm
  simp only [List.mem_append, List.mem_cons] at hc
  rcases hc with rfl | rfl | hc | hc
  · simp only [Cmd.writes, SVGFPass.reprojectionDraw, hcur] at hw
    have : isTarget s.mpCurReprojFbo u = true := hw
    simp [this]
  · simp only [Cmd.writes, SVGFPass.varianceDraw, hp0] at hw
    have : isTarget s.mpPingPongFbo0 u = true := hw
    simp [this]
  · have := atrousLoop_writes _ _ _ u c hc hw
    rw [hp0, hp1, hou, hfp] at this
    rcases this with h | h | h | ⟨h, _⟩ <;> simp [h]
  · split at hc
    · simp at hc
    · simp only [List.mem_append] at hc
      rcases hc with hc | hc | hc | hc
      · have := fallbackCapture_writes _ u c hc hw
        rw [hfp] at this
        simp [this]
      · split at hc
        · simp only [List.mem_singleton] at hc
          subst hc
          simp only [Cmd.writes, SVGFPass.modulationDraw, hou] at hw
          have : isTarget s.mpOutputFbo u = true := hw
          simp [this]
        · simp at hc
      · rcases mem_blitCall _ _ c hc with rfl | ⟨x, y, _, hy, rfl⟩
        · simp [Cmd.writes] at hw
        · simp only [Cmd.writes, decide_eq_true_eq] at hw
          simp only [Option.some.injEq] at hy
          simp [← hw, ← hy]
      · rcases mem_blitCall _ _ c hc with rfl | ⟨x, y, _, hy, rfl⟩
        · simp [Cmd.writes] at hw
        · simp only [Cmd.writes, decide_eq_true_eq] at hw
          simp [← hw, hy]

/-- With the framebuffers allocated, after the pending clear no command of a
filter-enabled execution overwrites a colour target of the previous-reprojection
framebuffer. -/
theorem execute_enabled_keeps_prev (s : SVGFPass) (rm : ResourceManager) (pDst : Tex)
    (hrm : s.mpResManager = some rm) (hout : rm.getTexture s.mOutTexName = some pDst)
    (hon : s.mFilterEnabled = true) (hs : s.Allocated) :
    ∃ rest, s.execute.2 = s.clearCmds ++ (Cmd.draw (s.frameStart rm).reprojectionDraw :: rest)
      ∧ ∀ u, isTarget s.mpPrevReprojFbo u = true →
          ∀ c ∈ Cmd.draw (s.frameStart rm).reprojectionDraw :: rest, c.writes u = false := by
  obtain ⟨rest, h1, h2⟩ := execute_enabled_rest_writes s rm pDst hrm hout hon hs
  refine ⟨rest, h1, ?_⟩
  intro u hu c hc
  obtain ⟨_, _, _, d0p, _, _, _, d1p, _, _, dfp, _, dcp, _, dpo⟩ := allocated_distinct s hs
  have k0 : isTarget s.mpPingPongFbo0 u = false := isTarget_of_ne _ _ u (Ne.symm d0p) hu
  have k1 : isTarget s.mpPingPongFbo1 u = false := isTarget_of_ne _ _ u (Ne.symm d1p) hu
  have kf : isTarget s.mpFilteredPastFbo u = false := isTarget_of_ne _ _ u (Ne.symm dfp) hu
  have kc : isTarget s.mpCurReprojFbo u = false := isTarget_of_ne _ _ u (Ne.symm dcp) hu
  have ko : isTarget s.mpOutputFbo u = false := isTarget_of_ne _ _ u dpo hu
  cases hw : c.writes u with
  | false => rfl
  | true =>
    exfalso
    rcases h2 u c hc hw with h | h | h | h | h | h | h
    · rw [k0] at h; exact Bool.noConfusion h
    · rw [k1] at h; exact Bool.noConfusion h
    · rw [kf] at h; exact Bool.noConfusion h
    · rw [kc] at h; exact Bool.noConfusion h
    · rw [ko] at h; exact Bool.noConfusion h
    · cases hz : s.mInputTex.prevLinearZ with
      | none => rw [hz] at h; simp at h
      | some z =>
        rw [hz] at h
        simp only [Option.map_some', Option.some.injEq] at h
        rw [← h, isTarget_owned] at hu
        exact Bool.noConfusion hu
    · rw [h, getTexture_managed rm _ pDst hout, isTarget_managed] at hu
      exact Bool.noConfusion hu

/-- With the framebuffers allocated, the reprojection draw overwrites none of the
textures it reads. -/
theorem reprojectionDraw_reads_kept (s : SVGFPass) (rm : ResourceManager)
    (hs : s.Allocated) :
    ∀ u ∈ (Cmd.draw (s.frameStart rm).reprojectionDraw).reads,
      (Cmd.draw (s.frameStart rm).reprojectionDraw).writes u = false := by
  obtain ⟨hN, hT, hp0, hp1, hfp, hcur, hprev, hou, hz⟩ := frameStart_config s rm
  obtain ⟨_, _, i3, i4, _, _, _⟩ := frameStart_inputs s rm
  obtain ⟨i1, i2, _⟩ := frameStart_inputs s rm
  obtain ⟨_, _, _, _, _, _, _, _, _, dfc, _, _, dcp, _, _⟩ := allocated_distinct s hs
  intro u hu
  have hwr : (Cmd.draw (s.frameStart rm).reprojectionDraw).writes u
      = isTarget s.mpCurReprojFbo u := by
    simp only [Cmd.writes, SVGFPass.reprojectionDraw, hcur]
    rfl
  rw [hwr]
  simp only [Cmd.reads, SVGFPass.reprojectionDraw, List.mem_filterMap, List.mem_cons,
    List.mem_singleton, List.not_mem_nil, or_false, hprev, hfp, hz, i1, i2, i3, i4] at hu
  obtain ⟨p, hp, hpu⟩ := hu
  rcases hp with rfl | rfl | rfl | rfl | rfl | rfl | rfl | rfl | rfl
  · rw [getTexture_managed rm _ u hpu]; exact isTarget_managed _ _
  · cases hzz : s.mInputTex.prevLinearZ with
    | none => simp [hzz] at hpu
    | some z =>
      simp only [hzz, Option.map_some', Option.some.injEq] at hpu
      rw [← hpu]
      exact isTarget_owned _ _
  · rw [getTexture_managed rm _ u hpu]; exact isTarget_managed _ _
  · exact isTarget_of_ne _ _ u (Ne.symm dcp) (getColorTexture_isTarget _ _ u hpu)
  · exact isTarget_of_ne _ _ u (Ne.symm dcp) (getColorTexture_isTarget _ _ u hpu)
  · exact isTarget_of_ne _ _ u dfc (getColorTexture_isTarget _ _ u hpu)
  · exact isTarget_of_ne _ _ u dfc (getColorTexture_isTarget _ _ u hpu)
  · rw [getTexture_managed rm _ u hpu]; exact isTarget_managed _ _
  · rw [getTexture_managed rm _ u hpu]; exact isTarget_managed _ _

/-! ## Frames with the filter off -/

theorem frames_zero (s : SVGFPass) : s.frames 0 = (s, []) := rfl

theorem frames_succ (s : SVGFPass) (n : Nat) :
    s.frames (n + 1) =
      if faulted s.execute.2 then s.execute
      else ((s.execute.1.frames n).1, s.execute.2 ++ (s.execute.1.frames n).2) :=
  rfl

/-- The draw of the filter-off branch overwrites no texture of the pass itself. -/
theorem combineDraw_writes (s : SVGFPass) (rm : ResourceManager) (u : Tex)
    (hu : u.isManaged = false) : (Cmd.draw (s.combineDraw rm)).writes u = false := by
  simp only [Cmd.writes, SVGFPass.combineDraw, Target.slot]
  cases hg : rm.getTexture s.mOutTexName with
  | none => simp [List.indexOf, List.findIdx_cons]
  | some v =>
    have hv := getTexture_isManaged rm _ v hg
    have hne : ¬ (v = u) := by
      intro h
      rw [h, hu] at hv
      exact Bool.noConfusion hv
    have hb : (v == u) = false := by simpa using hne
    simp [List.indexOf, List.findIdx_cons, hb]

/-- An execution with the filter off and no clear pending is either skipped, or binds the
inputs and issues the one draw of the filter-off branch. -/
theorem execute_disabled_cases (s : SVGFPass) (hflag : s.mNeedFboClear = false)
    (hoff : s.mFilterEnabled = false) :
    s.execute = (s, [])
      ∨ ∃ rm pDst, s.mpResManager = some rm ∧ rm.getTexture s.mOutTexName = some pDst
          ∧ s.execute = (s.bindInputs rm, [Cmd.draw ((s.bindInputs rm).combineDraw rm)]) := by
  rcases execute_cases s with h | ⟨rm, pDst, hrm, hout⟩
  · exact Or.inl h
  · refine Or.inr ⟨rm, pDst, hrm, hout, ?_⟩
    rw [execute_eq s rm pDst hrm hout (faulted_clearCmds_of_not_pending s hflag)]
    simp [hoff, SVGFPass.frameStart, SVGFPass.clearCmds, hflag]

/-- An execution with the filter off and no clear pending does not fault. -/
theorem faulted_execute_disabled (s : SVGFPass) (hflag : s.mNeedFboClear = false)
    (hoff : s.mFilterEnabled = false) : faulted s.execute.2 = false := by
  rcases execute_disabled_cases s hflag hoff with h | ⟨rm, pDst, _, _, h⟩ <;> rw [h] <;> rfl

/-- Binding the inputs before an execution that binds them itself changes nothing. -/
theorem bindInputs_execute (s : SVGFPass) (rm : ResourceManager) (pDst : Tex)
    (hrm : s.mpResManager = some rm) (hout : rm.getTexture s.mOutTexName = some pDst)
    (hflag : s.mNeedFboClear = false) :
    (s.bindInputs rm).execute = s.execute := by
  have h1 : (s.bindInputs rm).mpResManager = some rm := hrm
  have h2 : rm.getTexture (s.bindInputs rm).mOutTexName = some pDst := hout
  have h5 : (s.bindInputs rm).mNeedFboClear = false := hflag
  rw [execute_eq _ rm pDst h1 h2 (faulted_clearCmds_of_not_pending _ h5),
    execute_eq s rm pDst hrm hout (faulted_clearCmds_of_not_pending s hflag)]
  have h3 : (s.bindInputs rm).frameStart rm = s.frameStart rm := by
    unfold SVGFPass.frameStart
    simp [SVGFPass.bindInputs, hflag]
  have h4 : (s.bindInputs rm).clearCmds = s.clearCmds := by
    unfold SVGFPass.clearCmds
    simp [SVGFPass.bindInputs, hflag]
  rw [h3, h4]
  rfl

/-- After any number of frames with the filter off and no clear pending, the object is
the original one, or the original one with the inputs bound; no frame faults. -/
theorem frames_disabled_cases (s : SVGFPass) (n : Nat) (hflag : s.mNeedFboClear = false)
    (hoff : s.mFilterEnabled = false) :
    ((s.frames n).1 = s
        ∨ ∃ rm pDst, s.mpResManager = some rm ∧ rm.getTexture s.mOutTexName = some pDst
            ∧ (s.frames n).1 = s.bindInputs rm)
      ∧ (∀ u, u.isManaged = false → ∀ c ∈ (s.frames n).2, c.writes u = false)
      ∧ faulted (s.frames n).2 = false := by
  induction n generalizing s with
  | zero => exact ⟨Or.inl rfl, by simp [frames_zero], rfl⟩
  | succ n ih =>
    rw [frames_succ, faulted_execute_disabled s hflag hoff]
    simp only [Bool.false_eq_true, if_false]
    rcases execute_disabled_cases s hflag hoff with h | ⟨rm, pDst, hrm, hout, h⟩
    · rw [h]
      simpa using ih s hflag hoff
    · rw [h]
      obtain ⟨ih1, ih2, ih3⟩ := ih (s.bindInputs rm) hflag hoff
      refine ⟨Or.inr ⟨rm, pDst, hrm, hout, ?_⟩, ?_, ?_⟩
      · rcases ih1 with e | ⟨rm2, _, hrm2, _, e⟩
        · exact e
        · have : rm2 = rm := by
            have h5 : (s.bindInputs rm).mpResManager = some rm := hrm
            rw [h5] at hrm2
            exact (Option.some.inj hrm2).symm
          rw [e, this]
          rfl
      · intro u hu c hc
        simp only [List.mem_append, List.mem_singleton, List.cons_append, List.nil_append,
          List.mem_cons] at hc
        rcases hc with rfl | hc
        · exact combineDraw_writes _ rm u hu
        · exact ih2 u hu c hc
      · simp only [List.cons_append, List.nil_append, faulted_cons, ih3]
        rfl

/-! ## Frames that run to completion -/

/-- Whether a filter-enabled execution of an allocated pass faults: when the feedback
capture reaches the last iteration (at least one iteration, feedback tap at or beyond the
last index), or when the manager has no linear-depth texture for the final copy. -/
theorem faulted_execute_enabled (s : SVGFPass) (rm : ResourceManager) (pDst : Tex)
    (hrm : s.mpResManager = some rm) (hout : rm.getTexture s.mOutTexName = some pDst)
    (hon : s.mFilterEnabled = true) (hs : s.Allocated) :
    faulted s.execute.2 =
      (decide (1 ≤ s.mFilterIterations ∧ s.mFilterIterations - 1 ≤ s.mFeedbackTap)
        || (rm.getTexture "SVGF_LinearZ").isNone) := by
  obtain ⟨p0, p1, fp, cur, prv, out, e0, e1, e2, e3, e4, e5, l0, l1, l2, l3, l4, l5, _⟩ :=
    allocated_exists s hs
  obtain ⟨z, hz⟩ := allocated_prevLinearZ s hs
  obtain ⟨hN, hT, _⟩ := frameStart_config s rm
  have hfs := frameStart_allocated s rm hs
  have hloop := faulted_fullLoop (s.frameStart rm) hfs
  rw [hN, hT] at hloop
  have ho : getColorTexture s.mpOutputFbo 0 = some (Tex.attachment out.id 0) := by
    simp [e5, getColorTexture, l5]
  rw [execute_enabled_cmds s rm pDst hrm hout hon hs, faulted_append, faulted_cons,
    faulted_cons, faulted_append, faulted_clearCmds_of_allocated s hs, hloop, ho, hz]
  by_cases hbad : 1 ≤ s.mFilterIterations ∧ s.mFilterIterations - 1 ≤ s.mFeedbackTap
  · rw [if_pos hbad, decide_eq_true hbad]
    rfl
  · rw [if_neg hbad, decide_eq_false hbad, faulted_append, faulted_append, faulted_append,
      faulted_fallbackCapture _ hfs]
    have hm : faulted (if s.mFilterIterations ≤ 0 then
        [Cmd.draw (s.frameStart rm).modulationDraw] else []) = false := by
      split <;> rfl
    rw [hm]
    cases rm.getTexture "SVGF_LinearZ" <;> rfl

/-- The commands of a filter-enabled execution of an allocated pass that runs to
completion: everything up to the last draw, then the blit of the colour target of the
output framebuffer to the output texture, then the copy of linear depth into the
previous-depth texture. -/
theorem execute_completed_cmds (s : SVGFPass) (rm : ResourceManager) (pDst : Tex)
    (hrm : s.mpResManager = some rm) (hout : rm.getTexture s.mOutTexName = some pDst)
    (hon : s.mFilterEnabled = true) (hs : s.Allocated)
    (hok : faulted s.execute.2 = false) :
    ¬ (1 ≤ s.mFilterIterations ∧ s.mFilterIterations - 1 ≤ s.mFeedbackTap)
      ∧ ∃ o z p, getColorTexture s.mpOutputFbo 0 = some o
          ∧ rm.getTexture "SVGF_LinearZ" = some z ∧ s.mInputTex.prevLinearZ = some p
          ∧ s.execute.2 =
              (s.clearCmds ++
                (Cmd.draw (s.frameStart rm).reprojectionDraw ::
                  Cmd.draw (s.frameStart rm).varianceDraw ::
                    ((SVGFPass.atrousLoop s.mFilterIterations.toNat 0 (s.frameStart rm)).2 ++
                      ((s.frameStart rm).fallbackCapture ++
                        (if s.mFilterIterations ≤ 0 then
                          [Cmd.draw (s.frameStart rm).modulationDraw] else []))))) ++
                [Cmd.blit o pDst, Cmd.blit z (Tex.owned p)] := by
  obtain ⟨p0, p1, fp, cur, prv, out, e0, e1, e2, e3, e4, e5, l0, l1, l2, l3, l4, l5, _⟩ :=
    allocated_exists s hs
  obtain ⟨p, hp⟩ := allocated_prevLinearZ s hs
  rw [faulted_execute_enabled s rm pDst hrm hout hon hs, Bool.or_eq_false_iff,
    decide_eq_false_iff_not] at hok
  obtain ⟨hbad, hlz⟩ := hok
  obtain ⟨z, hz⟩ : ∃ z, rm.getTexture "SVGF_LinearZ" = some z := by
    cases h : rm.getTexture "SVGF_LinearZ" with
    | none => rw [h] at hlz; exact absurd hlz (by decide)
    | some z => exact ⟨z, rfl⟩
  have ho : getColorTexture s.mpOutputFbo 0 = some (Tex.attachment out.id 0) := by
    simp [e5, getColorTexture, l5]
  refine ⟨hbad, Tex.attachment out.id 0, z, p, ho, hz, hp, ?_⟩
  rw [execute_enabled_cmds s rm pDst hrm hout hon hs, if_neg hbad, ho, hz, hp]
  simp [blitCall]

/-! ## C1: filter disabled -/

/-- C1. Take a pass whose pending clear can run: no clear is pending, or the buffers
have been allocated by `resize`.  With the filter switched off and the output texture
present, `execute` runs to completion and issues exactly one draw, the combine-unfiltered
pass bound to the four raw inputs of the current frame and rendering into the output
texture, and no blit; the output texture then holds the result of that pass on the raw
inputs' contents.  Neither the commands' draw nor the output depends on the iteration
count, the feedback tap, the framebuffer pointers or what the pass's own buffers held:
any two such passes with the same channel names and resource manager, run on stores that
agree on the resource-manager textures, leave the same content in the output. -/
theorem execute_filter_disabled (s : SVGFPass) (rm : ResourceManager) (pDst : Tex)
    (hrm : s.mpResManager = some rm) (hout : rm.getTexture s.mOutTexName = some pDst)
    (hoff : s.mFilterEnabled = false)
    (hbuf : s.mNeedFboClear = false ∨ s.Allocated) :
    faulted s.execute.2 = false
      ∧ drawsOf s.execute.2 =
        [ { shader := Shader.combineUnfiltered
            textures :=
              [ ("gDirect", rm.getTexture s.mDirectInTexName),
                ("gIndirect", rm.getTexture s.mIndirectInTexName),
                ("gDirAlbedo", rm.getTexture "OutDirectAlbedo"),
                ("gIndirAlbedo", rm.getTexture "OutIndirectAlbedo") ]
            constants := []
            target := Target.managedFbo [some pDst] } ]
      ∧ blitsOf s.execute.2 = []
      ∧ (∀ σ : Store, runCmds s.execute.2 σ pDst =
          Val.shaded Shader.combineUnfiltered
            [ ("gDirect", σ.read (rm.getTexture s.mDirectInTexName)),
              ("gIndirect", σ.read (rm.getTexture s.mIndirectInTexName)),
              ("gDirAlbedo", σ.read (rm.getTexture "OutDirectAlbedo")),
              ("gIndirAlbedo", σ.read (rm.getTexture "OutIndirectAlbedo")) ] [] 0)
      ∧ (∀ (s2 : SVGFPass) (σ σ2 : Store),
          s2.mpResManager = some rm → s2.mFilterEnabled = false →
          (s2.mNeedFboClear = false ∨ s2.Allocated) →
          s2.mDirectInTexName = s.mDirectInTexName →
          s2.mIndirectInTexName = s.mIndirectInTexName →
          s2.mOutTexName = s.mOutTexName →
          (∀ name, σ2 (Tex.managed name) = σ (Tex.managed name)) →
          drawsOf s2.execute.2 = drawsOf s.execute.2 ∧
          runCmds s2.execute.2 σ2 pDst = runCmds s.execute.2 σ pDst) := by
  have hclear : ∀ t : SVGFPass, (t.mNeedFboClear = false ∨ t.Allocated) →
      faulted t.clearCmds = false := by
    intro t ht
    rcases ht with h | h
    · exact faulted_clearCmds_of_not_pending t h
    · exact faulted_clearCmds_of_allocated t h
  obtain ⟨hd, hb, hc⟩ := execute_disabled_draw s rm pDst hrm hout hoff (hclear s hbuf)
  refine ⟨?_, hd, hb, hc, ?_⟩
  · rw [execute_eq s rm pDst hrm hout (hclear s hbuf)]
    simp only [hoff, Bool.false_eq_true, if_false, faulted_append, hclear s hbuf]
    rfl
  intro s2 σ σ2 hrm2 hoff2 hbuf2 hdir hind hname hagree
  obtain ⟨hd2, _, hc2⟩ :=
    execute_disabled_draw s2 rm pDst hrm2 (hname ▸ hout) hoff2 (hclear s2 hbuf2)
  have hread : ∀ name, σ2.read (rm.getTexture name) = σ.read (rm.getTexture name) := by
    intro name
    unfold ResourceManager.getTexture
    split
    · simp [Store.read, hagree]
    · rfl
  refine ⟨?_, ?_⟩
  · rw [hd2, hd, hdir, hind]
  · rw [hc2, hc, hdir, hind]
    simp [hread]

theorem execute_filter_disabled_witness :
    (demoPass 4 1 false).mpResManager = some demoManager
      ∧ demoManager.getTexture (demoPass 4 1 false).mOutTexName = some (Tex.managed "Out")
      ∧ (demoPass 4 1 false).mFilterEnabled = false
      ∧ (demoPass 4 1 false).Allocated
      ∧ faulted (demoPass 4 1 false).execute.2 = false
      ∧ blitsOf (demoPass 4 1 false).execute.2 = [] :=
  ⟨rfl, by decide, rfl, by decide,
    (execute_filter_disabled (demoPass 4 1 false) demoManager (Tex.managed "Out")
      rfl (by decide) rfl (Or.inr (by decide))).1,
    (execute_filter_disabled (demoPass 4 1 false) demoManager (Tex.managed "Out")
      rfl (by decide) rfl (Or.inr (by decide))).2.2.1⟩

/-! ## C2: no output texture -/

/-- C2. When no resource manager has been set, or the output texture is not there,
`execute` returns at once: it issues no command at all (no stage, no clear, no copy) and
the object is unchanged, so the current/previous and ping-pong roles, the previous-depth
texture and the pending-clear flag are what they were; the store is untouched. -/
theorem execute_skipped (s : SVGFPass)
    (h : s.mpResManager = none ∨
      ∃ rm, s.mpResManager = some rm ∧ rm.getTexture s.mOutTexName = none) :
    s.execute = (s, [])
      ∧ s.execute.1.mNeedFboClear = s.mNeedFboClear
      ∧ s.execute.1.mpCurReprojFbo = s.mpCurReprojFbo
      ∧ s.execute.1.mpPrevReprojFbo = s.mpPrevReprojFbo
      ∧ s.execute.1.mpPingPongFbo0 = s.mpPingPongFbo0
      ∧ s.execute.1.mpPingPongFbo1 = s.mpPingPongFbo1
      ∧ s.execute.1.mInputTex.prevLinearZ = s.mInputTex.prevLinearZ
      ∧ ∀ σ : Store, runCmds s.execute.2 σ = σ := by
  have key : s.execute = (s, []) := by
    unfold SVGFPass.execute
    rcases h with h | ⟨rm, h1, h2⟩
    · simp [h]
    · simp [h1, h2]
  rw [key]
  exact ⟨rfl, rfl, rfl, rfl, rfl, rfl, rfl, fun _ => rfl⟩

theorem execute_skipped_witness :
    (starvedPass.mpResManager = none ∨
        ∃ rm, starvedPass.mpResManager = some rm ∧ rm.getTexture starvedPass.mOutTexName = none)
      ∧ starvedPass.execute = (starvedPass, []) :=
  ⟨Or.inr ⟨⟨["Direct", "Indirect"]⟩, rfl, by decide⟩,
    (execute_skipped starvedPass (Or.inr ⟨⟨["Direct", "Indirect"]⟩, rfl, by decide⟩)).1⟩

/-! ## C3: resize to an empty size -/

/-- C3. A `resize` with width 0 or height 0 returns the object unchanged: all six
framebuffer pointers and the previous-depth texture keep their allocation and the
pending-clear flag keeps its value. -/
theorem resize_empty (s : SVGFPass) (width height : Nat) (h : width = 0 ∨ height = 0) :
    s.resize width height = s := by
  unfold SVGFPass.resize
  rcases h with h | h <;> simp [h]

theorem resize_empty_witness :
    ((0 : Nat) = 0 ∨ (7 : Nat) = 0) ∧ (demoPass 4 1 true).resize 0 7 = demoPass 4 1 true :=
  ⟨Or.inl rfl, resize_empty (demoPass 4 1 true) 0 7 (Or.inl rfl)⟩

/-! ## C4: the clear after a resize -/

/-- C4, the claim as stated fails.  After `resize`, an execution with the filter off
leaves the colour target of the output framebuffer holding what it held before
(nothing cleared it), no clear command of a filter-enabled execution touches it either,
and the previous-depth texture is cleared to `vec4(0, 0, 0, 1)`, not to zero. -/
theorem clear_after_resize_counterexample :
    (demoPass 4 1 false).mNeedFboClear = true
      ∧ getColorTexture (demoPass 4 1 false).mpOutputFbo 0 = some (Tex.attachment 5 0)
      ∧ runCmds (demoPass 4 1 false).execute.2 Store.initial (Tex.attachment 5 0)
          = Val.prior (Tex.attachment 5 0)
      ∧ (∀ c ∈ (demoPass 4 1 true).execute.2,
          c.isClear = true → c.writes (Tex.attachment 5 0) = false)
      ∧ (demoPass 4 1 true).mInputTex.prevLinearZ
          = some ⟨6, 4, 4, ResourceFormat.RGBA32Float⟩
      ∧ runCmds (demoPass 4 1 true).clearCmds Store.initial
          (Tex.owned ⟨6, 4, 4, ResourceFormat.RGBA32Float⟩)
          = Val.cleared ⟨F32.zero, F32.zero, F32.zero, F32.one⟩
      ∧ (⟨F32.zero, F32.zero, F32.zero, F32.one⟩ : Vec4) ≠ Vec4.zero := by
  refine ⟨rfl, rfl, rfl, by decide, rfl, rfl, by decide⟩

/-- C4, amended.  After a `resize` with positive dimensions the six framebuffers are
freshly allocated and distinct, and the next execution that finds its output texture
starts with the commands of `clearFbos`, all of them clears, followed by commands none
of which is a clear.  Once those clears have run, every colour target of the two
ping-pong framebuffers, the filtered-past framebuffer and the two reprojection
framebuffers holds `vec4(0)`, the previous-depth texture holds `vec4(0, 0, 0, 1)`, and
the colour target of the output framebuffer is untouched.  The output framebuffer is
nevertheless written before it is read: every texture a command of that execution reads
is a resource-manager texture or has been written (cleared, drawn into or blitted into)
by an earlier command of the same execution.  The execution resets the pending-clear
flag. -/
theorem execute_after_resize_clears (s : SVGFPass) (w h : Nat) (rm : ResourceManager)
    (pDst : Tex) (hw : 0 < w) (hh : 0 < h) (hrm : s.mpResManager = some rm)
    (hout : rm.getTexture s.mOutTexName = some pDst) :
    (s.resize w h).Allocated
      ∧ (∃ rest, (s.resize w h).execute.2 = (s.resize w h).clearFbos.2 ++ rest
          ∧ (∀ c ∈ (s.resize w h).clearFbos.2, c.isClear = true)
          ∧ (∀ c ∈ rest, c.isClear = false))
      ∧ (∀ (σ : Store) (u : Tex),
          isTarget (s.resize w h).mpPingPongFbo0 u = true
            ∨ isTarget (s.resize w h).mpPingPongFbo1 u = true
            ∨ isTarget (s.resize w h).mpFilteredPastFbo u = true
            ∨ isTarget (s.resize w h).mpCurReprojFbo u = true
            ∨ isTarget (s.resize w h).mpPrevReprojFbo u = true →
          runCmds (s.resize w h).clearFbos.2 σ u = Val.cleared Vec4.zero)
      ∧ (∀ (σ : Store) (p : Texture2D), (s.resize w h).mInputTex.prevLinearZ = some p →
          runCmds (s.resize w h).clearFbos.2 σ (Tex.owned p)
            = Val.cleared ⟨F32.zero, F32.zero, F32.zero, F32.one⟩)
      ∧ (∀ (σ : Store) (u : Tex), isTarget (s.resize w h).mpOutputFbo u = true →
          runCmds (s.resize w h).clearFbos.2 σ u = σ u)
      ∧ freshReads (fun _ => false) (s.resize w h).execute.2 = true
      ∧ (s.resize w h).execute.1.mNeedFboClear = false := by
  obtain ⟨hr1, hr2, _, hr4⟩ := resize_fields s w h hw hh
  have hrm2 : (s.resize w h).mpResManager = some rm := by rw [hr1, hrm]
  have hout2 : rm.getTexture (s.resize w h).mOutTexName = some pDst := by rw [hr2, hout]
  have halloc := resize_allocated s w h hw hh
  refine ⟨halloc, ?_, ?_, ?_, ?_, freshReads_execute _ rm pDst hrm2 hout2 halloc hr4, ?_⟩
  · obtain ⟨rest, h1, h2⟩ := execute_cmds_split (s.resize w h) rm pDst hrm2 hout2 halloc
    refine ⟨rest, ?_, (clearFbos_all_clear _ halloc).2, h2⟩
    rw [h1]
    simp [SVGFPass.clearCmds, hr4]
  · intro σ u hu
    apply clearFbos_zero
    tauto
  · intro σ p hp
    exact clearFbos_prevLinearZ _ σ p hp
  · intro σ u hu
    exact clearFbos_output _ halloc σ u hu
  · exact execute_needClear _ rm pDst hrm2 hout2 halloc

theorem execute_after_resize_clears_witness :
    (0 < 4) ∧ (0 < 4)
      ∧ ((SVGFPass.create "Direct" "Indirect" "Out").setup demoManager).mpResManager
          = some demoManager
      ∧ demoManager.getTexture
          ((SVGFPass.create "Direct" "Indirect" "Out").setup demoManager).mOutTexName
          = some (Tex.managed "Out")
      ∧ (((SVGFPass.create "Direct" "Indirect" "Out").setup demoManager).resize 4 4).execute.1.mNeedFboClear
          = false :=
  ⟨by decide, by decide, rfl, by decide,
    (execute_after_resize_clears ((SVGFPass.create "Direct" "Indirect" "Out").setup demoManager)
      4 4 demoManager (Tex.managed "Out") (by decide) (by decide) rfl (by decide)).2.2.2.2.2.2⟩

/-! ## C5: the fallback capture -/

/-- C5, the claim as stated fails.  With one iteration and feedback tap 1 (out of
range, `tap >= N`) the guard of the fallback capture (`tap < 0` or `N <= 0`) is false:
no command of the frame copies from the current-reprojection framebuffer (allocation 3).
The one blit the frame issues copies colour target 0 of the output framebuffer
(allocation 5) into colour target 0 of the filtered-past framebuffer (allocation 2),
which then holds an output of the wavelet shader; the frame stops right after it, and
colour target 1 of the filtered-past framebuffer still holds the colour of the pending
clear. -/
theorem feedback_fallback_counterexample :
    (demoPass 1 1 true).mFilterIterations ≤ (demoPass 1 1 true).mFeedbackTap
      ∧ fboId (demoPass 1 1 true).mpCurReprojFbo = some 3
      ∧ fboId (demoPass 1 1 true).mpFilteredPastFbo = some 2
      ∧ fboId (demoPass 1 1 true).mpOutputFbo = some 5
      ∧ blitsOf (demoPass 1 1 true).execute.2 =
          [ (some (Tex.attachment 5 0), some (Tex.attachment 2 0)) ]
      ∧ (demoPass 1 1 true).execute.2.getLast? = some Cmd.fault
      ∧ (∃ ins cs, runCmds (demoPass 1 1 true).execute.2 Store.initial (Tex.attachment 2 0)
          = Val.shaded Shader.atrous ins cs 0)
      ∧ runCmds (demoPass 1 1 true).execute.2 Store.initial (Tex.attachment 2 1)
          = Val.cleared Vec4.zero :=
  ⟨by decide, rfl, rfl, rfl, by decide, by decide, ⟨_, _, rfl⟩, rfl⟩

/-- C5, amended.  In a filter-enabled frame with the framebuffers allocated, when the
feedback tap is negative or the iteration count is not positive, the only blits into
the filtered-past framebuffer are the two of the fallback capture, from colour targets
0 and 1 of the current reprojection framebuffer (the other blits of the frame are the
one to the output texture and, when the manager has the depth texture, the depth copy),
and after the frame colour target `k` (0 or 1) of the filtered-past framebuffer holds
output `k` of this frame's reprojection draw, which is not an output of the wavelet
shader. -/
theorem feedback_fallback (s : SVGFPass) (rm : ResourceManager) (pDst : Tex)
    (hrm : s.mpResManager = some rm) (hout : rm.getTexture s.mOutTexName = some pDst)
    (hon : s.mFilterEnabled = true) (hs : s.Allocated)
    (hcfg : s.mFeedbackTap < 0 ∨ s.mFilterIterations ≤ 0) :
    blitsOf s.execute.2 =
        (getColorTexture s.mpCurReprojFbo 0, getColorTexture s.mpFilteredPastFbo 0) ::
        (getColorTexture s.mpCurReprojFbo 1, getColorTexture s.mpFilteredPastFbo 1) ::
        (getColorTexture s.mpOutputFbo 0, some pDst) ::
        ((rm.getTexture "SVGF_LinearZ").map
          (fun v => (some v, s.mInputTex.prevLinearZ.map Tex.owned))).toList
      ∧ ∀ (σ : Store) (k : Nat), k < 2 →
          ∃ g, s.mpFilteredPastFbo = some g
            ∧ runCmds s.execute.2 σ (Tex.attachment g.id k)
                = (s.frameStart rm).reprojectionDraw.output (runCmds s.clearCmds σ) k
            ∧ ∀ ins cs j, runCmds s.execute.2 σ (Tex.attachment g.id k)
                ≠ Val.shaded Shader.atrous ins cs j := by
  refine ⟨blitsOf_execute_fallback s rm pDst hrm hout hon hs hcfg, ?_⟩
  · intro σ k hk
    obtain ⟨g, hg, hval⟩ := filteredPast_after_fallback s rm pDst hrm hout hon hs hcfg σ k hk
    refine ⟨g, hg, hval, ?_⟩
    intro ins cs j
    rw [hval]
    simp [Draw.output, SVGFPass.reprojectionDraw]

theorem feedback_fallback_witness :
    (demoPass 4 (-1) true).mpResManager = some demoManager
      ∧ demoManager.getTexture (demoPass 4 (-1) true).mOutTexName = some (Tex.managed "Out")
      ∧ (demoPass 4 (-1) true).mFilterEnabled = true
      ∧ (demoPass 4 (-1) true).Allocated
      ∧ ((demoPass 4 (-1) true).mFeedbackTap < 0 ∨ (demoPass 4 (-1) true).mFilterIterations ≤ 0)
      ∧ blitsOf (demoPass 4 (-1) true).execute.2 =
        (getColorTexture (demoPass 4 (-1) true).mpCurReprojFbo 0,
            getColorTexture (demoPass 4 (-1) true).mpFilteredPastFbo 0) ::
        (getColorTexture (demoPass 4 (-1) true).mpCurReprojFbo 1,
            getColorTexture (demoPass 4 (-1) true).mpFilteredPastFbo 1) ::
        (getColorTexture (demoPass 4 (-1) true).mpOutputFbo 0, some (Tex.managed "Out")) ::
        ((demoManager.getTexture "SVGF_LinearZ").map
          (fun v => (some v, (demoPass 4 (-1) true).mInputTex.prevLinearZ.map Tex.owned))).toList :=
  ⟨rfl, by decide, rfl, by decide, by decide,
    (feedback_fallback (demoPass 4 (-1) true) demoManager (Tex.managed "Out")
      rfl (by decide) rfl (by decide) (by decide)).1⟩

/-! ## C6: capture at the feedback tap -/

/-- C6, the claim as stated fails.  With two iterations and feedback tap 1 (in range,
`0 <= tap < N`), iteration 1 is the last one and renders into the output framebuffer
(allocation 5), which has a single colour target.  The capture copies that one colour
target into colour target 0 of the filtered-past framebuffer (allocation 2) and the
frame stops at the missing second one: no command copies anything into colour target 1
of the filtered-past framebuffer, which still holds the colour of the pending clear,
not an illumination written by iteration 1. -/
theorem feedback_at_tap_counterexample :
    (0 ≤ (demoPass 2 1 true).mFeedbackTap
        ∧ (demoPass 2 1 true).mFeedbackTap < (demoPass 2 1 true).mFilterIterations)
      ∧ ((atrousDrawsOf (demoPass 2 1 true).execute.2)[1]?).map Draw.target
          = some (Target.fbo (demoPass 2 1 true).mpOutputFbo)
      ∧ fboId (demoPass 2 1 true).mpOutputFbo = some 5
      ∧ fboColors (demoPass 2 1 true).mpOutputFbo = 1
      ∧ fboId (demoPass 2 1 true).mpFilteredPastFbo = some 2
      ∧ blitsOf (demoPass 2 1 true).execute.2 =
          [ (some (Tex.attachment 5 0), some (Tex.attachment 2 0)) ]
      ∧ (demoPass 2 1 true).execute.2.getLast? = some Cmd.fault
      ∧ runCmds (demoPass 2 1 true).execute.2 Store.initial (Tex.attachment 2 1)
          = Val.cleared Vec4.zero :=
  ⟨by decide, by decide, rfl, rfl, rfl, by decide, by decide, rfl⟩

/-- C6, amended.  In a filter-enabled frame with the framebuffers allocated and a
feedback tap `t` that names an iteration before the last one (`0 <= t`, `t + 1 < N`),
let `d` be wavelet draw number `t` of the frame.  It renders into the second ping-pong
framebuffer of that moment; the only blits into the filtered-past framebuffer are the
two issued right after it, from colour targets 0 and 1 of that render target (the other
blits of the frame are the one to the output texture and, when the manager has the depth
texture, the depth copy); and after the frame colour target `k` (0 or 1) of the
filtered-past framebuffer holds output `k` of `d`, computed from the store as the
commands before `d` left it. -/
theorem feedback_at_tap (s : SVGFPass) (rm : ResourceManager) (pDst : Tex)
    (hrm : s.mpResManager = some rm) (hout : rm.getTexture s.mOutTexName = some pDst)
    (hon : s.mFilterEnabled = true) (hs : s.Allocated) (t : Nat)
    (ht : s.mFeedbackTap = (t : Int)) (hlt : (t : Int) + 1 < s.mFilterIterations) :
    ∃ (d : Draw) (pre post : List Cmd),
      s.execute.2 = pre ++ Cmd.draw d :: post
        ∧ (atrousDrawsOf pre).length = t
        ∧ (atrousDrawsOf s.execute.2)[t]? = some d
        ∧ d.target = Target.fbo (s.afterSwaps t).mpPingPongFbo1
        ∧ blitsOf s.execute.2 =
            (getColorTexture (s.afterSwaps t).mpPingPongFbo1 0,
                getColorTexture s.mpFilteredPastFbo 0) ::
            (getColorTexture (s.afterSwaps t).mpPingPongFbo1 1,
                getColorTexture s.mpFilteredPastFbo 1) ::
            (getColorTexture s.mpOutputFbo 0, some pDst) ::
            ((rm.getTexture "SVGF_LinearZ").map
              (fun v => (some v, s.mInputTex.prevLinearZ.map Tex.owned))).toList
        ∧ ∀ (σ : Store) (k : Nat), k < 2 →
            ∃ g, s.mpFilteredPastFbo = some g
              ∧ runCmds s.execute.2 σ (Tex.attachment g.id k) = d.output (runCmds pre σ) k := by
  obtain ⟨hN, hT, hp0, hp1, hfp, hcur, hprev, hou, hz⟩ := frameStart_config s rm
  obtain ⟨aN, aT, afp, acur, aprev, aout, ain⟩ := afterSwaps_config (s.frameStart rm) t
  obtain ⟨_, hpp1⟩ := afterSwaps_frameStart_pingPong s rm t
  have htN : (t : Int) < s.mFilterIterations := by omega
  have htarget : ((s.frameStart rm).afterSwaps t).curTargetFbo (t : Int)
      = (s.afterSwaps t).mpPingPongFbo1 := by
    simp only [SVGFPass.curTargetFbo, aN, hN, hpp1]
    rw [if_neg (by omega)]
  refine ⟨((s.frameStart rm).afterSwaps t).atrousDraw t, _, _,
    execute_enabled_split s rm pDst hrm hout hon hs t htN (by omega),
    atrousDrawsOf_prefix s rm hs t (by omega), ?_, ?_, ?_, ?_⟩
  · rw [atrousDrawsOf_execute s rm pDst hrm hout hon hs]
    have : t < s.mFilterIterations.toNat := by omega
    simp [List.getElem?_map, List.getElem?_range this]
  · simp only [SVGFPass.atrousDraw, htarget]
  · exact blitsOf_execute_tap s rm pDst hrm hout hon hs t ht hlt
  · intro σ k hk
    exact filteredPast_after_tap s rm pDst hrm hout hon hs t ht hlt σ k hk

theorem feedback_at_tap_witness :
    (demoPass 4 1 true).mpResManager = some demoManager
      ∧ demoManager.getTexture (demoPass 4 1 true).mOutTexName = some (Tex.managed "Out")
      ∧ (demoPass 4 1 true).mFilterEnabled = true
      ∧ (demoPass 4 1 true).Allocated
      ∧ (demoPass 4 1 true).mFeedbackTap = ((1 : Nat) : Int)
      ∧ ((1 : Nat) : Int) + 1 < (demoPass 4 1 true).mFilterIterations
      ∧ blitsOf (demoPass 4 1 true).execute.2 =
            (getColorTexture ((demoPass 4 1 true).afterSwaps 1).mpPingPongFbo1 0,
              getColorTexture (demoPass 4 1 true).mpFilteredPastFbo 0) ::
            (getColorTexture ((demoPass 4 1 true).afterSwaps 1).mpPingPongFbo1 1,
              getColorTexture (demoPass 4 1 true).mpFilteredPastFbo 1) ::
            (getColorTexture (demoPass 4 1 true).mpOutputFbo 0, some (Tex.managed "Out")) ::
            ((demoManager.getTexture "SVGF_LinearZ").map
              (fun v => (some v, (demoPass 4 1 true).mInputTex.prevLinearZ.map Tex.owned))).toList :=
  ⟨rfl, by decide, rfl, by decide, by decide, by decide,
    (feedback_at_tap (demoPass 4 1 true) demoManager (Tex.managed "Out")
      rfl (by decide) rfl (by decide) 1 (by decide) (by decide)).elim
      (fun _ h => h.elim (fun _ h => h.elim (fun _ h => h.2.2.2.2.1)))⟩

/-! ## C7: the captured illumination is pre-modulation -/

/-- What `renderGui` leaves in the two integer settings, whatever was entered: an
iteration count within 2 .. 10 and a feedback tap within -1 .. count - 2. -/
theorem renderGui_bounds (s : SVGFPass) (enabled : Bool) (iterations tap : Int)
    (phiColor alpha momentsAlpha : F32) :
    2 ≤ (s.renderGui enabled iterations tap phiColor alpha momentsAlpha).mFilterIterations
      ∧ (s.renderGui enabled iterations tap phiColor alpha momentsAlpha).mFilterIterations ≤ 10
      ∧ -1 ≤ (s.renderGui enabled iterations tap phiColor alpha momentsAlpha).mFeedbackTap
      ∧ (s.renderGui enabled iterations tap phiColor alpha momentsAlpha).mFeedbackTap
          ≤ (s.renderGui enabled iterations tap phiColor alpha momentsAlpha).mFilterIterations
              - 2 := by
  simp only [SVGFPass.renderGui, clampInt]
  omega

/-- C7, the claim as stated fails.  With four iterations and feedback tap 3 the capture
test `i == min(tap, N - 1)` holds at the last iteration, which runs with modulation on
and renders into the single-target output framebuffer (allocation 5).  The one blit into
the filtered-past framebuffer (allocation 2) copies colour target 0 of that framebuffer,
so colour target 0 of the filtered-past framebuffer holds an output of the wavelet
shader run with `gPerformModulation` set; the frame stops at the missing second colour
target. -/
theorem capture_premodulation_counterexample :
    1 ≤ (demoPass 4 3 true).mFilterIterations
      ∧ fboId (demoPass 4 3 true).mpOutputFbo = some 5
      ∧ fboColors (demoPass 4 3 true).mpOutputFbo = 1
      ∧ fboId (demoPass 4 3 true).mpFilteredPastFbo = some 2
      ∧ ((atrousDrawsOf (demoPass 4 3 true).execute.2)[3]?).map
            (fun d => (d.target, d.performModulation))
          = some (Target.fbo (demoPass 4 3 true).mpOutputFbo, some (Const.bool true))
      ∧ blitsOf (demoPass 4 3 true).execute.2 =
          [ (some (Tex.attachment 5 0), some (Tex.attachment 2 0)) ]
      ∧ (demoPass 4 3 true).execute.2.getLast? = some Cmd.fault
      ∧ (∃ ins cs, runCmds (demoPass 4 3 true).execute.2 Store.initial (Tex.attachment 2 0)
            = Val.shaded Shader.atrous ins cs 0
          ∧ cs.lookup "gPerformModulation" = some (Const.bool true)) :=
  ⟨by decide, rfl, rfl, rfl, by decide, by decide, by decide, ⟨_, _, rfl, by decide⟩⟩

/-- C7, amended.  `renderGui`, the only writer of the two settings, keeps the iteration
count within 2 .. 10 and the feedback tap within -1 .. count - 2.  In a filter-enabled
frame with the framebuffers allocated and a feedback tap of at most the iteration count
minus 2 (counts below 1 included), the illumination captured into the filtered-past
framebuffer is pre-modulation: every blit into the filtered-past framebuffer reads a
texture that is not a colour target of the output framebuffer; the wavelet draws with
`gPerformModulation` set are exactly those that render into the output framebuffer, and
the draw at the feedback tap is not one of them; and after the frame colour targets 0
and 1 of the filtered-past framebuffer hold an output of the reprojection shader or of
the wavelet shader run with `gPerformModulation` off. -/
theorem capture_before_modulation (s : SVGFPass) (rm : ResourceManager) (pDst : Tex)
    (hrm : s.mpResManager = some rm) (hout : rm.getTexture s.mOutTexName = some pDst)
    (hon : s.mFilterEnabled = true) (hs : s.Allocated)
    (htap : s.mFeedbackTap ≤ s.mFilterIterations - 2) :
    (∀ enabled iterations tap phiColor alpha momentsAlpha,
        1 ≤ (s.renderGui enabled iterations tap phiColor alpha momentsAlpha).mFilterIterations
          ∧ (s.renderGui enabled iterations tap phiColor alpha momentsAlpha).mFeedbackTap
              ≤ (s.renderGui enabled iterations tap phiColor alpha
                  momentsAlpha).mFilterIterations - 2)
      ∧ (∀ b ∈ blitsOf s.execute.2,
          (∃ u, b.2 = some u ∧ isTarget s.mpFilteredPastFbo u = true) →
          ∃ v, b.1 = some v ∧ isTarget s.mpOutputFbo v = false)
      ∧ (∀ i : Nat, (i : Int) < s.mFilterIterations →
          (atrousDrawsOf s.execute.2)[i]? = some (s.iterationDraw rm i)
            ∧ ((s.iterationDraw rm i).performModulation = some (Const.bool true)
                ↔ (s.iterationDraw rm i).target = Target.fbo s.mpOutputFbo)
            ∧ ((i : Int) = s.mFeedbackTap →
                (s.iterationDraw rm i).performModulation = some (Const.bool false)))
      ∧ (∀ (σ : Store) (k : Nat), k < 2 →
          ∃ g, s.mpFilteredPastFbo = some g
            ∧ ∃ sh ins cs, runCmds s.execute.2 σ (Tex.attachment g.id k)
                  = Val.shaded sh ins cs k
                ∧ (sh = Shader.reproject
                    ∨ (sh = Shader.atrous
                        ∧ cs.lookup "gPerformModulation" = some (Const.bool false)))) := by
  have hpre := capture_premodulation s rm pDst hrm hout hon hs (by omega)
  refine ⟨?_, hpre.1, ?_, hpre.2⟩
  · intro e n t a b c
    obtain ⟨h1, _, _, h4⟩ := renderGui_bounds s e n t a b c
    exact ⟨by omega, h4⟩
  · intro i hi
    obtain ⟨hN, _⟩ := frameStart_config s rm
    obtain ⟨aN, _⟩ := afterSwaps_config (s.frameStart rm) i
    obtain ⟨_, _, b3⟩ := iterationDraw_bindings s rm i
    have hmod : (s.iterationDraw rm i).performModulation
        = some (Const.bool (decide ((i : Int) = s.mFilterIterations - 1))) := by
      simp only [SVGFPass.iterationDraw, atrousDraw_performModulation, aN, hN]
    refine ⟨atrousDrawsOf_getElem s rm pDst hrm hout hon hs i hi, ?_, ?_⟩
    · rw [hmod, b3]
      by_cases hl : (i : Int) = s.mFilterIterations - 1
      · simp [hl]
      · obtain ⟨_, _, _, _, d0o, _, _, _, d1o, _⟩ := allocated_distinct s hs
        have hne : (s.afterSwaps i).mpPingPongFbo1 ≠ s.mpOutputFbo := by
          rcases afterSwaps_pingPong s i with ⟨_, h⟩ | ⟨_, h⟩ <;> rw [h] <;> intro e
          · exact d1o (by rw [e])
          · exact d0o (by rw [e])
        simp [hl, hne]
    · intro hit
      rw [hmod]
      have hl : ¬ ((i : Int) = s.mFilterIterations - 1) := by omega
      simp [hl]

theorem capture_before_modulation_witness :
    (demoPass 4 1 true).mpResManager = some demoManager
      ∧ demoManager.getTexture (demoPass 4 1 true).mOutTexName = some (Tex.managed "Out")
      ∧ (demoPass 4 1 true).mFilterEnabled = true
      ∧ (demoPass 4 1 true).Allocated
      ∧ (demoPass 4 1 true).mFeedbackTap ≤ (demoPass 4 1 true).mFilterIterations - 2
      ∧ ((demoPass 4 1 true).iterationDraw demoManager 1).performModulation
          = some (Const.bool false) :=
  ⟨rfl, by decide, rfl, by decide, by decide,
    ((capture_before_modulation (demoPass 4 1 true) demoManager (Tex.managed "Out")
      rfl (by decide) rfl (by decide) (by decide)).2.2.1 1 (by decide)).2.2 (by decide)⟩

/-! ## C8: which iteration modulates -/

/-- C8, the claim as stated fails.  With the default configuration (4 iterations,
feedback tap 1) the iteration at the tap index, iteration 1, runs with modulation off,
and it is iteration 3 that modulates. -/
theorem modulation_at_tap_counterexample :
    (atrousDrawsOf (demoPass 4 1 true).execute.2).map Draw.performModulation =
      [some (Const.bool false), some (Const.bool false), some (Const.bool false),
        some (Const.bool true)] := by
  decide

/-- C8, amended.  A filter-enabled execution with the framebuffers allocated issues
exactly `mFilterIterations` wavelet draws (none when the count is not positive), and
wavelet draw number `i` has
`gPerformModulation` set exactly when `i` is the last index `mFilterIterations - 1`,
whatever the feedback tap; the modulating draw renders into the output framebuffer and
every other one into the second ping-pong framebuffer of that moment. -/
theorem modulation_in_last_iteration (s : SVGFPass) (rm : ResourceManager) (pDst : Tex)
    (hrm : s.mpResManager = some rm) (hout : rm.getTexture s.mOutTexName = some pDst)
    (hon : s.mFilterEnabled = true) (hs : s.Allocated) :
    (atrousDrawsOf s.execute.2).length = s.mFilterIterations.toNat
      ∧ ∀ i : Nat, (i : Int) < s.mFilterIterations →
          ((atrousDrawsOf s.execute.2)[i]?).map Draw.performModulation =
            some (some (Const.bool (decide ((i : Int) = s.mFilterIterations - 1))))
          ∧ ((atrousDrawsOf s.execute.2)[i]?).map Draw.target =
            some (Target.fbo
              (if (i : Int) = s.mFilterIterations - 1 then s.mpOutputFbo
               else (s.afterSwaps i).mpPingPongFbo1)) := by
  rw [atrousDrawsOf_execute s rm pDst hrm hout hon hs]
  refine ⟨by simp, ?_⟩
  intro i hi
  have hlt : i < s.mFilterIterations.toNat := by omega
  obtain ⟨hN, _, hp0, hp1, _, _, _, hout2, _⟩ := frameStart_config s rm
  have hpp : ((s.frameStart rm).afterSwaps i).mpPingPongFbo1 = (s.afterSwaps i).mpPingPongFbo1 := by
    unfold SVGFPass.afterSwaps
    split <;> simp [SVGFPass.swapPingPong, hp0, hp1]
  simp only [List.getElem?_map, List.getElem?_range hlt, Option.map_some', zero_add]
  refine ⟨?_, ?_⟩
  · simp [Draw.performModulation, SVGFPass.atrousDraw, List.lookup,
      (afterSwaps_config (s.frameStart rm) i).1, hN]
  · simp only [SVGFPass.atrousDraw, SVGFPass.curTargetFbo,
      (afterSwaps_config (s.frameStart rm) i).1, hN,
      (afterSwaps_config (s.frameStart rm) i).2.2.2.2.2.1, hout2, hpp]

theorem modulation_in_last_iteration_witness :
    (demoPass 4 1 true).mpResManager = some demoManager
      ∧ demoManager.getTexture (demoPass 4 1 true).mOutTexName = some (Tex.managed "Out")
      ∧ (demoPass 4 1 true).mFilterEnabled = true
      ∧ (demoPass 4 1 true).Allocated
      ∧ (atrousDrawsOf (demoPass 4 1 true).execute.2).length
          = (demoPass 4 1 true).mFilterIterations.toNat :=
  ⟨rfl, by decide, rfl, by decide,
    (modulation_in_last_iteration (demoPass 4 1 true) demoManager (Tex.managed "Out")
      rfl (by decide) rfl (by decide)).1⟩

/-! ## C9: the sample spacing -/

/-- C9, the claim as stated fails.  With 32 iterations the spacing handed to iteration
31 is the 32-bit value of `1 << 31`, which is negative, not `2 ^ 31`. -/
theorem step_size_counterexample :
    ((drawsOf (demoPass 32 (-1) true).computeAtrousDecomposition.2)[31]?).map Draw.stepSize
        = some (some (Const.int (-2147483648)))
      ∧ ((drawsOf (demoPass 32 (-1) true).computeAtrousDecomposition.2)[31]?).map Draw.stepSize
        ≠ some (some (Const.int (2 ^ 31))) := by
  decide

/-- C9, amended.  With the framebuffers allocated, for every iteration count and every
index `i` below it with `i <= 30`, the `gStepSize` that `computeAtrousDecomposition`
hands to wavelet draw `i` is `2 ^ i`; and when the next index `i + 1` is also below the count and at most 30, the
spacing handed to draw `i + 1` is twice that. -/
theorem step_size_power_of_two (s : SVGFPass) (hs : s.Allocated) (i : Nat)
    (hi : (i : Int) < s.mFilterIterations) (h30 : i ≤ 30) :
    ((drawsOf s.computeAtrousDecomposition.2)[i]?).map Draw.stepSize
        = some (some (Const.int (2 ^ i)))
      ∧ (((i + 1 : Nat) : Int) < s.mFilterIterations → i + 1 ≤ 30 →
          ((drawsOf s.computeAtrousDecomposition.2)[i + 1]?).map Draw.stepSize
            = some (some (Const.int (2 * 2 ^ i)))) := by
  have key : ∀ j : Nat, (j : Int) < s.mFilterIterations → j ≤ 30 →
      ((drawsOf s.computeAtrousDecomposition.2)[j]?).map Draw.stepSize
        = some (some (Const.int (2 ^ j))) := by
    intro j hj hj30
    have hlt : j < s.mFilterIterations.toNat := by omega
    rw [drawsOf_computeAtrousDecomposition s hs]
    simp only [List.getElem?_map, List.getElem?_range hlt, Option.map_some', zero_add]
    simp [Draw.stepSize, SVGFPass.atrousDraw, List.lookup, shiftLeftOne_eq j hj30]
  refine ⟨key i hi h30, ?_⟩
  intro h1 h2
  rw [key (i + 1) h1 h2, pow_succ, mul_comm]

theorem step_size_power_of_two_witness :
    (demoPass 4 1 true).Allocated
      ∧ ((3 : Nat) : Int) < (demoPass 4 1 true).mFilterIterations ∧ (3 : Nat) ≤ 30
      ∧ ((drawsOf (demoPass 4 1 true).computeAtrousDecomposition.2)[3]?).map Draw.stepSize
          = some (some (Const.int (2 ^ 3))) :=
  ⟨by decide, by decide, by decide,
    (step_size_power_of_two (demoPass 4 1 true) (by decide) 3 (by decide) (by decide)).1⟩

/-! ## C10: the end-of-frame swap -/

/-- C10. Take a filter-enabled execution that finds the output texture, on a pass with
the framebuffers allocated, a feedback tap below the last iteration index (or no
iteration at all) and the linear-depth texture present.  The execution runs to
completion, and after it the current/previous reprojection pointers are exchanged: the framebuffer this frame's reprojection draw rendered into is
now "previous", the next frame's reprojection draw reads its moments and history length
(colour targets 2 and 3) from it and renders into the old "previous" framebuffer.  The
last command of the frame copies the linear-depth texture into the previous-depth
texture, which therefore holds what linear depth held at that point, and, unless the
output channel is the linear-depth texture itself, what it held when the frame began. -/
theorem execute_swaps_history (s : SVGFPass) (rm : ResourceManager) (pDst : Tex)
    (hrm : s.mpResManager = some rm) (hout : rm.getTexture s.mOutTexName = some pDst)
    (hon : s.mFilterEnabled = true) (hs : s.Allocated)
    (htap : ¬ (1 ≤ s.mFilterIterations ∧ s.mFilterIterations - 1 ≤ s.mFeedbackTap))
    (hdepth : (rm.getTexture "SVGF_LinearZ").isSome = true) :
    faulted s.execute.2 = false
      ∧ s.execute.1.mpCurReprojFbo = s.mpPrevReprojFbo
      ∧ s.execute.1.mpPrevReprojFbo = s.mpCurReprojFbo
      ∧ (drawsOf s.execute.2).head? = some (s.frameStart rm).reprojectionDraw
      ∧ (s.frameStart rm).reprojectionDraw.target = Target.fbo s.execute.1.mpPrevReprojFbo
      ∧ (∀ rm2 : ResourceManager,
          (s.execute.1.frameStart rm2).reprojectionDraw.target = Target.fbo s.mpPrevReprojFbo
            ∧ (s.execute.1.frameStart rm2).reprojectionDraw.textures.lookup "gPrevMoments"
                = some (getColorTexture s.mpCurReprojFbo 2)
            ∧ (s.execute.1.frameStart rm2).reprojectionDraw.textures.lookup "gHistoryLength"
                = some (getColorTexture s.mpCurReprojFbo 3))
      ∧ s.execute.1.mInputTex.prevLinearZ = s.mInputTex.prevLinearZ
      ∧ ∃ (pre : List Cmd) (z : Tex) (p : Texture2D),
          rm.getTexture "SVGF_LinearZ" = some z ∧ s.mInputTex.prevLinearZ = some p
            ∧ s.execute.2 = pre ++ [Cmd.blit z (Tex.owned p)]
            ∧ ∀ σ : Store,
                runCmds s.execute.2 σ (Tex.owned p) = runCmds pre σ z
                  ∧ (s.mOutTexName ≠ "SVGF_LinearZ" →
                      runCmds s.execute.2 σ (Tex.owned p) = σ z) := by
  have hdone : faulted s.execute.2 = false := by
    rw [faulted_execute_enabled s rm pDst hrm hout hon hs, decide_eq_false htap]
    cases h : rm.getTexture "SVGF_LinearZ" with
    | none => rw [h] at hdepth; exact absurd hdepth (by decide)
    | some z => rfl
  obtain ⟨hok, o, z, p, ho, hzz, hp, hE⟩ :=
    execute_completed_cmds s rm pDst hrm hout hon hs hdone
  have hst := execute_enabled_state s rm pDst hrm hout hon hs hok
  obtain ⟨hN, hT, hp0, hp1, hfp, hcur, hprev, hou, hz⟩ := frameStart_config s rm
  obtain ⟨_, _, _, acur, aprev, _, ain⟩ :=
    afterSwaps_config (s.frameStart rm) s.mFilterIterations.toNat
  refine ⟨hdone, by rw [hst], by rw [hst], ?_, ?_, ?_, ?_, ?_⟩
  · rw [drawsOf_execute_enabled s rm pDst hrm hout hon hs]
    rfl
  · rw [hst]
    simp only [SVGFPass.reprojectionDraw, hcur]
  · intro rm2
    obtain ⟨_, _, _, _, _, hcur2, hprev2, _, _⟩ := frameStart_config s.execute.1 rm2
    simp only [SVGFPass.reprojectionDraw, hcur2, hprev2, List.lookup]
    rw [hst]
    simp
  · rw [hst]
    simp only [ain, hz]
  · have hE2 : s.execute.2 =
        ((s.clearCmds ++
          (Cmd.draw (s.frameStart rm).reprojectionDraw ::
            Cmd.draw (s.frameStart rm).varianceDraw ::
              ((SVGFPass.atrousLoop s.mFilterIterations.toNat 0 (s.frameStart rm)).2 ++
                ((s.frameStart rm).fallbackCapture ++
                  (if s.mFilterIterations ≤ 0 then
                    [Cmd.draw (s.frameStart rm).modulationDraw] else []))))) ++
          [Cmd.blit o pDst]) ++ [Cmd.blit z (Tex.owned p)] := by
      rw [hE]
      simp
    refine ⟨_, z, p, hzz, hp, hE2, ?_⟩
    intro σ
    have hcopy : runCmds s.execute.2 σ (Tex.owned p) = runCmds ((s.clearCmds ++
          (Cmd.draw (s.frameStart rm).reprojectionDraw ::
            Cmd.draw (s.frameStart rm).varianceDraw ::
              ((SVGFPass.atrousLoop s.mFilterIterations.toNat 0 (s.frameStart rm)).2 ++
                ((s.frameStart rm).fallbackCapture ++
                  (if s.mFilterIterations ≤ 0 then
                    [Cmd.draw (s.frameStart rm).modulationDraw] else []))))) ++
          [Cmd.blit o pDst]) σ z := by
      rw [hE2, runCmds_append]
      simp [runCmds, Cmd.apply, Store.set]
    refine ⟨hcopy, ?_⟩
    intro hname
    rw [hcopy]
    apply runCmds_of_not_writes
    intro c hc
    have hmem : c ∈ s.execute.2 := by
      rw [hE2]
      exact List.mem_append_left _ hc
    have hzm : z = Tex.managed "SVGF_LinearZ" := by
      unfold ResourceManager.getTexture at hzz
      split at hzz
      · exact (Option.some.inj hzz).symm
      · simp at hzz
    have hdm : pDst = Tex.managed s.mOutTexName := by
      unfold ResourceManager.getTexture at hout
      split at hout
      · exact (Option.some.inj hout).symm
      · simp at hout
    cases hw : c.writes z with
    | false => rfl
    | true =>
      exfalso
      have := execute_enabled_writes s rm pDst hrm hout hon hs z c hmem hw
      rw [hzm, hdm] at this
      simp only [isTarget_managed, Bool.false_eq_true, false_or, hp, Option.map_some',
        Option.some.injEq, Tex.managed.injEq, reduceCtorEq] at this
      exact hname this.symm

theorem execute_swaps_history_witness :
    (demoPass 4 1 true).mpResManager = some demoManager
      ∧ demoManager.getTexture (demoPass 4 1 true).mOutTexName = some (Tex.managed "Out")
      ∧ (demoPass 4 1 true).mFilterEnabled = true
      ∧ (demoPass 4 1 true).Allocated
      ∧ ¬ (1 ≤ (demoPass 4 1 true).mFilterIterations
          ∧ (demoPass 4 1 true).mFilterIterations - 1 ≤ (demoPass 4 1 true).mFeedbackTap)
      ∧ (demoManager.getTexture "SVGF_LinearZ").isSome = true
      ∧ faulted (demoPass 4 1 true).execute.2 = false
      ∧ (demoPass 4 1 true).execute.1.mpCurReprojFbo = (demoPass 4 1 true).mpPrevReprojFbo
      ∧ (demoPass 4 1 true).execute.1.mpPrevReprojFbo = (demoPass 4 1 true).mpCurReprojFbo :=
  ⟨rfl, by decide, rfl, by decide, by decide, by decide,
    (execute_swaps_history (demoPass 4 1 true) demoManager (Tex.managed "Out")
      rfl (by decide) rfl (by decide) (by decide) (by decide)).1,
    (execute_swaps_history (demoPass 4 1 true) demoManager (Tex.managed "Out")
      rfl (by decide) rfl (by decide) (by decide) (by decide)).2.1,
    (execute_swaps_history (demoPass 4 1 true) demoManager (Tex.managed "Out")
      rfl (by decide) rfl (by decide) (by decide) (by decide)).2.2.1⟩

/-! ## C11: one modulating stage writes the output framebuffer -/

/-- C11. In a filter-enabled execution with the framebuffers allocated, whatever the
feedback tap, exactly one command writes the output framebuffer, and it is a modulating
draw that renders into it.  When the iteration count is not positive there is no wavelet
draw and exactly one draw of the standalone modulation pass, bound to colour targets 0
and 1 of the current reprojection framebuffer and rendering into the output framebuffer.
When the count is at least one there is no standalone modulation draw and exactly one
wavelet draw with `gPerformModulation` set, the last one, rendering into the output
framebuffer.  When the feedback tap is below the last iteration index (or there is no
iteration) the frame goes on to blit the colour target of the output framebuffer to the
output texture: every draw of the frame, and the one command that writes the output
framebuffer, come before that blit, and at most one command (the depth copy) follows it.
Otherwise the frame stops in the feedback capture and no blit to the output texture is
issued. -/
theorem output_written_by_one_modulating_draw (s : SVGFPass) (rm : ResourceManager)
    (pDst : Tex) (hrm : s.mpResManager = some rm)
    (hout : rm.getTexture s.mOutTexName = some pDst) (hon : s.mFilterEnabled = true)
    (hs : s.Allocated) :
    (∀ u, isTarget s.mpOutputFbo u = true →
        ∃ d, s.execute.2.filter (fun c => c.writes u) = [Cmd.draw d]
          ∧ d.modulates = true ∧ d.target = Target.fbo s.mpOutputFbo)
      ∧ (s.mFilterIterations ≤ 0 →
          atrousDrawsOf s.execute.2 = []
            ∧ ∃ d, (drawsOf s.execute.2).filter (fun d => decide (d.shader = Shader.modulate))
                  = [d]
                ∧ d.textures.lookup "gDirect" = some (getColorTexture s.mpCurReprojFbo 0)
                ∧ d.textures.lookup "gIndirect" = some (getColorTexture s.mpCurReprojFbo 1)
                ∧ d.target = Target.fbo s.mpOutputFbo)
      ∧ (1 ≤ s.mFilterIterations →
          (drawsOf s.execute.2).filter (fun d => decide (d.shader = Shader.modulate)) = []
            ∧ ∃ d, (atrousDrawsOf s.execute.2).filter
                    (fun d => decide (d.performModulation = some (Const.bool true))) = [d]
                ∧ (atrousDrawsOf s.execute.2)[s.mFilterIterations.toNat - 1]? = some d
                ∧ d.target = Target.fbo s.mpOutputFbo)
      ∧ (¬ (1 ≤ s.mFilterIterations ∧ s.mFilterIterations - 1 ≤ s.mFeedbackTap) →
          ∃ pre post o, getColorTexture s.mpOutputFbo 0 = some o
            ∧ s.execute.2 = pre ++ Cmd.blit o pDst :: post
            ∧ drawsOf pre = drawsOf s.execute.2
            ∧ post.length ≤ 1
            ∧ ∀ u, isTarget s.mpOutputFbo u = true →
                pre.filter (fun c => c.writes u) = s.execute.2.filter (fun c => c.writes u))
      ∧ ((1 ≤ s.mFilterIterations ∧ s.mFilterIterations - 1 ≤ s.mFeedbackTap) →
          faulted s.execute.2 = true ∧ ∀ b ∈ blitsOf s.execute.2, b.2 ≠ some pDst) := by
  obtain ⟨hN, hT, hp0, hp1, hfp, hcur, hprev, hou, hz⟩ := frameStart_config s rm
  obtain ⟨p0, p1, fp, cur, prv, out, e0, e1, e2, e3, e4, e5, l0, l1, l2, l3, l4, l5, _⟩ :=
    allocated_exists s hs
  have hdraws := drawsOf_execute_enabled s rm pDst hrm hout hon hs
  have hmodfilter : ((List.range s.mFilterIterations.toNat).map
      (fun j => ((s.frameStart rm).afterSwaps j).atrousDraw (0 + j))).filter
      (fun d => decide (d.shader = Shader.modulate)) = [] := by
    rw [List.filter_eq_nil_iff]
    intro d hd
    simp only [List.mem_map] at hd
    obtain ⟨j, _, rfl⟩ := hd
    simp [SVGFPass.atrousDraw]
  have hlast : ∀ (_ : 1 ≤ s.mFilterIterations),
      (((s.frameStart rm).afterSwaps (s.mFilterIterations.toNat - 1)).atrousDraw
        (s.mFilterIterations - 1)).target = Target.fbo s.mpOutputFbo := by
    intro _
    obtain ⟨aN, _, _, _, _, aout, _⟩ :=
      afterSwaps_config (s.frameStart rm) (s.mFilterIterations.toNat - 1)
    simp only [SVGFPass.atrousDraw, SVGFPass.curTargetFbo, aN, hN, if_true, aout, hou]
  refine ⟨?_, ?_, ?_, ?_, ?_⟩
  · intro u hu
    rw [execute_output_writer s rm pDst hrm hout hon hs u hu]
    by_cases hle : s.mFilterIterations ≤ 0
    · rw [if_pos hle]
      exact ⟨_, rfl, by simp [Draw.modulates, SVGFPass.modulationDraw],
        by simp only [SVGFPass.modulationDraw, hou]⟩
    · rw [if_neg hle]
      refine ⟨_, rfl, ?_, hlast (by omega)⟩
      obtain ⟨aN, _⟩ := afterSwaps_config (s.frameStart rm) (s.mFilterIterations.toNat - 1)
      simp [Draw.modulates, atrousDraw_performModulation, aN, hN]
  · intro hle
    refine ⟨?_, (s.frameStart rm).modulationDraw, ?_, ?_, ?_, ?_⟩
    · rw [atrousDrawsOf_execute s rm pDst hrm hout hon hs]
      have : s.mFilterIterations.toNat = 0 := by omega
      simp [this]
    · rw [hdraws, if_pos hle]
      simp only [List.filter_cons, List.filter_append, hmodfilter, List.nil_append]
      simp [SVGFPass.reprojectionDraw, SVGFPass.varianceDraw, SVGFPass.modulationDraw]
    · simp [SVGFPass.modulationDraw, List.lookup, hcur]
    · simp [SVGFPass.modulationDraw, List.lookup, hcur]
    · simp only [SVGFPass.modulationDraw, hou]
  · intro hpos
    refine ⟨?_, ((s.frameStart rm).afterSwaps (s.mFilterIterations.toNat - 1)).atrousDraw
        (s.mFilterIterations - 1), ?_, ?_, hlast hpos⟩
    · rw [hdraws, if_neg (by omega)]
      simp only [List.filter_cons, List.filter_append, hmodfilter, List.append_nil]
      simp [SVGFPass.reprojectionDraw, SVGFPass.varianceDraw]
    · rw [atrousDrawsOf_execute s rm pDst hrm hout hon hs]
      have := atrousDraws_filter_modulating (s.frameStart rm) (by rw [hN]; exact hpos)
      rw [hN] at this
      rw [this]
      have e : (0 : Int) + ((s.mFilterIterations.toNat - 1 : Nat) : Int)
          = s.mFilterIterations - 1 := by omega
      rw [e]
    · rw [atrousDrawsOf_execute s rm pDst hrm hout hon hs]
      have hlt : s.mFilterIterations.toNat - 1 < s.mFilterIterations.toNat := by omega
      simp only [List.getElem?_map, List.getElem?_range hlt, Option.map_some']
      have e : (0 : Int) + ((s.mFilterIterations.toNat - 1 : Nat) : Int)
          = s.mFilterIterations - 1 := by omega
      rw [e]
  · intro hok
    have ho : getColorTexture s.mpOutputFbo 0 = some (Tex.attachment out.id 0) := by
      simp [e5, getColorTexture, l5]
    have hE : s.execute.2 =
        (s.clearCmds ++
          (Cmd.draw (s.frameStart rm).reprojectionDraw ::
            Cmd.draw (s.frameStart rm).varianceDraw ::
              ((SVGFPass.atrousLoop s.mFilterIterations.toNat 0 (s.frameStart rm)).2 ++
                ((s.frameStart rm).fallbackCapture ++
                  (if s.mFilterIterations ≤ 0 then
                    [Cmd.draw (s.frameStart rm).modulationDraw] else []))))) ++
          Cmd.blit (Tex.attachment out.id 0) pDst ::
            blitCall (rm.getTexture "SVGF_LinearZ") (s.mInputTex.prevLinearZ.map Tex.owned) := by
      rw [execute_enabled_cmds s rm pDst hrm hout hon hs, if_neg hok, ho]
      simp [blitCall]
    have hpost : ∀ u, isTarget s.mpOutputFbo u = true →
        (Cmd.blit (Tex.attachment out.id 0) pDst ::
          blitCall (rm.getTexture "SVGF_LinearZ")
            (s.mInputTex.prevLinearZ.map Tex.owned)).filter (fun c => c.writes u) = [] := by
      intro u hu
      have := final_blits_filter_output s rm pDst hout u hu (rm.getTexture "SVGF_LinearZ")
      rw [ho] at this
      exact this
    refine ⟨_, _, _, ho, hE, ?_, ?_, ?_⟩
    · rw [hE]
      simp [drawsOf_append, drawsOf, drawsOf_blitCall]
    · rcases blitCall_cases (rm.getTexture "SVGF_LinearZ")
        (s.mInputTex.prevLinearZ.map Tex.owned) with ⟨_, _, _, _, h⟩ | ⟨_, h⟩ <;> rw [h] <;> simp
    · intro u hu
      conv_rhs => rw [hE, List.filter_append, hpost u hu, List.append_nil]
  · intro hbad
    refine ⟨?_, ?_⟩
    · rw [faulted_execute_enabled s rm pDst hrm hout hon hs, decide_eq_true hbad]
      rfl
    · intro b hb
      rw [blitsOf_execute_clamped s rm pDst hrm hout hon hs hbad.1 hbad.2,
        List.mem_singleton] at hb
      rw [hb, e2]
      simp only [getColorTexture, l2]
      rw [getTexture_managed rm _ _ hout]
      simp

theorem output_written_by_one_modulating_draw_witness :
    (demoPass 4 1 true).mpResManager = some demoManager
      ∧ demoManager.getTexture (demoPass 4 1 true).mOutTexName = some (Tex.managed "Out")
      ∧ (demoPass 4 1 true).mFilterEnabled = true
      ∧ (demoPass 4 1 true).Allocated
      ∧ (drawsOf (demoPass 4 1 true).execute.2).filter
          (fun d => decide (d.shader = Shader.modulate)) = [] :=
  ⟨rfl, by decide, rfl, by decide,
    ((output_written_by_one_modulating_draw (demoPass 4 1 true) demoManager
      (Tex.managed "Out") rfl (by decide) rfl (by decide)).2.2.1 (by decide)).1⟩

/-! ## C12: each iteration reads what the previous one wrote -/

/-- C12. In a filter-enabled frame with the framebuffers allocated:
the moment-filter draw renders into the first ping-pong framebuffer, and iteration 0
binds colour targets 0 and 1 of that framebuffer as its illumination, which at that
point hold the moment filter's output; for every `i` with `i + 1 < N`, iteration `i + 1`
binds colour targets 0 and 1 of the framebuffer iteration `i` rendered into, which at
that point hold iteration `i`'s output; and every iteration `i < N` reads its
illumination from one framebuffer and renders into a different one, writing none of the
textures bound to it. -/
theorem wavelet_ping_pong (s : SVGFPass) (rm : ResourceManager) (pDst : Tex)
    (hrm : s.mpResManager = some rm) (hout : rm.getTexture s.mOutTexName = some pDst)
    (hon : s.mFilterEnabled = true) (hs : s.Allocated) :
    ((drawsOf s.execute.2)[1]? = some (s.frameStart rm).varianceDraw
        ∧ (s.frameStart rm).varianceDraw.target = Target.fbo s.mpPingPongFbo0)
      ∧ (0 < s.mFilterIterations →
          (atrousDrawsOf s.execute.2)[0]? = some (s.iterationDraw rm 0)
            ∧ (s.iterationDraw rm 0).textures.lookup "gDirect"
                = some (getColorTexture s.mpPingPongFbo0 0)
            ∧ (s.iterationDraw rm 0).textures.lookup "gIndirect"
                = some (getColorTexture s.mpPingPongFbo0 1)
            ∧ ∀ (σ : Store) (k : Nat), k < 2 →
                ∃ r, s.mpPingPongFbo0 = some r
                  ∧ runCmds (s.cmdsBeforeIteration rm 0) σ (Tex.attachment r.id k)
                      = (s.frameStart rm).varianceDraw.output
                          (runCmds (s.clearCmds ++
                            [Cmd.draw (s.frameStart rm).reprojectionDraw]) σ) k)
      ∧ (∀ i : Nat, (i : Int) + 1 < s.mFilterIterations →
          ∃ f, (atrousDrawsOf s.execute.2)[i]? = some (s.iterationDraw rm i)
            ∧ (atrousDrawsOf s.execute.2)[i + 1]? = some (s.iterationDraw rm (i + 1))
            ∧ (s.iterationDraw rm i).target = Target.fbo f
            ∧ (s.iterationDraw rm (i + 1)).textures.lookup "gDirect"
                = some (getColorTexture f 0)
            ∧ (s.iterationDraw rm (i + 1)).textures.lookup "gIndirect"
                = some (getColorTexture f 1)
            ∧ ∀ (σ : Store) (k : Nat), k < 2 →
                ∃ w, f = some w
                  ∧ runCmds (s.cmdsBeforeIteration rm (i + 1)) σ (Tex.attachment w.id k)
                      = (s.iterationDraw rm i).output
                          (runCmds (s.cmdsBeforeIteration rm i) σ) k)
      ∧ (∀ i : Nat, (i : Int) < s.mFilterIterations →
          (∃ post, s.execute.2 =
              s.cmdsBeforeIteration rm i ++ Cmd.draw (s.iterationDraw rm i) :: post)
            ∧ ∃ r w : Fbo, (atrousDrawsOf s.execute.2)[i]? = some (s.iterationDraw rm i)
              ∧ (s.iterationDraw rm i).textures.lookup "gDirect"
                  = some (getColorTexture (some r) 0)
              ∧ (s.iterationDraw rm i).textures.lookup "gIndirect"
                  = some (getColorTexture (some r) 1)
              ∧ (s.iterationDraw rm i).target = Target.fbo (some w)
              ∧ r.id ≠ w.id
              ∧ ∀ u ∈ (Cmd.draw (s.iterationDraw rm i)).reads,
                  (Cmd.draw (s.iterationDraw rm i)).writes u = false) := by
  obtain ⟨_, _, hp0, _⟩ := frameStart_config s rm
  refine ⟨⟨?_, ?_⟩, ?_, ?_, ?_⟩
  · rw [drawsOf_execute_enabled s rm pDst hrm hout hon hs]
    simp
  · simp only [SVGFPass.varianceDraw, hp0]
  · intro hpos
    obtain ⟨b1, b2, _⟩ := iterationDraw_bindings s rm 0
    rw [afterSwaps_zero] at b1 b2
    exact ⟨atrousDrawsOf_getElem s rm pDst hrm hout hon hs 0 (by simpa using hpos), b1, b2,
      fun σ k hk => iteration_zero_input s rm hs σ k hk⟩
  · intro i hi
    obtain ⟨_, _, b3⟩ := iterationDraw_bindings s rm i
    obtain ⟨c1, c2, _⟩ := iterationDraw_bindings s rm (i + 1)
    rw [if_neg (by omega)] at b3
    rw [(afterSwaps_succ_pingPong s i).1] at c1 c2
    refine ⟨(s.afterSwaps i).mpPingPongFbo1,
      atrousDrawsOf_getElem s rm pDst hrm hout hon hs i (by omega),
      atrousDrawsOf_getElem s rm pDst hrm hout hon hs (i + 1) (by push_cast; omega),
      b3, c1, c2, ?_⟩
    intro σ k hk
    exact iteration_succ_input s rm hs i hi σ k hk
  · intro i hi
    refine ⟨execute_at_iteration s rm pDst hrm hout hon hs i hi, ?_⟩
    obtain ⟨r, w, hr, hw, hne, hno⟩ := iterationDraw_no_alias s rm hs i
    obtain ⟨b1, b2, _⟩ := iterationDraw_bindings s rm i
    rw [hr] at b1 b2
    exact ⟨r, w, atrousDrawsOf_getElem s rm pDst hrm hout hon hs i hi, b1, b2, hw, hne, hno⟩

theorem wavelet_ping_pong_witness :
    (demoPass 4 1 true).mpResManager = some demoManager
      ∧ demoManager.getTexture (demoPass 4 1 true).mOutTexName = some (Tex.managed "Out")
      ∧ (demoPass 4 1 true).mFilterEnabled = true
      ∧ (demoPass 4 1 true).Allocated
      ∧ (drawsOf (demoPass 4 1 true).execute.2)[1]?
          = some ((demoPass 4 1 true).frameStart demoManager).varianceDraw :=
  ⟨rfl, by decide, rfl, by decide,
    (wavelet_ping_pong (demoPass 4 1 true) demoManager (Tex.managed "Out")
      rfl (by decide) rfl (by decide)).1.1⟩

/-! ## C13: the filtered-past framebuffer is copied into once per frame -/

/-- C13, the claim as stated fails.  With three iterations and feedback tap 5 the
in-loop capture is taken at the last iteration, whose render target, the output
framebuffer (allocation 5), has a single colour target: the frame issues one blit, into
colour target 0 of the filtered-past framebuffer (allocation 2), and stops; colour
target 1 of the filtered-past framebuffer is the destination of no copy, and the
fallback capture is not reached. -/
theorem filtered_past_copied_once_counterexample :
    fboId (demoPass 3 5 true).mpFilteredPastFbo = some 2
      ∧ blitsOf (demoPass 3 5 true).execute.2 =
          [ (some (Tex.attachment 5 0), some (Tex.attachment 2 0)) ]
      ∧ ((blitsOf (demoPass 3 5 true).execute.2).filter
          (fun b => decide (b.2 = getColorTexture (demoPass 3 5 true).mpFilteredPastFbo 1))).length
          = 0
      ∧ (demoPass 3 5 true).execute.2.getLast? = some Cmd.fault :=
  ⟨rfl, by decide, by decide, by decide⟩

/-- C13, amended.  Take a filter-enabled execution with the framebuffers allocated and
a feedback tap below the last iteration index (`tap <= N - 2`, the range `renderGui`
keeps) or no iteration at all.  It takes exactly one of the two captures: either the
feedback tap is not negative and there is at least one iteration, the loop issues the
two capture blits (at iteration `tap`) and the fallback is skipped; or the tap is
negative or the count not positive, the loop issues no blit and the fallback issues the
two blits from the current reprojection framebuffer.  The blits of the frame are then
those two, the blit to the output texture and, when the manager has the depth texture,
the copy of linear depth.  Each of the two colour targets of the filtered-past
framebuffer is the destination of exactly one blit of the frame, and no draw of the
frame renders into it.  (A pending clear also clears the filtered-past framebuffer,
before any of this.) -/
theorem filtered_past_copied_once (s : SVGFPass) (rm : ResourceManager) (pDst : Tex)
    (hrm : s.mpResManager = some rm) (hout : rm.getTexture s.mOutTexName = some pDst)
    (hon : s.mFilterEnabled = true) (hs : s.Allocated)
    (htap : ¬ (1 ≤ s.mFilterIterations ∧ s.mFilterIterations - 1 ≤ s.mFeedbackTap)) :
    ((0 ≤ s.mFeedbackTap ∧ 1 ≤ s.mFilterIterations
          ∧ (∃ j : Nat, (j : Int) = min s.mFeedbackTap (s.mFilterIterations - 1)
              ∧ blitsOf (SVGFPass.atrousLoop s.mFilterIterations.toNat 0 (s.frameStart rm)).2 =
                [ (getColorTexture (s.iterationDraw rm j).target.framebuffer 0,
                    getColorTexture s.mpFilteredPastFbo 0),
                  (getColorTexture (s.iterationDraw rm j).target.framebuffer 1,
                    getColorTexture s.mpFilteredPastFbo 1) ])
          ∧ (s.frameStart rm).fallbackCapture = [])
        ∨ ((s.mFeedbackTap < 0 ∨ s.mFilterIterations ≤ 0)
          ∧ blitsOf (SVGFPass.atrousLoop s.mFilterIterations.toNat 0 (s.frameStart rm)).2 = []
          ∧ blitsOf (s.frameStart rm).fallbackCapture =
              [ (getColorTexture s.mpCurReprojFbo 0, getColorTexture s.mpFilteredPastFbo 0),
                (getColorTexture s.mpCurReprojFbo 1,
                  getColorTexture s.mpFilteredPastFbo 1) ]))
      ∧ (∃ src0 src1, blitsOf s.execute.2 =
          (src0, getColorTexture s.mpFilteredPastFbo 0) ::
          (src1, getColorTexture s.mpFilteredPastFbo 1) ::
          (getColorTexture s.mpOutputFbo 0, some pDst) ::
          ((rm.getTexture "SVGF_LinearZ").map
            (fun v => (some v, s.mInputTex.prevLinearZ.map Tex.owned))).toList)
      ∧ (∀ k : Nat, k < 2 →
          ((blitsOf s.execute.2).filter
            (fun b => decide (b.2 = getColorTexture s.mpFilteredPastFbo k))).length = 1)
      ∧ ∀ d ∈ drawsOf s.execute.2, ∀ u, isTarget s.mpFilteredPastFbo u = true →
          (Cmd.draw d).writes u = false := by
  have hex := capture_exclusive s rm hs htap
  have hblits : ∃ src0 src1, blitsOf s.execute.2 =
      (src0, getColorTexture s.mpFilteredPastFbo 0) ::
      (src1, getColorTexture s.mpFilteredPastFbo 1) ::
      (getColorTexture s.mpOutputFbo 0, some pDst) ::
      ((rm.getTexture "SVGF_LinearZ").map
        (fun v => (some v, s.mInputTex.prevLinearZ.map Tex.owned))).toList := by
    rw [blitsOf_execute_enabled s rm pDst hrm hout hon hs, if_neg htap]
    rcases hex with ⟨_, _, ⟨j, _, h1⟩, h2⟩ | ⟨_, h1, h2⟩
    · exact ⟨_, _, by rw [h1, h2]; rfl⟩
    · exact ⟨_, _, by rw [h1, h2]; rfl⟩
  refine ⟨hex, hblits, ?_, draws_keep_filteredPast s rm pDst hrm hout hon hs⟩
  intro k hk
  obtain ⟨p0, p1, fp, cur, prv, out, e0, e1, e2, e3, e4, e5, l0, l1, l2, l3, l4, l5, _⟩ :=
    allocated_exists s hs
  obtain ⟨z, hz⟩ := allocated_prevLinearZ s hs
  obtain ⟨src0, src1, hb⟩ := hblits
  have hdm := getTexture_managed rm _ _ hout
  rw [hb, e2, hz]
  have hk2 : k = 0 ∨ k = 1 := by omega
  rcases hk2 with rfl | rfl <;>
    cases rm.getTexture "SVGF_LinearZ" <;>
    simp [getColorTexture, l2, hdm, List.filter_cons]

theorem filtered_past_copied_once_witness :
    (demoPass 4 1 true).mpResManager = some demoManager
      ∧ demoManager.getTexture (demoPass 4 1 true).mOutTexName = some (Tex.managed "Out")
      ∧ (demoPass 4 1 true).mFilterEnabled = true
      ∧ (demoPass 4 1 true).Allocated
      ∧ ¬ (1 ≤ (demoPass 4 1 true).mFilterIterations
          ∧ (demoPass 4 1 true).mFilterIterations - 1 ≤ (demoPass 4 1 true).mFeedbackTap)
      ∧ ((blitsOf (demoPass 4 1 true).execute.2).filter
          (fun b => decide (b.2 = getColorTexture (demoPass 4 1 true).mpFilteredPastFbo 0))).length
          = 1 :=
  ⟨rfl, by decide, rfl, by decide, by decide,
    (filtered_past_copied_once (demoPass 4 1 true) demoManager (Tex.managed "Out")
      rfl (by decide) rfl (by decide) (by decide)).2.2.1 0 (by decide)⟩

/-! ## C14: the order of the stages -/

/-- C14. The commands of a filter-enabled execution with the framebuffers allocated
are, in this order: the pending clear, the reprojection draw, the moment-filter draw,
the wavelet loop and, unless the frame stops in the feedback capture of the last
iteration (feedback tap at or beyond the last index), the fallback capture, the
standalone modulation draw exactly when the iteration count is not positive, the blit of
the output framebuffer to the output texture, and last the copy of linear depth into the
previous-depth texture.  The loop runs its iterations in increasing index: its first
`i + 1` iterations are its first `i` followed by the draw of iteration `i` and that
iteration's capture, so the draws of the frame are reprojection, moment filter,
iterations `0 .. N - 1`, then the modulation if any, whatever the feedback tap.  With a
feedback tap below the last index (or no iteration) and the linear-depth texture present
the frame runs to completion: its last two commands are the blit to the output texture
and the depth copy, and the exchange of the current and previous reprojection pointers
comes after all of the draws: the reprojection draw renders into the framebuffer that is
"current" before the call, and the object returned has the two pointers exchanged. -/
theorem stage_order (s : SVGFPass) (rm : ResourceManager) (pDst : Tex)
    (hrm : s.mpResManager = some rm) (hout : rm.getTexture s.mOutTexName = some pDst)
    (hon : s.mFilterEnabled = true) (hs : s.Allocated) :
    s.execute.2 =
        s.clearCmds ++
          (Cmd.draw (s.frameStart rm).reprojectionDraw ::
            Cmd.draw (s.frameStart rm).varianceDraw ::
              ((SVGFPass.atrousLoop s.mFilterIterations.toNat 0 (s.frameStart rm)).2 ++
                (if 1 ≤ s.mFilterIterations ∧ s.mFilterIterations - 1 ≤ s.mFeedbackTap then []
                 else
                  (s.frameStart rm).fallbackCapture ++
                    ((if s.mFilterIterations ≤ 0 then
                        [Cmd.draw (s.frameStart rm).modulationDraw] else []) ++
                      (blitCall (getColorTexture s.mpOutputFbo 0) (some pDst) ++
                        blitCall (rm.getTexture "SVGF_LinearZ")
                          (s.mInputTex.prevLinearZ.map Tex.owned))))))
      ∧ (∀ i : Nat, (i : Int) < s.mFilterIterations →
          (SVGFPass.atrousLoop (i + 1) 0 (s.frameStart rm)).2 =
            (SVGFPass.atrousLoop i 0 (s.frameStart rm)).2 ++
              (Cmd.draw (s.iterationDraw rm i) ::
                ((s.frameStart rm).afterSwaps i).feedbackCapture i))
      ∧ drawsOf s.execute.2 =
          (s.frameStart rm).reprojectionDraw :: (s.frameStart rm).varianceDraw ::
            ((List.range s.mFilterIterations.toNat).map (fun j => s.iterationDraw rm j) ++
              if s.mFilterIterations ≤ 0 then [(s.frameStart rm).modulationDraw] else [])
      ∧ (drawsOf s.execute.2).map (fun d => d.shader) =
          Shader.reproject :: Shader.filterMoments ::
            (List.replicate s.mFilterIterations.toNat Shader.atrous ++
              if s.mFilterIterations ≤ 0 then [Shader.modulate] else [])
      ∧ drawsOf (s.frameStart rm).fallbackCapture = []
      ∧ (s.frameStart rm).reprojectionDraw.target = Target.fbo s.mpCurReprojFbo
      ∧ (¬ (1 ≤ s.mFilterIterations ∧ s.mFilterIterations - 1 ≤ s.mFeedbackTap) →
          (rm.getTexture "SVGF_LinearZ").isSome = true →
          faulted s.execute.2 = false
            ∧ (∃ o z p, getColorTexture s.mpOutputFbo 0 = some o
                ∧ rm.getTexture "SVGF_LinearZ" = some z ∧ s.mInputTex.prevLinearZ = some p
                ∧ s.execute.2 =
                    (s.clearCmds ++
                      (Cmd.draw (s.frameStart rm).reprojectionDraw ::
                        Cmd.draw (s.frameStart rm).varianceDraw ::
                          ((SVGFPass.atrousLoop s.mFilterIterations.toNat 0
                              (s.frameStart rm)).2 ++
                            ((s.frameStart rm).fallbackCapture ++
                              (if s.mFilterIterations ≤ 0 then
                                [Cmd.draw (s.frameStart rm).modulationDraw] else []))))) ++
                      [Cmd.blit o pDst, Cmd.blit z (Tex.owned p)])
            ∧ s.execute.1.mpCurReprojFbo = s.mpPrevReprojFbo
            ∧ s.execute.1.mpPrevReprojFbo = s.mpCurReprojFbo) := by
  obtain ⟨hN, hT, hp0, hp1, hfp, hcur, hprev, hou, hz⟩ := frameStart_config s rm
  have hd := drawsOf_execute_iterations s rm pDst hrm hout hon hs
  refine ⟨execute_enabled_cmds s rm pDst hrm hout hon hs, ?_, hd, ?_,
    drawsOf_fallbackCapture _, by simp only [SVGFPass.reprojectionDraw, hcur], ?_⟩
  · intro i hi
    have h := cmdsBeforeIteration_succ s rm hs i hi
    simp only [SVGFPass.cmdsBeforeIteration, List.append_assoc, List.cons_append] at h
    have h2 := List.append_cancel_left h
    simp only [List.cons.injEq, true_and] at h2
    exact h2
  · rw [hd]
    simp only [List.map_cons, List.map_append, List.map_map]
    have h1 : List.map ((fun d : Draw => d.shader) ∘ fun j => s.iterationDraw rm j)
        (List.range s.mFilterIterations.toNat)
        = List.replicate s.mFilterIterations.toNat Shader.atrous := by
      rw [List.eq_replicate_iff]
      refine ⟨by simp, ?_⟩
      intro b hb
      simp only [List.mem_map] at hb
      obtain ⟨j, _, rfl⟩ := hb
      rfl
    have h2 : List.map (fun d : Draw => d.shader)
        (if s.mFilterIterations ≤ 0 then [(s.frameStart rm).modulationDraw] else [])
        = if s.mFilterIterations ≤ 0 then [Shader.modulate] else [] := by
      split <;> rfl
    rw [h1, h2]
    rfl
  · intro htap hdepth
    have hdone : faulted s.execute.2 = false := by
      rw [faulted_execute_enabled s rm pDst hrm hout hon hs, decide_eq_false htap]
      cases h : rm.getTexture "SVGF_LinearZ" with
      | none => rw [h] at hdepth; exact absurd hdepth (by decide)
      | some z => rfl
    have hst := execute_enabled_state s rm pDst hrm hout hon hs htap
    exact ⟨hdone, (execute_completed_cmds s rm pDst hrm hout hon hs hdone).2,
      by rw [hst], by rw [hst]⟩

theorem stage_order_witness :
    (demoPass 4 1 true).mpResManager = some demoManager
      ∧ demoManager.getTexture (demoPass 4 1 true).mOutTexName = some (Tex.managed "Out")
      ∧ (demoPass 4 1 true).mFilterEnabled = true
      ∧ (demoPass 4 1 true).Allocated
      ∧ (drawsOf (demoPass 4 1 true).execute.2).map (fun d => d.shader) =
          Shader.reproject :: Shader.filterMoments ::
            (List.replicate (demoPass 4 1 true).mFilterIterations.toNat Shader.atrous ++
              if (demoPass 4 1 true).mFilterIterations ≤ 0 then [Shader.modulate] else []) :=
  ⟨rfl, by decide, rfl, by decide,
    (stage_order (demoPass 4 1 true) demoManager (Tex.managed "Out")
      rfl (by decide) rfl (by decide)).2.2.2.1⟩

/-! ## C15: the pending clear -/

/-- C15. The pending-clear flag is raised by the constructor and by every `resize` with
positive dimensions, and such a `resize`, on any pass, a freshly constructed one
included, leaves the buffers allocated.  Take a pass whose buffers are allocated.  Whether the filter is enabled or not, an execution that finds
its output texture while the flag is raised starts with the clears of `clearFbos`,
issues no other clear and lowers the flag; a skipped execution issues nothing and leaves
the object as it is.  Hence, over any sequence of calls that contains no `resize` with
positive dimensions: when no clear is pending at the start, no clear is issued and the
flag stays lowered; when a clear is pending at the start, either nothing at all is
issued and the clear is still pending (every execution was skipped), or the commands
start with the clears of `clearFbos`, contain no other clear, and the flag ends
lowered. -/
theorem pending_clear_lifecycle (s : SVGFPass) (cs : List Call) (hs : s.Allocated)
    (hcs : ∀ c ∈ cs, c.allocates = false) :
    (∀ directIn indirectIn outChannel,
        (SVGFPass.create directIn indirectIn outChannel).mNeedFboClear = true)
      ∧ (∀ (t : SVGFPass) (w h : Nat), 0 < w → 0 < h →
          (t.resize w h).mNeedFboClear = true ∧ (t.resize w h).Allocated)
      ∧ (s.clearFbos.2 ≠ [] ∧ ∀ c ∈ s.clearFbos.2, c.isClear = true)
      ∧ (∀ rm pDst, s.mpResManager = some rm → rm.getTexture s.mOutTexName = some pDst →
          s.mNeedFboClear = true →
          s.execute.1.mNeedFboClear = false
            ∧ ∃ rest, s.execute.2 = s.clearFbos.2 ++ rest ∧ ∀ c ∈ rest, c.isClear = false)
      ∧ ((s.mpResManager = none
            ∨ ∃ rm, s.mpResManager = some rm ∧ rm.getTexture s.mOutTexName = none) →
          s.execute = (s, []))
      ∧ (s.mNeedFboClear = false →
          (s.calls cs).1.mNeedFboClear = false ∧ ∀ c ∈ (s.calls cs).2, c.isClear = false)
      ∧ (s.mNeedFboClear = true →
          ((s.calls cs).1.mNeedFboClear = true ∧ (s.calls cs).2 = [])
            ∨ ((s.calls cs).1.mNeedFboClear = false
              ∧ ∃ rest, (s.calls cs).2 = s.clearFbos.2 ++ rest
                  ∧ ∀ c ∈ rest, c.isClear = false)) :=
  ⟨fun _ _ _ => rfl,
    fun t w h hw hh => ⟨(resize_fields t w h hw hh).2.2.2, resize_allocated t w h hw hh⟩,
    clearFbos_all_clear s hs,
    fun rm pDst hrm hout hflag => execute_clear_pending s rm pDst hrm hout hs hflag,
    execute_skipped_state s,
    fun hflag => calls_no_clear s cs hs hflag hcs,
    fun hflag => calls_first_clear s cs hs hflag hcs⟩

theorem pending_clear_lifecycle_witness :
    (demoPass 4 1 true).Allocated
      ∧ (∀ c ∈ [Call.execute, Call.renderGui false 4 1 ⟨0⟩ ⟨0⟩ ⟨0⟩, Call.resize 0 7, Call.execute],
        c.allocates = false)
      ∧ ((SVGFPass.create "Direct" "Indirect" "Out").resize 4 4).mNeedFboClear = true :=
  ⟨by decide, by decide,
    ((pending_clear_lifecycle (demoPass 4 1 true)
      [Call.execute, Call.renderGui false 4 1 ⟨0⟩ ⟨0⟩ ⟨0⟩, Call.resize 0 7, Call.execute]
      (by decide) (by decide)).2.1 (SVGFPass.create "Direct" "Indirect" "Out") 4 4
        (by decide) (by decide)).1⟩

/-! ## C16: the six framebuffers stay distinct -/

/-- C16. Let `t` be the object reached from a `resize` with positive dimensions by any
sequence of calls (`initialize`, `resize`, `renderGui` with any values, `execute`).  The
six framebuffers of `t` are all allocated and pairwise different.  Consequently, in a
filter-enabled execution of `t` that finds its output texture, the reprojection draw
renders into the current-reprojection framebuffer, which is neither the
previous-reprojection nor the filtered-past framebuffer; that draw overwrites none of the
textures it reads; and after the pending clear no command of the frame overwrites a
colour target of the previous-reprojection framebuffer. -/
theorem framebuffers_distinct_reachable (s t : SVGFPass) (w h : Nat) (cs : List Call)
    (hw : 0 < w) (hh : 0 < h) (ht : t = ((s.resize w h).calls cs).1) :
    t.Allocated
      ∧ (t.mpPingPongFbo0 ≠ none ∧ t.mpPingPongFbo1 ≠ none ∧ t.mpFilteredPastFbo ≠ none
          ∧ t.mpCurReprojFbo ≠ none ∧ t.mpPrevReprojFbo ≠ none ∧ t.mpOutputFbo ≠ none)
      ∧ [fboId t.mpPingPongFbo0, fboId t.mpPingPongFbo1, fboId t.mpFilteredPastFbo,
          fboId t.mpCurReprojFbo, fboId t.mpPrevReprojFbo, fboId t.mpOutputFbo].Nodup
      ∧ (∀ rm pDst, t.mpResManager = some rm → rm.getTexture t.mOutTexName = some pDst →
          t.mFilterEnabled = true →
          (t.frameStart rm).reprojectionDraw.target = Target.fbo t.mpCurReprojFbo
            ∧ fboId t.mpCurReprojFbo ≠ fboId t.mpPrevReprojFbo
            ∧ fboId t.mpCurReprojFbo ≠ fboId t.mpFilteredPastFbo
            ∧ (∀ u ∈ (Cmd.draw (t.frameStart rm).reprojectionDraw).reads,
                (Cmd.draw (t.frameStart rm).reprojectionDraw).writes u = false)
            ∧ ∃ rest,
                t.execute.2 =
                  t.clearCmds ++ (Cmd.draw (t.frameStart rm).reprojectionDraw :: rest)
                ∧ ∀ u, isTarget t.mpPrevReprojFbo u = true →
                    ∀ c ∈ Cmd.draw (t.frameStart rm).reprojectionDraw :: rest,
                      c.writes u = false) := by
  have hs : t.Allocated := by
    rw [ht]
    exact calls_allocated _ cs (resize_allocated s w h hw hh)
  obtain ⟨p0, p1, fp, cur, prv, out, e0, e1, e2, e3, e4, e5, _⟩ := allocated_exists t hs
  obtain ⟨_, _, _, _, _, _, _, _, _, dfc, _, _, dcp, _, _⟩ := allocated_distinct t hs
  refine ⟨hs, ⟨by simp [e0], by simp [e1], by simp [e2], by simp [e3], by simp [e4],
    by simp [e5]⟩, hs.2.2.2.2.2.2.1, ?_⟩
  intro rm pDst hrm hout hon
  obtain ⟨_, _, _, _, _, hcur, _⟩ := frameStart_config t rm
  refine ⟨?_, dcp, Ne.symm dfc, reprojectionDraw_reads_kept t rm hs,
    execute_enabled_keeps_prev t rm pDst hrm hout hon hs⟩
  simp only [SVGFPass.reprojectionDraw, hcur]

theorem framebuffers_distinct_reachable_witness :
    0 < 4 ∧ 0 < 3
      ∧ ((((SVGFPass.create "Direct" "Indirect" "Out").setup demoManager).resize 4 3).calls
            [Call.execute, Call.renderGui true 2 0 ⟨0⟩ ⟨0⟩ ⟨0⟩, Call.execute, Call.resize 2 2,
              Call.renderGui false 2 0 ⟨0⟩ ⟨0⟩ ⟨0⟩, Call.execute]).1.Allocated :=
  ⟨by decide, by decide,
    (framebuffers_distinct_reachable ((SVGFPass.create "Direct" "Indirect" "Out").setup demoManager)
      _ 4 3
      [Call.execute, Call.renderGui true 2 0 ⟨0⟩ ⟨0⟩ ⟨0⟩, Call.execute, Call.resize 2 2,
        Call.renderGui false 2 0 ⟨0⟩ ⟨0⟩ ⟨0⟩, Call.execute]
      (by decide) (by decide) rfl).1⟩

/-! ## C17: the capture inside the ranges of the GUI -/

/-- C17. Take a filter-enabled execution that finds its output texture, with the
framebuffers allocated and a feedback tap of at most the iteration count minus 2; every
configuration in the ranges `renderGui` enforces (count between 2 and 10, tap between -1
and the count minus 2) is of this kind.  When the tap is negative (-1 in those ranges) the
two blits into the filtered-past framebuffer read colour targets 0 and 1 of the
current-reprojection framebuffer, which has four colour targets and is not the output
framebuffer.  When the tap is not negative they read colour targets 0 and 1 of the render
target of wavelet draw number `tap`; that draw has `gPerformModulation` off, and its
target is one of the two ping-pong framebuffers, has two colour targets and is not the
output framebuffer.  (The other blits of the frame are the one to the output texture
and, when the manager has the depth texture, the depth copy.)  In both cases no blit into the filtered-past framebuffer has a null
source or a source in the output framebuffer, and at the end of the frame colour targets
0 and 1 of the filtered-past framebuffer hold an output of the reprojection shader or of
the wavelet shader run with `gPerformModulation` off. -/
theorem capture_within_gui_ranges (s : SVGFPass) (rm : ResourceManager) (pDst : Tex)
    (hrm : s.mpResManager = some rm) (hout : rm.getTexture s.mOutTexName = some pDst)
    (hon : s.mFilterEnabled = true) (hs : s.Allocated)
    (ht2 : s.mFeedbackTap ≤ s.mFilterIterations - 2) :
    (s.mFeedbackTap < 0 →
        blitsOf s.execute.2 =
            (getColorTexture s.mpCurReprojFbo 0, getColorTexture s.mpFilteredPastFbo 0) ::
            (getColorTexture s.mpCurReprojFbo 1, getColorTexture s.mpFilteredPastFbo 1) ::
            (getColorTexture s.mpOutputFbo 0, some pDst) ::
            ((rm.getTexture "SVGF_LinearZ").map
              (fun v => (some v, s.mInputTex.prevLinearZ.map Tex.owned))).toList
          ∧ fboColors s.mpCurReprojFbo = 4
          ∧ fboId s.mpCurReprojFbo ≠ fboId s.mpOutputFbo)
      ∧ (0 ≤ s.mFeedbackTap →
          blitsOf s.execute.2 =
            (getColorTexture
                  (s.iterationDraw rm s.mFeedbackTap.toNat).target.framebuffer 0,
                getColorTexture s.mpFilteredPastFbo 0) ::
            (getColorTexture
                  (s.iterationDraw rm s.mFeedbackTap.toNat).target.framebuffer 1,
                getColorTexture s.mpFilteredPastFbo 1) ::
            (getColorTexture s.mpOutputFbo 0, some pDst) ::
            ((rm.getTexture "SVGF_LinearZ").map
              (fun v => (some v, s.mInputTex.prevLinearZ.map Tex.owned))).toList
          ∧ (atrousDrawsOf s.execute.2)[s.mFeedbackTap.toNat]?
              = some (s.iterationDraw rm s.mFeedbackTap.toNat)
          ∧ (s.iterationDraw rm s.mFeedbackTap.toNat).performModulation
              = some (Const.bool false)
          ∧ ((s.iterationDraw rm s.mFeedbackTap.toNat).target.framebuffer = s.mpPingPongFbo0
              ∨ (s.iterationDraw rm s.mFeedbackTap.toNat).target.framebuffer
                  = s.mpPingPongFbo1)
          ∧ fboColors (s.iterationDraw rm s.mFeedbackTap.toNat).target.framebuffer = 2
          ∧ fboId (s.iterationDraw rm s.mFeedbackTap.toNat).target.framebuffer
              ≠ fboId s.mpOutputFbo)
      ∧ (∀ b ∈ blitsOf s.execute.2,
          (∃ u, b.2 = some u ∧ isTarget s.mpFilteredPastFbo u = true) →
          ∃ v, b.1 = some v ∧ isTarget s.mpOutputFbo v = false)
      ∧ (∀ (σ : Store) (k : Nat), k < 2 →
          ∃ g, s.mpFilteredPastFbo = some g
            ∧ ∃ sh ins cs, runCmds s.execute.2 σ (Tex.attachment g.id k)
                  = Val.shaded sh ins cs k
                ∧ (sh = Shader.reproject
                    ∨ (sh = Shader.atrous
                        ∧ cs.lookup "gPerformModulation" = some (Const.bool false)))) := by
  have hpre := capture_premodulation s rm pDst hrm hout hon hs (by omega)
  obtain ⟨_, _, _, _, d0o, _, _, _, d1o, _, _, _, _, dco, _⟩ := allocated_distinct s hs
  have hs2 := hs
  obtain ⟨c0, c1, _, c3, _, _, _⟩ := hs
  refine ⟨?_, ?_, hpre.1, hpre.2⟩
  · intro hneg
    exact ⟨blitsOf_execute_fallback s rm pDst hrm hout hon hs2 (Or.inl (by omega)), c3, dco⟩
  · intro hpos
    obtain ⟨t, ht⟩ : ∃ t : Nat, s.mFeedbackTap = (t : Int) :=
      ⟨s.mFeedbackTap.toNat, by omega⟩
    have htn : s.mFeedbackTap.toNat = t := by omega
    have hlt : (t : Int) + 1 < s.mFilterIterations := by omega
    have htarget : (s.iterationDraw rm t).target.framebuffer
        = (s.afterSwaps t).mpPingPongFbo1 := by
      rw [(iterationDraw_bindings s rm t).2.2, if_neg (by omega)]
      rfl
    have hmod : (s.iterationDraw rm t).performModulation = some (Const.bool false) := by
      obtain ⟨hN0, _⟩ := frameStart_config s rm
      obtain ⟨aN, _⟩ := afterSwaps_config (s.frameStart rm) t
      have hne : ¬ ((t : Int) = s.mFilterIterations - 1) := by omega
      simp only [SVGFPass.iterationDraw, atrousDraw_performModulation, aN, hN0]
      simp [hne]
    rw [htn, htarget]
    refine ⟨blitsOf_execute_tap s rm pDst hrm hout hon hs2 t ht hlt,
      atrousDrawsOf_getElem s rm pDst hrm hout hon hs2 t (by omega), hmod, ?_, ?_, ?_⟩
    · rcases afterSwaps_pingPong s t with ⟨_, h⟩ | ⟨_, h⟩
      · exact Or.inr h
      · exact Or.inl h
    · rcases afterSwaps_pingPong s t with ⟨_, h⟩ | ⟨_, h⟩
      · rw [h]; exact c1
      · rw [h]; exact c0
    · rcases afterSwaps_pingPong s t with ⟨_, h⟩ | ⟨_, h⟩
      · rw [h]; exact d1o
      · rw [h]; exact d0o

theorem capture_within_gui_ranges_witness :
    (demoPass 4 1 true).mpResManager = some demoManager
      ∧ demoManager.getTexture (demoPass 4 1 true).mOutTexName = some (Tex.managed "Out")
      ∧ (demoPass 4 1 true).mFilterEnabled = true
      ∧ (demoPass 4 1 true).Allocated
      ∧ (demoPass 4 1 true).mFeedbackTap ≤ (demoPass 4 1 true).mFilterIterations - 2
      ∧ (demoPass 4 1 true |>.iterationDraw demoManager
            (demoPass 4 1 true).mFeedbackTap.toNat).performModulation
          = some (Const.bool false) :=
  ⟨rfl, by decide, rfl, by decide, by decide,
    ((capture_within_gui_ranges (demoPass 4 1 true) demoManager (Tex.managed "Out")
      rfl (by decide) rfl (by decide) (by decide)).2.1 (by decide)).2.2.1⟩

/-! ## C18: frames with the filter off -/

/-- C18. Start with no clear pending and the filter off, and run `n` executions in a row
(`n = 1` is a single execution).  The six framebuffer pointers and the previous-depth
pointer are the same afterwards as before, so the current/previous and the ping-pong
roles are as they were; no clear is pending and the filter is still off.  The commands
issued leave the content of every texture that does not belong to the resource manager
as it was: in particular every colour target of every framebuffer and the previous-depth
texture.  Whatever `renderGui` sets next, the execution that follows behaves exactly as
it would have without the `n` frames: same commands, same resulting object. -/
theorem disabled_frames_keep_history (s : SVGFPass) (n : Nat)
    (hflag : s.mNeedFboClear = false) (hoff : s.mFilterEnabled = false) :
    ((s.frames 1).1 = s.execute.1 ∧ (s.frames 1).2 = s.execute.2)
      ∧ ((s.frames n).1.mpPingPongFbo0 = s.mpPingPongFbo0
          ∧ (s.frames n).1.mpPingPongFbo1 = s.mpPingPongFbo1
          ∧ (s.frames n).1.mpFilteredPastFbo = s.mpFilteredPastFbo
          ∧ (s.frames n).1.mpCurReprojFbo = s.mpCurReprojFbo
          ∧ (s.frames n).1.mpPrevReprojFbo = s.mpPrevReprojFbo
          ∧ (s.frames n).1.mpOutputFbo = s.mpOutputFbo
          ∧ (s.frames n).1.mInputTex.prevLinearZ = s.mInputTex.prevLinearZ
          ∧ (s.frames n).1.mNeedFboClear = false
          ∧ (s.frames n).1.mFilterEnabled = false)
      ∧ (∀ (σ : Store) (u : Tex), u.isManaged = false → runCmds (s.frames n).2 σ u = σ u)
      ∧ (∀ (σ : Store) (f : Option Fbo) (k : Nat) (u : Tex), getColorTexture f k = some u →
          runCmds (s.frames n).2 σ u = σ u)
      ∧ (∀ (σ : Store) (z : Texture2D), s.mInputTex.prevLinearZ = some z →
          runCmds (s.frames n).2 σ (Tex.owned z) = σ (Tex.owned z))
      ∧ (∀ enabled iterations tap phiColor alpha momentsAlpha,
          ((s.frames n).1.renderGui enabled iterations tap phiColor alpha momentsAlpha).execute
            = (s.renderGui enabled iterations tap phiColor alpha momentsAlpha).execute) := by
  obtain ⟨hst, hwr, _⟩ := frames_disabled_cases s n hflag hoff
  have hkeep : ∀ (σ : Store) (u : Tex), u.isManaged = false →
      runCmds (s.frames n).2 σ u = σ u :=
    fun σ u hu => runCmds_of_not_writes _ σ u (hwr u hu)
  have hone : s.frames 1 = s.execute := by
    rw [frames_succ, frames_zero, faulted_execute_disabled s hflag hoff]
    simp
  refine ⟨⟨by rw [hone], by rw [hone]⟩, ?_, hkeep, ?_, ?_, ?_⟩
  · rcases hst with e | ⟨rm, pDst, _, _, e⟩
    · rw [e]
      exact ⟨rfl, rfl, rfl, rfl, rfl, rfl, rfl, hflag, hoff⟩
    · rw [e]
      exact ⟨rfl, rfl, rfl, rfl, rfl, rfl, rfl, hflag, hoff⟩
  · intro σ f k u hu
    apply hkeep
    cases f with
    | none => simp [getColorTexture] at hu
    | some g =>
      simp only [getColorTexture] at hu
      split at hu
      · simp only [Option.some.injEq] at hu
        rw [← hu]
        rfl
      · simp at hu
  · intro σ z _
    exact hkeep σ _ rfl
  · intro e N tap a b c
    rcases hst with h | ⟨rm, pDst, hrm, hout, h⟩
    · rw [h]
    · rw [h]
      exact bindInputs_execute (s.renderGui e N tap a b c) rm pDst hrm hout hflag

theorem disabled_frames_keep_history_witness :
    ((demoPass 4 1 true).execute.1.renderGui false 4 1 ⟨0⟩ ⟨0⟩ ⟨0⟩).mNeedFboClear = false
      ∧ ((demoPass 4 1 true).execute.1.renderGui false 4 1 ⟨0⟩ ⟨0⟩ ⟨0⟩).mFilterEnabled = false
      ∧ (((demoPass 4 1 true).execute.1.renderGui false 4 1 ⟨0⟩ ⟨0⟩ ⟨0⟩).frames 3).1.mpCurReprojFbo
          = ((demoPass 4 1 true).execute.1.renderGui false 4 1 ⟨0⟩ ⟨0⟩ ⟨0⟩).mpCurReprojFbo :=
  ⟨by decide, rfl,
    (disabled_frames_keep_history
      ((demoPass 4 1 true).execute.1.renderGui false 4 1 ⟨0⟩ ⟨0⟩ ⟨0⟩) 3
      (by decide) rfl).2.1.2.2.2.1⟩

end SVGF
